import Mathlib

/-!
Verification development for the obsidian-asana-sync repository.

The engine under verification lives in `src/syncEngine.ts` (task-line codec,
note model, `syncProject`) and `src/main.ts` (the checkbox change detector).
Strings are modelled as `List Char`; documents as lists of lines (the result
of `content.split("\n")`, joined back with `"\n"`).  JavaScript `Map`s are
modelled as insertion-ordered association lists with last-write-wins `set`,
matching JS iteration order.  Remote calls (`updateTaskCompletion`) are
collected into an explicit update list; the mid-pass re-fetch is modelled by
applying those updates to the initially fetched snapshot, which is exactly
the "no intervening remote change" assumption the claims are stated under.
-/

namespace AsanaSync

/-- Strings from the source are modelled as lists of characters. -/
abbrev Str := List Char

/-- Coerce a Lean string literal to the model representation. -/
def s2l (s : String) : Str := s.data

/-- JavaScript `\s` character class (the code points matched by `\s` in a
JS regular expression). -/
def isWsChar (c : Char) : Bool :=
  c == ' ' || c == '\t' || c == '\n' || c == '\r' || c == '\x0b' || c == '\x0c' ||
  c == '\u00A0' || c == '\u1680' || ('\u2000' ≤ c && c ≤ '\u200A') ||
  c == '\u2028' || c == '\u2029' || c == '\u202F' || c == '\u205F' ||
  c == '\u3000' || c == '\uFEFF'

/-- JavaScript `\w` character class: `[A-Za-z0-9_]`. -/
def isWordChar (c : Char) : Bool :=
  ('a' ≤ c && c ≤ 'z') || ('A' ≤ c && c ≤ 'Z') || ('0' ≤ c && c ≤ '9') || c == '_'

/-- JavaScript `\d` character class. -/
def isDigitChar (c : Char) : Bool := '0' ≤ c && c ≤ '9'

/-- JavaScript `.` (without the `s` flag): any character except the four
line terminators LF, CR, U+2028 and U+2029. -/
def isDotChar (c : Char) : Bool :=
  !(c == '\n' || c == '\r' || c == '\u2028' || c == '\u2029')

/-- Maximal munch of `\s*` (greedy; deterministic whenever the pattern that
follows cannot start with a whitespace character, which is the case at every
occurrence of `\s*` inside the task-line regex). -/
def dropWs : Str → Str
  | [] => []
  | c :: r => if isWsChar c then dropWs r else c :: r

/-- Consume an exact literal from the front of the input; `none` when the
input does not start with the literal. -/
def litFit : Str → Str → Option Str
  | [], s => some s
  | _ :: _, [] => none
  | a :: la, b :: lb => if a = b then litFit la lb else none

/-- `startsWith` on the model representation. -/
def startsWithLit (lit s : Str) : Bool := (litFit lit s).isSome

/-- `\s*$`: the remaining input is all whitespace. -/
def matchEnd (s : Str) : Bool := s.all isWsChar

/-- Greedy `\w+`-style span: the maximal word-character run and the rest. -/
def takeWord : Str → Str × Str
  | [] => ([], [])
  | c :: r =>
    if isWordChar c then
      let p := takeWord r
      (c :: p.1, p.2)
    else ([], c :: r)

/-- JS `String.prototype.trim` on the model representation. -/
def trimChars (s : Str) : Str := ((dropWs ((dropWs s).reverse)).reverse)

/-! ### The task-line grammar

`TASK_LINE_REGEX` from `syncEngine.ts`:

```
/^(\s*- \[)([ xX])(\] )(.+?)(?:\s*📅\s*(\d{4}-\d{2}-\d{2}))?(?:\s*👤\s*(.+?))?(?:\s*<!--\s*asana:(\w+)\s*-->)?\s*$/
```

The matcher below implements the JS backtracking semantics of this anchored
pattern.  A `.` matches any character except a line terminator.  Every `\s*`
followed by a non-whitespace literal (or by `$`) has deterministic greedy
maximal munch; the `\s*` preceding the assignee capture genuinely backtracks.
The remaining choice points are the two lazy captures `(.+?)` (shortest
first) and the three greedy optional groups (try-with, then try-without). -/

/-- Match `<!--\s*asana:(\w+)\s*-->` at the start of the input, returning the
captured identifier and the rest.  This is also the building block of the
unanchored `ASANA_GID_REGEX` search. -/
def gidHere (s : Str) : Option (Str × Str) :=
  match litFit (s2l "<!--") s with
  | none => none
  | some s1 =>
    match litFit (s2l "asana:") (dropWs s1) with
    | none => none
    | some s2 =>
      let p := takeWord s2
      if p.1 = [] then none
      else
        match litFit (s2l "-->") (dropWs p.2) with
        | none => none
        | some s4 => some (p.1, s4)

/-- `(?:\s*<!--\s*asana:(\w+)\s*-->)?\s*$` with JS optional-group
backtracking: try the group (greedy), and if what follows fails, retry with
the group skipped. -/
def tryGidEnd (s : Str) : Option (Option Str) :=
  match gidHere (dropWs s) with
  | some (g, s4) =>
    if matchEnd s4 then some (some g)
    else if matchEnd s then some none else none
  | none => if matchEnd s then some none else none

/-- The lazy assignee capture `(.+?)` followed by the optional identifier
comment and `\s*$`: grow the capture one character at a time (shortest
first), checking the continuation after each step; the capture can absorb
a character only when JS `.` matches it (no line terminators). -/
def asgLoop (acc : Str) : Str → Option (Str × Option Str)
  | [] =>
    match tryGidEnd [] with
    | some g => some (acc, g)
    | none => none
  | c :: r =>
    match tryGidEnd (c :: r) with
    | some g => some (acc, g)
    | none => if isDotChar c then asgLoop (acc ++ [c]) r else none

/-- `\s*(.+?)` after the `👤` literal, followed by the identifier/end part.
The greedy `\s*` takes its maximal munch first and backtracks one character
at a time on failure; at each `\s*` length the lazy capture starts with the
next character provided `.` can match it. -/
def asgSpLoop : Str → Option (Str × Option Str)
  | [] => none
  | c :: r =>
    if isWsChar c then
      match asgSpLoop r with
      | some res => some res
      | none => if isDotChar c then asgLoop [c] r else none
    else if isDotChar c then asgLoop [c] r else none

/-- `(?:\s*👤\s*(.+?))?` followed by the identifier/end part, with
optional-group backtracking. -/
def tryAsgGidEnd (s : Str) : Option (Option Str × Option Str) :=
  let withAsg : Option (Str × Option Str) :=
    match litFit (s2l "👤") (dropWs s) with
    | none => none
    | some s1 => asgSpLoop s1
  match withAsg with
  | some (a, g) => some (some a, g)
  | none =>
    match tryGidEnd s with
    | some g => some (none, g)
    | none => none

/-- `\d{4}-\d{2}-\d{2}` at the start of the input. -/
def parseDate (s : Str) : Option (Str × Str) :=
  match s with
  | a :: b :: c :: d :: h1 :: e :: f :: h2 :: g :: h :: rest =>
    if isDigitChar a && isDigitChar b && isDigitChar c && isDigitChar d &&
       (h1 == '-') && isDigitChar e && isDigitChar f && (h2 == '-') &&
       isDigitChar g && isDigitChar h then
      some ([a, b, c, d, h1, e, f, h2, g, h], rest)
    else none
  | _ => none

/-- `(?:\s*📅\s*(\d{4}-\d{2}-\d{2}))?` followed by the assignee/identifier/end
part, with optional-group backtracking. -/
def tryOpts (s : Str) : Option (Option Str × Option Str × Option Str) :=
  let withDue : Option (Option Str × Option Str × Option Str) :=
    match litFit (s2l "📅") (dropWs s) with
    | none => none
    | some s1 =>
      match parseDate (dropWs s1) with
      | none => none
      | some (d, s2) =>
        match tryAsgGidEnd s2 with
        | some (a, g) => some (some d, a, g)
        | none => none
  match withDue with
  | some r => some r
  | none =>
    match tryAsgGidEnd s with
    | some (a, g) => some (none, a, g)
    | none => none

/-- The lazy title capture `(.+?)`: grow the title one character at a time
(shortest first), checking the optional groups and anchor after each step;
the capture can absorb a character only when JS `.` matches it (no line
terminators).  The accumulator holds the title consumed so far (always
nonempty). -/
def titleLoop (acc : Str) : Str → Option (Str × Option Str × Option Str × Option Str)
  | [] =>
    match tryOpts [] with
    | some (d, a, g) => some (acc, d, a, g)
    | none => none
  | c :: r =>
    match tryOpts (c :: r) with
    | some (d, a, g) => some (acc, d, a, g)
    | none => if isDotChar c then titleLoop (acc ++ [c]) r else none

/-- Full match of `TASK_LINE_REGEX` against one line: returns the checkbox
character and the four captures (title, due date, assignee, identifier). -/
def matchTaskLine (line : Str) : Option (Char × Str × Option Str × Option Str × Option Str) :=
  match litFit (s2l "- [") (dropWs line) with
  | none => none
  | some s1 =>
    match s1 with
    | [] => none
    | c :: s2 =>
      if c == ' ' || c == 'x' || c == 'X' then
        match litFit (s2l "] ") s2 with
        | none => none
        | some s3 =>
          match s3 with
          | [] => none
          | c0 :: rest =>
            if isDotChar c0 then
              match titleLoop [c0] rest with
              | some (ttl, d, a, g) => some (c, ttl, d, a, g)
              | none => none
            else none
      else none

/-- `ParsedTask` from `types.ts`. -/
structure ParsedTask where
  line : Str
  lineNumber : Nat
  completed : Bool
  name : Str
  asanaGid : Option Str
  dueDate : Option Str
  assignee : Option Str
deriving DecidableEq, Repr

/-- `parseTaskLine` from `syncEngine.ts`.  `match[6]?.trim() || null` maps an
all-whitespace assignee capture to `null`; the identifier and date captures
are nonempty whenever present, so `|| null` is the identity on them. -/
def parseTaskLine (line : Str) (n : Nat) : Option ParsedTask :=
  match matchTaskLine line with
  | none => none
  | some (c, ttl, d, a, g) =>
    some
      { line := line
        lineNumber := n
        completed := c == 'x' || c == 'X'
        name := trimChars ttl
        asanaGid := g
        dueDate := d
        assignee :=
          match a with
          | some x => if trimChars x = [] then none else some (trimChars x)
          | none => none }

/-- Unanchored leftmost search of `ASANA_GID_REGEX`
(`/<!--\s*asana:(\w+)\s*-->/`): the first position at which the pattern
matches wins. -/
def lineGid : Str → Option Str
  | [] => none
  | c :: r =>
    match gidHere (c :: r) with
    | some (g, _) => some g
    | none => lineGid r

/-! ### Remote task data (`asanaApi.ts`) and `formatTaskLine` -/

/-- The assignee field of an `AsanaTask`. -/
structure Assignee where
  gid : Str
  name : Str
deriving DecidableEq, Repr

/-- A section membership of an `AsanaTask` (project + section, each with
identifier and display name). -/
structure Membership where
  projectGid : Str
  projectName : Str
  sectionGid : Str
  sectionName : Str
deriving DecidableEq, Repr

/-- `AsanaTask` from `asanaApi.ts` (the fields the engine reads). -/
structure AsanaTask where
  gid : Str
  name : Str
  completed : Bool
  due_on : Option Str
  assignee : Option Assignee
  memberships : List Membership
deriving DecidableEq, Repr

/-- `formatTaskLine` from `syncEngine.ts`.  JS truthiness: an empty `due_on`
string or an empty assignee name suppresses the corresponding marker. -/
def formatTaskLine (t : AsanaTask) (showDueDates showAssignees : Bool) : Str :=
  let checkbox := if t.completed then s2l "- [x]" else s2l "- [ ]"
  let line := checkbox ++ [' '] ++ t.name
  let line :=
    if showDueDates then
      match t.due_on with
      | some d => if d = [] then line else line ++ s2l " 📅 " ++ d
      | none => line
    else line
  let line :=
    if showAssignees then
      match t.assignee with
      | some a => if a.name = [] then line else line ++ s2l " 👤 " ++ a.name
      | none => line
    else line
  line ++ s2l " <!-- asana:" ++ t.gid ++ s2l " -->"

/-! ### Note model and the reconciliation engine (`syncEngine.ts`) -/

/-- The frontmatter delimiter line. -/
def fmDelim : Str := s2l "---"

/-- The key prefix of the sync-timestamp frontmatter line. -/
def lastSyncKey : Str := s2l "asana_last_sync:"

/-- The frontmatter line `asana_last_sync: "<ts>"` written for timestamp
`ts` (the model takes `new Date().toISOString()` as a parameter). -/
def tsLine (ts : Str) : Str := s2l "asana_last_sync: \"" ++ ts ++ s2l "\""

/-- The implicit section bucket name. -/
def unsectioned : Str := s2l "(Unsectioned)"

/-- Task extraction of `parseNoteContent`: walk the lines with the
frontmatter / header state machine and parse the remaining lines.  The
section bookkeeping of the source only groups the very same `ParsedTask`
values and is not needed by any claim, so it is omitted here; `rawLines`
is the input itself. -/
def noteTasksAux (inFM fmDone headerDone : Bool) (i : Nat) : List Str → List ParsedTask
  | [] => []
  | l :: rest =>
    if i = 0 ∧ l = fmDelim then
      noteTasksAux true fmDone headerDone (i + 1) rest
    else if inFM then
      if l = fmDelim then noteTasksAux false true headerDone (i + 1) rest
      else noteTasksAux true fmDone headerDone (i + 1) rest
    else if fmDone ∧ ¬headerDone ∧ startsWithLit (s2l "# ") l then
      noteTasksAux inFM fmDone true (i + 1) rest
    else if fmDone ∧ ¬headerDone ∧ trimChars l = [] then
      noteTasksAux inFM fmDone headerDone (i + 1) rest
    else if startsWithLit (s2l "## ") l then
      noteTasksAux inFM fmDone headerDone (i + 1) rest
    else
      match parseTaskLine l i with
      | some p => p :: noteTasksAux inFM fmDone headerDone (i + 1) rest
      | none => noteTasksAux inFM fmDone headerDone (i + 1) rest

/-- The `tasks` component of `parseNoteContent(content)`. -/
def noteTasks (lines : List Str) : List ParsedTask :=
  noteTasksAux false false false 0 lines

/-- JS `Map.prototype.set`: update in place if the key is present (keeping
first-insertion order), append otherwise. -/
def alSet {α : Type} (m : List (Str × α)) (k : Str) (v : α) : List (Str × α) :=
  match m with
  | [] => [(k, v)]
  | (k', v') :: rest => if k' = k then (k', v) :: rest else (k', v') :: alSet rest k v

/-- JS `Map.prototype.get`. -/
def alGet {α : Type} (m : List (Str × α)) (k : Str) : Option α :=
  match m with
  | [] => none
  | (k', v') :: rest => if k' = k then some v' else alGet rest k

/-- `existingTaskMap`: identifier → `ParsedTask` over the parsed tasks that
carry an identifier, in document order (later lines win). -/
def buildTaskMap (ts : List ParsedTask) : List (Str × ParsedTask) :=
  ts.foldl (fun m p => match p.asanaGid with | some g => alSet m g p | none => m) []

/-- `asanaTaskMap`: identifier → `AsanaTask` over a fetched snapshot. -/
def buildAsanaMap (ts : List AsanaTask) : List (Str × AsanaTask) :=
  ts.foldl (fun m t => alSet m t.gid t) []

/-- Display settings read by the engine. -/
structure SyncSettings where
  showDueDates : Bool
  showAssignees : Bool
  showCompletedTasks : Bool
deriving DecidableEq, Repr

/-- Step 1 of `syncProject`: for every identifier in both maps whose
completion flags differ, push the local value to the remote (one
`updateTaskCompletion` call per entry, in map-iteration order;
`completionChanges` is the length of this list --- the model assumes pushes
succeed, the source merely logs a failed push). -/
def pushUpdates (etm : List (Str × ParsedTask)) (am : List (Str × AsanaTask)) :
    List (Str × Bool) :=
  match etm with
  | [] => []
  | (g, p) :: rest =>
    match alGet am g with
    | some a =>
      if p.completed ≠ a.completed then (g, p.completed) :: pushUpdates rest am
      else pushUpdates rest am
    | none => pushUpdates rest am

/-- Effect of a sequence of `updateTaskCompletion` calls on the remote
snapshot (what the Phase-4 re-fetch observes when nothing else changed
remotely). -/
def applyUpdates (R : List AsanaTask) (us : List (Str × Bool)) : List AsanaTask :=
  us.foldl (fun R u => R.map (fun t => if t.gid = u.1 then { t with completed := u.2 } else t)) R

/-- Frontmatter part of the Phase-5 rewrite loop, after the opening
delimiter has been consumed: every `asana_last_sync:`-prefixed line is
replaced by the fresh timestamp line; at the closing delimiter the
timestamp line is inserted first if none was replaced.  Returns the
produced lines (closing delimiter included) and the unconsumed lines. -/
def fmLoop (ts : Str) (updatedFM : Bool) : List Str → List Str × List Str
  | [] => ([], [])
  | l :: rest =>
    if l = fmDelim then
      (if updatedFM then [l] else [tsLine ts, l], rest)
    else if startsWithLit lastSyncKey l then
      let p := fmLoop ts true rest
      (tsLine ts :: p.1, p.2)
    else
      let p := fmLoop ts updatedFM rest
      (l :: p.1, p.2)

/-- Body part of the Phase-5 rewrite loop: section headings pass through;
a line whose text contains an `asana:` comment is replaced from the
refreshed snapshot (or dropped when hiding completed tasks, or kept
verbatim when the identifier is no longer reported); all other lines pass
through.  Returns (new lines, seen identifiers, `updated` count).  The
source also tracks `currentSection` here but never reads it. -/
def bodyLoop (am : List (Str × AsanaTask)) (st : SyncSettings) :
    List Str → List Str × List Str × Nat
  | [] => ([], [], 0)
  | l :: rest =>
    let p := bodyLoop am st rest
    if startsWithLit (s2l "## ") l then (l :: p.1, p.2.1, p.2.2)
    else
      match lineGid l with
      | some g =>
        match alGet am g with
        | some a =>
          if ¬st.showCompletedTasks ∧ a.completed then (p.1, g :: p.2.1, p.2.2)
          else (formatTaskLine a st.showDueDates st.showAssignees :: p.1,
                g :: p.2.1, p.2.2 + 1)
        | none => (l :: p.1, g :: p.2.1, p.2.2)
      | none => (l :: p.1, p.2.1, p.2.2)

/-- The whole Phase-5 rewrite walk over `parsed.rawLines`: the frontmatter
state machine is active only when the very first line is the delimiter. -/
def rewriteLines (am : List (Str × AsanaTask)) (st : SyncSettings) (ts : Str)
    (lines : List Str) : List Str × List Str × Nat :=
  match lines with
  | [] => ([], [], 0)
  | l :: rest =>
    if l = fmDelim then
      let fp := fmLoop ts false rest
      let bp := bodyLoop am st fp.2
      (l :: fp.1 ++ bp.1, bp.2.1, bp.2.2)
    else bodyLoop am st lines

/-- Section-name selection for a task (`memberships.find` on this source's
project identifier; an absent or empty section name falls back to the
default bucket).  JS truthiness: an empty section name is falsy. -/
def sectionNameOf (t : AsanaTask) (projectGid : Str) : Str :=
  if t.memberships ≠ [] then
    match t.memberships.find? (fun m => m.projectGid == projectGid) with
    | some m => if m.sectionName ≠ [] then m.sectionName else unsectioned
    | none => unsectioned
  else unsectioned

/-- JS `Map` of arrays: append `t` to the bucket of `k`, creating the
bucket at the end on first use. -/
def groupAdd (gs : List (Str × List AsanaTask)) (k : Str) (t : AsanaTask) :
    List (Str × List AsanaTask) :=
  match gs with
  | [] => [(k, [t])]
  | (k', l) :: rest =>
    if k' = k then (k', l ++ [t]) :: rest else (k', l) :: groupAdd rest k t

/-- Group tasks by section name, preserving first-insertion order of the
sections and order of tasks within each section. -/
def buildGroups (projectGid : Str) (ts : List AsanaTask) : List (Str × List AsanaTask) :=
  ts.foldl (fun gs t => groupAdd gs (sectionNameOf t projectGid) t) []

/-- Offset of the first following `## `-heading (end of the enclosing
section span): the `while (insertIdx < newLines.length && !startsWith("## "))`
walk of Phase 6. -/
def insertionOffset : List Str → Nat
  | [] => 0
  | l :: rest => if startsWithLit (s2l "## ") l then 0 else 1 + insertionOffset rest

/-- Phase-6 handling of one section group of new tasks: splice into an
existing section (before the next heading), create a fresh section block at
the end, or append bare lines for the default bucket. -/
def insertGroup (st : SyncSettings) (lines : List Str) (sec : Str)
    (tasks : List AsanaTask) : List Str :=
  let header := s2l "## " ++ sec
  let fmt := tasks.map (fun t => formatTaskLine t st.showDueDates st.showAssignees)
  match lines.findIdx? (fun l => trimChars l == header) with
  | some i =>
    if sec ≠ unsectioned then
      let k := i + 1 + insertionOffset (lines.drop (i + 1))
      lines.take k ++ fmt ++ lines.drop k
    else lines ++ fmt
  | none =>
    if sec ≠ unsectioned then lines ++ [[]] ++ [header] ++ [[]] ++ fmt
    else lines ++ fmt

/-- Phase 6: process the section groups of new tasks in order. -/
def appendNew (st : SyncSettings) (lines : List Str)
    (groups : List (Str × List AsanaTask)) : List Str :=
  groups.foldl (fun ls g => insertGroup st ls g.1 g.2) lines

/-- `generateNoteContent` (used by the Phase-1 bootstrap). -/
def generateNoteContent (projectName projectGid : Str) (isMyTasks : Bool)
    (asanaTasks : List AsanaTask) (st : SyncSettings) (ts : Str) : List Str :=
  let filteredTasks := if st.showCompletedTasks then asanaTasks
    else asanaTasks.filter (fun t => !t.completed)
  let groups := buildGroups projectGid filteredTasks
  [fmDelim,
   s2l "asana_project_gid: \"" ++ projectGid ++ ['"'],
   s2l "asana_is_my_tasks: " ++ (if isMyTasks then s2l "true" else s2l "false"),
   tsLine ts,
   fmDelim,
   [],
   s2l "# " ++ projectName,
   []] ++
  groups.foldl (fun ls g =>
    ls ++ (if g.1 ≠ unsectioned then [s2l "## " ++ g.1, []] else []) ++
    g.2.map (fun t => formatTaskLine t st.showDueDates st.showAssignees) ++ [[]]) []

/-- Join a line list back into file content (`newLines.join("\n")`). -/
def joinLines : List Str → Str
  | [] => []
  | [l] => l
  | l :: rest => l ++ '\n' :: joinLines rest

/-- The observable outcome of one `syncProject` run. -/
structure SyncOutcome where
  created : Bool
  content : List Str
  wrote : Bool
  added : Nat
  updated : Nat
  completionChanges : Nat
  updates : List (Str × Bool)
deriving DecidableEq, Repr

/-- `syncProject` for one source: `existing` is the target document's
current line list (`none` when the file does not exist), `R` the remote
snapshot fetched in Phase 0.  With no intervening remote change the Phase-4
re-fetch observes `applyUpdates R` of the Phase-3 pushes.  `wrote` is the
Phase-7 byte comparison. -/
def syncProject (existing : Option (List Str)) (R : List AsanaTask)
    (projectName projectGid : Str) (isMyTasks : Bool) (st : SyncSettings)
    (ts : Str) : SyncOutcome :=
  match existing with
  | none =>
    { created := true
      content := generateNoteContent projectName projectGid isMyTasks R st ts
      wrote := true
      added := R.length
      updated := 0
      completionChanges := 0
      updates := [] }
  | some rawLines =>
    let etm := buildTaskMap (noteTasks rawLines)
    let ups := pushUpdates etm (buildAsanaMap R)
    let refreshed := applyUpdates R ups
    let am := buildAsanaMap refreshed
    let rw := rewriteLines am st ts rawLines
    let newTasks := refreshed.filter
      (fun t => decide (t.gid ∉ rw.2.1 ∧ ¬(¬st.showCompletedTasks ∧ t.completed)))
    let content := appendNew st rw.1 (buildGroups projectGid newTasks)
    { created := false
      content := content
      wrote := decide (joinLines content ≠ joinLines rawLines)
      added := newTasks.length
      updated := rw.2.2
      completionChanges := ups.length
      updates := ups }

/-! ### The checkbox change detector (`main.ts`) -/

/-- Identifier → completion mapping observed in the current file content
(`currentState` of `processCheckboxChanges`). -/
def buildCurrentState (lines : List Str) : List (Str × Bool) :=
  (lines.enum.foldl (fun m li =>
    match parseTaskLine li.2 li.1 with
    | some p => match p.asanaGid with
      | some g => alSet m g p.completed
      | none => m
    | none => m) [])

/-- Updates pushed by one scan: entries of the current state whose
identifier was present in the last snapshot with a different completion
value. -/
def detectorUpdates (lastState cur : List (Str × Bool)) : List (Str × Bool) :=
  match cur with
  | [] => []
  | (g, c) :: rest =>
    match alGet lastState g with
    | some w => if w ≠ c then (g, c) :: detectorUpdates lastState rest
                else detectorUpdates lastState rest
    | none => detectorUpdates lastState rest

/-- `processCheckboxChanges` for one document path: given the last recorded
snapshot for that path (if any) and the file's lines, return the pushed
updates and the snapshot recorded afterwards. -/
def processCheckboxChanges (lastState : Option (List (Str × Bool)))
    (lines : List Str) : List (Str × Bool) × List (Str × Bool) :=
  let cur := buildCurrentState lines
  (match lastState with
   | some ls => detectorUpdates ls cur
   | none => [],
   cur)


/-! ### Well-formedness predicates used by the theorems -/

/-- `s` contains no occurrence of the comment opener `<!--`. -/
def noOpenSub : Str → Bool
  | [] => true
  | c :: r => !(startsWithLit (s2l "<!--") (c :: r)) && noOpenSub r

/-- A display string that round-trips through the line grammar: nonempty,
already trimmed, free of the marker tokens the grammar reacts to, and free
of line terminators (which JS `.` cannot match). -/
def GoodName (s : Str) : Prop :=
  s ≠ [] ∧ trimChars s = s ∧ '📅' ∉ s ∧ '👤' ∉ s ∧ noOpenSub s = true ∧
  s.all isDotChar = true

instance (s : Str) : Decidable (GoodName s) := by
  unfold GoodName; infer_instance

/-- A remote identifier accepted by `\w+`. -/
def GoodGid (s : Str) : Prop := s ≠ [] ∧ s.all isWordChar = true

instance (s : Str) : Decidable (GoodGid s) := by
  unfold GoodGid; infer_instance

/-- `\d{4}-\d{2}-\d{2}` exactly. -/
def dateShape (s : Str) : Bool :=
  match s with
  | [a, b, c, d, h1, e, f, h2, g, h] =>
    isDigitChar a && isDigitChar b && isDigitChar c && isDigitChar d &&
    (h1 == '-') && isDigitChar e && isDigitChar f && (h2 == '-') &&
    isDigitChar g && isDigitChar h
  | _ => false

/-- A remote task whose display fields survive the format/parse round
trip. -/
def GoodTask (t : AsanaTask) : Prop :=
  GoodName t.name ∧ GoodGid t.gid ∧
  (∀ d, t.due_on = some d → dateShape d = true) ∧
  (∀ a, t.assignee = some a → a.name ≠ [] → GoodName a.name)

instance (t : AsanaTask) : Decidable (GoodTask t) := by
  unfold GoodTask; infer_instance

/-- The due-date marker shown for a task under the given display option
(`showDueDates && task.due_on` in the source). -/
def shownDue (t : AsanaTask) (sd : Bool) : Option Str :=
  if sd then
    match t.due_on with
    | some d => if d = [] then none else some d
    | none => none
  else none

/-- The assignee marker shown for a task under the given display option
(`showAssignees && task.assignee?.name` in the source). -/
def shownAsg (t : AsanaTask) (sa : Bool) : Option Str :=
  if sa then
    match t.assignee with
    | some a => if a.name = [] then none else some a.name
    | none => none
  else none

/-- The part of a formatted line after the title. -/
def tailSeg (d a : Option Str) (g : Str) : Str :=
  (match d with | some x => s2l " 📅 " ++ x | none => []) ++
  (match a with | some x => s2l " 👤 " ++ x | none => []) ++
  s2l " <!-- asana:" ++ g ++ s2l " -->"

/-- The lines after the frontmatter block (the region the rewrite walk
processes in body mode): everything when the first line is not the
delimiter, the lines after the first closing delimiter otherwise. -/
def fmSkip : List Str → List Str
  | [] => []
  | l :: rest => if l = fmDelim then rest else fmSkip rest

/-- Body region of a document's line list. -/
def bodyOf (lines : List Str) : List Str :=
  match lines with
  | [] => []
  | l :: rest => if l = fmDelim then fmSkip rest else l :: rest

/-- The lines the rewrite walk processes in frontmatter mode (both
delimiters included). -/
def fmTake : List Str → List Str
  | [] => []
  | l :: rest => if l = fmDelim then [l] else l :: fmTake rest

/-- Frontmatter region of a document's line list. -/
def fmRegion (lines : List Str) : List Str :=
  match lines with
  | [] => []
  | l :: rest => if l = fmDelim then l :: fmTake rest else []

/-- The per-task effect of a sequence of completion updates. -/
def applyTask (t : AsanaTask) (us : List (Str × Bool)) : AsanaTask :=
  us.foldl (fun t u => if t.gid = u.1 then { t with completed := u.2 } else t) t

/-- Effect of the frontmatter rewrite on one inner frontmatter line. -/
def fmRep (ts : Str) (l : Str) : Str :=
  if startsWithLit lastSyncKey l then tsLine ts else l

/-- Output of the body rewrite for a single line. -/
def bodyOut (am : List (Str × AsanaTask)) (st : SyncSettings) (l : Str) : List Str :=
  if startsWithLit (s2l "## ") l then [l]
  else
    match lineGid l with
    | some g =>
      match alGet am g with
      | some a =>
        if ¬st.showCompletedTasks ∧ a.completed then []
        else [formatTaskLine a st.showDueDates st.showAssignees]
      | none => [l]
    | none => [l]

/-- Identifiers recorded in `seenGids` for a single line. -/
def lineSeen (l : Str) : List Str :=
  if startsWithLit (s2l "## ") l then []
  else
    match lineGid l with
    | some g => [g]
    | none => []

/-- Whether a line increments the `updated` counter. -/
def lineCounted (am : List (Str × AsanaTask)) (st : SyncSettings) (l : Str) : Bool :=
  if startsWithLit (s2l "## ") l then false
  else
    match lineGid l with
    | some g =>
      match alGet am g with
      | some a => if ¬st.showCompletedTasks ∧ a.completed then false else true
      | none => false
    | none => false

/-- The frontmatter part of a rewrite walk's output. -/
def fmOutOf (ts : Str) (lines : List Str) : List Str :=
  match lines with
  | [] => []
  | l :: rest => if l = fmDelim then l :: (fmLoop ts false rest).1 else []

/-- `s` contains a non-whitespace character. -/
def hasNonWs (s : Str) : Prop := ∃ c ∈ s, isWsChar c = false

/-- The continuations appearing after a capture in a formatted line: either
nothing or a segment starting with a plain space. -/
def headSpaceOpt (z : Str) : Prop := z = [] ∨ ∃ z', z = ' ' :: z'

/-! ### Basic lemmas about the string helpers -/

theorem s2l_open4 : s2l "<!--" = ['<', '!', '-', '-'] := rfl

theorem dropWs_le_length (s : Str) : (dropWs s).length ≤ s.length := by
  induction s with
  | nil => simp [dropWs]
  | cons c r ih =>
    by_cases hc : isWsChar c = true
    · simp only [dropWs, if_pos hc]
      exact le_trans ih (Nat.le_succ _)
    · simp only [dropWs, if_neg hc, List.length_cons, le_refl]

theorem dropWs_eq_self_of_length (s : Str) (h : (dropWs s).length = s.length) :
    dropWs s = s := by
  induction s with
  | nil => rfl
  | cons c r ih =>
    by_cases hc : isWsChar c = true
    · exfalso
      rw [dropWs, if_pos hc] at h
      have := dropWs_le_length r
      simp [List.length_cons] at h
      omega
    · rw [dropWs, if_neg hc]

theorem dropWs_of_trim (s : Str) (h : trimChars s = s) :
    dropWs s = s ∧ dropWs s.reverse = s.reverse := by
  unfold trimChars at h
  have h1 : (dropWs ((dropWs s).reverse)).length ≤ (dropWs s).length := by
    have := dropWs_le_length (dropWs s).reverse
    simpa using this
  have h2 : (dropWs s).length ≤ s.length := dropWs_le_length s
  have h3 : ((dropWs ((dropWs s).reverse)).reverse).length = s.length := by rw [h]
  simp only [List.length_reverse] at h3
  have h4 : (dropWs s).length = s.length := by omega
  have h5 : dropWs s = s := dropWs_eq_self_of_length s h4
  refine ⟨h5, ?_⟩
  rw [h5] at h
  have h6 : (dropWs s.reverse).length = s.reverse.length := by
    have := congrArg List.length h
    simpa using this
  exact dropWs_eq_self_of_length s.reverse h6

theorem not_ws_head_of_dropWs (s : Str) (c : Char) (r : Str)
    (h : dropWs s = c :: r) (he : s = c :: r) : isWsChar c = false := by
  by_contra hc
  simp only [Bool.not_eq_false] at hc
  rw [he, dropWs, if_pos hc] at h
  have := dropWs_le_length r
  have := congrArg List.length h
  simp at this
  omega

theorem first_not_ws_of_trim (s : Str) (h : trimChars s = s) (c : Char) (r : Str)
    (he : s = c :: r) : isWsChar c = false := by
  have h5 := (dropWs_of_trim s h).1
  rw [he] at h5
  exact not_ws_head_of_dropWs (c :: r) c r h5 rfl

theorem trim_ends (s : Str) (h : trimChars s = s) (hne : s ≠ []) :
    ∃ w c, s = w ++ [c] ∧ isWsChar c = false := by
  have h5 := (dropWs_of_trim s h).2
  have hrev : s.reverse ≠ [] := by simpa using hne
  obtain ⟨c, w, he⟩ := List.exists_cons_of_ne_nil hrev
  have hc : isWsChar c = false := by
    rw [he] at h5
    exact not_ws_head_of_dropWs (c :: w) c w h5 rfl
  refine ⟨w.reverse, c, ?_, hc⟩
  have := congrArg List.reverse he
  simpa using this

theorem suffix_hasNonWs (s s' : Str) (h : trimChars s = s) (hne : s ≠ [])
    (hsuf : s' <:+ s) (hne' : s' ≠ []) : hasNonWs s' := by
  obtain ⟨w, c, rfl, hc⟩ := trim_ends s h hne
  have hpre : s'.reverse <+: (w ++ [c]).reverse := List.reverse_prefix.mpr hsuf
  rw [List.reverse_append, List.reverse_singleton, List.singleton_append] at hpre
  obtain ⟨d, p', he⟩ := List.exists_cons_of_ne_nil (by simpa using hne' :
    s'.reverse ≠ [])
  obtain ⟨t, ht⟩ := hpre
  rw [he, List.cons_append] at ht
  have hd : d = c := (List.cons.injEq _ _ _ _ ▸ ht).1
  have hcmem : c ∈ s' := by
    rw [← List.mem_reverse, he, hd]
    exact List.mem_cons_self _ _
  exact ⟨c, hcmem, hc⟩

theorem matchEnd_false (s z : Str) (h : hasNonWs s) : matchEnd (s ++ z) = false := by
  obtain ⟨c, hc, hcw⟩ := h
  unfold matchEnd
  rw [List.all_append]
  have hs : s.all isWsChar = false := by
    cases hall : s.all isWsChar
    · rfl
    · exfalso
      rw [List.all_eq_true] at hall
      have hcon := hall c hc
      rw [hcw] at hcon
      exact Bool.false_ne_true hcon
  rw [hs, Bool.false_and]

theorem dropWs_append (s z : Str) (h : hasNonWs s) :
    dropWs (s ++ z) = dropWs s ++ z := by
  induction s with
  | nil => obtain ⟨c, hc, _⟩ := h; simp at hc
  | cons c r ih =>
    by_cases hc : isWsChar c = true
    · have hr : hasNonWs r := by
        obtain ⟨d, hd, hdw⟩ := h
        rcases List.mem_cons.mp hd with rfl | hd'
        · rw [hc] at hdw; cases hdw
        · exact ⟨d, hd', hdw⟩
      simp only [List.cons_append, dropWs, if_pos hc]
      exact ih hr
    · simp only [List.cons_append, dropWs, if_neg hc]
      rfl

theorem dropWs_suffix (s : Str) : dropWs s <:+ s := by
  induction s with
  | nil => exact List.suffix_refl _
  | cons c r ih =>
    by_cases hc : isWsChar c = true
    · rw [dropWs, if_pos hc]
      exact ih.trans (List.suffix_cons c r)
    · rw [dropWs, if_neg hc]

theorem dropWs_ne_nil (s : Str) (h : hasNonWs s) : dropWs s ≠ [] := by
  induction s with
  | nil => obtain ⟨c, hc, _⟩ := h; simp at hc
  | cons c r ih =>
    by_cases hc : isWsChar c = true
    · have hr : hasNonWs r := by
        obtain ⟨d, hd, hdw⟩ := h
        rcases List.mem_cons.mp hd with rfl | hd'
        · rw [hc] at hdw; cases hdw
        · exact ⟨d, hd', hdw⟩
      rw [dropWs, if_pos hc]; exact ih hr
    · rw [dropWs, if_neg hc]; simp

theorem noOpenSub_suffix (s s' : Str) (h : noOpenSub s = true) (hsuf : s' <:+ s) :
    noOpenSub s' = true := by
  obtain ⟨t, rfl⟩ := hsuf
  induction t with
  | nil => simpa using h
  | cons c t' ih =>
    rw [List.cons_append, noOpenSub, Bool.and_eq_true] at h
    exact ih h.2

theorem litFit_self (lit r : Str) : litFit lit (lit ++ r) = some r := by
  induction lit with
  | nil => rfl
  | cons a la ih => simp [litFit, ih]

theorem litFit_short (lit input : Str) (h : input.length < lit.length) :
    litFit lit input = none := by
  induction lit generalizing input with
  | nil => simp at h
  | cons a la ih =>
    match input with
    | [] => rfl
    | b :: lb =>
      simp only [litFit]
      split
      · exact ih lb (by simpa using Nat.lt_of_succ_lt_succ h)
      · rfl

theorem litFit_append_long (lit s z : Str) (h : lit.length ≤ s.length) :
    litFit lit (s ++ z) = (litFit lit s).map (fun r => r ++ z) := by
  induction lit generalizing s with
  | nil => simp [litFit]
  | cons a la ih =>
    match s with
    | [] => simp at h
    | b :: lb =>
      simp only [List.cons_append, litFit]
      split
      · exact ih lb (by simpa using Nat.le_of_succ_le_succ h)
      · rfl

/-! ### Rejection lemmas: a capture suffix followed by a formatted tail
never satisfies the remaining pattern -/

theorem startsWithLit_open_false (s : Str) (h : noOpenSub s = true) (hne : s ≠ []) :
    startsWithLit (s2l "<!--") s = false := by
  match s, hne with
  | c :: r, _ =>
    rw [noOpenSub, Bool.and_eq_true] at h
    simpa using h.1

theorem litFit_open_fail (s z : Str) (hs : noOpenSub s = true) (hz : headSpaceOpt z) :
    litFit (s2l "<!--") (s ++ z) = none := by
  by_cases hlen : 4 ≤ s.length
  · rw [litFit_append_long _ _ _ (by simpa [s2l_open4] using hlen)]
    have hne : s ≠ [] := by
      intro hcon; subst hcon; simp at hlen
    have hsw := startsWithLit_open_false s hs hne
    unfold startsWithLit at hsw
    cases hfit : litFit (s2l "<!--") s
    · rfl
    · rw [hfit] at hsw; simp at hsw
  · rcases hz with rfl | ⟨z', rfl⟩
    · rw [List.append_nil]
      exact litFit_short _ _ (by simp [s2l_open4]; omega)
    · match s, hlen with
      | [], _ =>
        simp only [List.nil_append, s2l_open4, litFit]
        rw [if_neg (by decide)]
      | [a], _ =>
        simp only [List.cons_append, List.nil_append, s2l_open4, litFit]
        split
        · rw [if_neg (by decide)]
        · rfl
      | [a, b], _ =>
        simp only [List.cons_append, List.nil_append, s2l_open4, litFit]
        split
        · split
          · rw [if_neg (by decide)]
          · rfl
        · rfl
      | [a, b, c], _ =>
        simp only [List.cons_append, List.nil_append, s2l_open4, litFit]
        split
        · split
          · split
            · rw [if_neg (by decide)]
            · rfl
          · rfl
        · rfl
      | _ :: _ :: _ :: _ :: _, hlen => exact absurd (by simp) hlen

theorem dropWs_head_not_ws (s : Str) (c : Char) (r : Str) (h : dropWs s = c :: r) :
    isWsChar c = false := by
  induction s with
  | nil => simp [dropWs] at h
  | cons d t ih =>
    by_cases hd : isWsChar d = true
    · rw [dropWs, if_pos hd] at h; exact ih h
    · rw [dropWs, if_neg hd] at h
      injection h with h1 h2
      subst h1
      simpa using hd

theorem dropWs_cons_of_hasNonWs (s : Str) (h : hasNonWs s) :
    ∃ c r, dropWs s = c :: r ∧ isWsChar c = false ∧ (c :: r) <:+ s := by
  have hne := dropWs_ne_nil s h
  obtain ⟨c, r, he⟩ := List.exists_cons_of_ne_nil hne
  have hsuf := dropWs_suffix s
  rw [he] at hsuf
  exact ⟨c, r, he, dropWs_head_not_ws s c r he, hsuf⟩

theorem tryGidEnd_reject (s z : Str) (hsub : noOpenSub s = true) (h : hasNonWs s)
    (hz : headSpaceOpt z) : tryGidEnd (s ++ z) = none := by
  obtain ⟨c, r, he, hcw, hsuf⟩ := dropWs_cons_of_hasNonWs s h
  have hgid : gidHere (dropWs (s ++ z)) = none := by
    rw [dropWs_append s z h, he]
    unfold gidHere
    rw [litFit_open_fail (c :: r) z (noOpenSub_suffix s _ hsub hsuf) hz]
  unfold tryGidEnd
  rw [hgid, matchEnd_false s z h]
  rfl

theorem tryAsgGidEnd_reject (s z : Str) (hsub : noOpenSub s = true)
    (hppl : '👤' ∉ s) (h : hasNonWs s) (hz : headSpaceOpt z) :
    tryAsgGidEnd (s ++ z) = none := by
  obtain ⟨c, r, he, hcw, hsuf⟩ := dropWs_cons_of_hasNonWs s h
  have hcne : ('👤' : Char) ≠ c := by
    intro hc
    exact hppl (hc ▸ hsuf.subset (List.mem_cons_self c r))
  have hfail : litFit (s2l "👤") (dropWs (s ++ z)) = none := by
    rw [dropWs_append s z h, he]
    show litFit ['👤'] (c :: (r ++ z)) = none
    simp only [litFit]
    rw [if_neg hcne]
  unfold tryAsgGidEnd
  rw [hfail, tryGidEnd_reject s z hsub h hz]

theorem tryOpts_reject (s z : Str) (hsub : noOpenSub s = true)
    (hcal : '📅' ∉ s) (hppl : '👤' ∉ s) (h : hasNonWs s) (hz : headSpaceOpt z) :
    tryOpts (s ++ z) = none := by
  obtain ⟨c, r, he, hcw, hsuf⟩ := dropWs_cons_of_hasNonWs s h
  have hcne : ('📅' : Char) ≠ c := by
    intro hc
    exact hcal (hc ▸ hsuf.subset (List.mem_cons_self c r))
  have hfail : litFit (s2l "📅") (dropWs (s ++ z)) = none := by
    rw [dropWs_append s z h, he]
    show litFit ['📅'] (c :: (r ++ z)) = none
    simp only [litFit]
    rw [if_neg hcne]
  unfold tryOpts
  rw [hfail, tryAsgGidEnd_reject s z hsub hppl h hz]

/-! ### Threading lemmas for the two lazy captures -/

theorem nws_isDot (c : Char) (h : isWsChar c = false) : isDotChar c = true := by
  unfold isDotChar
  cases hd : (c == '\n' || c == '\r' || c == '\u2028' || c == '\u2029') with
  | false => rfl
  | true =>
    exfalso
    simp only [Bool.or_eq_true, beq_iff_eq] at hd
    rcases hd with ((rfl | rfl) | rfl) | rfl <;> simp [isWsChar] at h

theorem titleLoop_cons (acc : Str) (c : Char) (r : Str) :
    titleLoop acc (c :: r) =
      match tryOpts (c :: r) with
      | some (d, a, g) => some (acc, d, a, g)
      | none => if isDotChar c then titleLoop (acc ++ [c]) r else none := rfl

theorem asgLoop_cons (acc : Str) (c : Char) (r : Str) :
    asgLoop acc (c :: r) =
      match tryGidEnd (c :: r) with
      | some g => some (acc, g)
      | none => if isDotChar c then asgLoop (acc ++ [c]) r else none := rfl

theorem asgSpLoop_cons (c : Char) (r : Str) :
    asgSpLoop (c :: r) =
      if isWsChar c then
        match asgSpLoop r with
        | some res => some res
        | none => if isDotChar c then asgLoop [c] r else none
      else if isDotChar c then asgLoop [c] r else none := rfl

theorem titleLoop_through (w z : Str)
    (hrej : ∀ s, s ≠ [] → s <:+ w → tryOpts (s ++ z) = none)
    (hdot : w.all isDotChar = true) (acc : Str) :
    titleLoop acc (w ++ z) = titleLoop (acc ++ w) z := by
  induction w generalizing acc with
  | nil => simp
  | cons c r ih =>
    have h1 : tryOpts (c :: (r ++ z)) = none := by
      have := hrej (c :: r) (by simp) (List.suffix_refl _)
      simpa using this
    rw [List.all_cons, Bool.and_eq_true] at hdot
    rw [List.cons_append, titleLoop_cons, h1]
    simp only [hdot.1, if_true]
    have ih2 := ih (fun s hs hsuf => hrej s hs (hsuf.trans (List.suffix_cons c r)))
      hdot.2 (acc ++ [c])
    exact ih2.trans (by rw [List.append_assoc]; rfl)

theorem asgLoop_through (w z : Str)
    (hrej : ∀ s, s ≠ [] → s <:+ w → tryGidEnd (s ++ z) = none)
    (hdot : w.all isDotChar = true) (acc : Str) :
    asgLoop acc (w ++ z) = asgLoop (acc ++ w) z := by
  induction w generalizing acc with
  | nil => simp
  | cons c r ih =>
    have h1 : tryGidEnd (c :: (r ++ z)) = none := by
      have := hrej (c :: r) (by simp) (List.suffix_refl _)
      simpa using this
    rw [List.all_cons, Bool.and_eq_true] at hdot
    rw [List.cons_append, asgLoop_cons, h1]
    simp only [hdot.1, if_true]
    have ih2 := ih (fun s hs hsuf => hrej s hs (hsuf.trans (List.suffix_cons c r)))
      hdot.2 (acc ++ [c])
    exact ih2.trans (by rw [List.append_assoc]; rfl)

/-! ### Acceptance lemmas: a well-formed formatted tail parses as intended -/

theorem dropWs_cons_ws (c : Char) (s : Str) (h : isWsChar c = true) :
    dropWs (c :: s) = dropWs s := by
  rw [dropWs, if_pos h]

theorem dropWs_cons_nws (c : Char) (s : Str) (h : isWsChar c = false) :
    dropWs (c :: s) = c :: s := by
  rw [dropWs, if_neg (by simp [h])]

theorem dropWs_space_cons (c : Char) (r : Str) (hc : isWsChar c = false) :
    dropWs (' ' :: c :: r) = c :: r := by
  rw [dropWs_cons_ws _ _ (by decide), dropWs_cons_nws _ _ hc]

theorem digit_not_ws (c : Char) (h : isDigitChar c = true) : isWsChar c = false := by
  unfold isDigitChar at h
  rw [Bool.and_eq_true, decide_eq_true_eq, decide_eq_true_eq] at h
  obtain ⟨h1, h2⟩ := h
  cases hw : isWsChar c with
  | false => rfl
  | true =>
    exfalso
    unfold isWsChar at hw
    simp only [Bool.or_eq_true, beq_iff_eq, Bool.and_eq_true, decide_eq_true_eq,
      or_assoc] at hw
    rcases hw with h | h | h | h | h | h | h | h | ⟨ha, hb⟩ | h | h | h | h | h | h
    all_goals first
      | (subst h; exact absurd h1 (by decide))
      | (subst h; exact absurd h2 (by decide))
      | exact absurd (le_trans ha h2) (by decide)

theorem takeWord_append (g r : Str) (hg : g.all isWordChar = true)
    (hr : ∀ c r', r = c :: r' → isWordChar c = false) :
    takeWord (g ++ r) = (g, r) := by
  induction g with
  | nil =>
    match r, hr with
    | [], _ => rfl
    | c :: r', hr =>
      simp only [List.nil_append, takeWord]
      rw [if_neg (by simp [hr c r' rfl])]
  | cons c gr ih =>
    rw [List.all_cons, Bool.and_eq_true] at hg
    simp only [List.cons_append, takeWord, List.append_eq]
    rw [if_pos (by simp [hg.1]), ih hg.2]

theorem parseDate_shape (d z : Str) (hd : dateShape d = true) :
    parseDate (d ++ z) = some (d, z) := by
  match d with
  | [] => exact Bool.noConfusion hd
  | [a] => exact Bool.noConfusion hd
  | [a, b] => exact Bool.noConfusion hd
  | [a, b, c] => exact Bool.noConfusion hd
  | [a, b, c, d4] => exact Bool.noConfusion hd
  | [a, b, c, d4, h1] => exact Bool.noConfusion hd
  | [a, b, c, d4, h1, e] => exact Bool.noConfusion hd
  | [a, b, c, d4, h1, e, f] => exact Bool.noConfusion hd
  | [a, b, c, d4, h1, e, f, h2] => exact Bool.noConfusion hd
  | [a, b, c, d4, h1, e, f, h2, g] => exact Bool.noConfusion hd
  | a :: b :: c :: d4 :: h1 :: e :: f :: h2 :: g :: h :: k :: rest =>
    exact Bool.noConfusion hd
  | [a, b, c, d4, h1, e, f, h2, g, h] =>
    have hd' : (isDigitChar a && isDigitChar b && isDigitChar c && isDigitChar d4 &&
        (h1 == '-') && isDigitChar e && isDigitChar f && (h2 == '-') &&
        isDigitChar g && isDigitChar h) = true := hd
    show parseDate (a :: b :: c :: d4 :: h1 :: e :: f :: h2 :: g :: h :: z) = _
    rw [parseDate, if_pos hd']

theorem dateShape_headDigit (d : Str) (hd : dateShape d = true) :
    ∃ c r, d = c :: r ∧ isDigitChar c = true := by
  match d with
  | [] => exact Bool.noConfusion hd
  | [a] => exact Bool.noConfusion hd
  | [a, b] => exact Bool.noConfusion hd
  | [a, b, c] => exact Bool.noConfusion hd
  | [a, b, c, d4] => exact Bool.noConfusion hd
  | [a, b, c, d4, h1] => exact Bool.noConfusion hd
  | [a, b, c, d4, h1, e] => exact Bool.noConfusion hd
  | [a, b, c, d4, h1, e, f] => exact Bool.noConfusion hd
  | [a, b, c, d4, h1, e, f, h2] => exact Bool.noConfusion hd
  | [a, b, c, d4, h1, e, f, h2, g] => exact Bool.noConfusion hd
  | a :: b :: c :: d4 :: h1 :: e :: f :: h2 :: g :: h :: k :: rest =>
    exact Bool.noConfusion hd
  | [a, b, c, d4, h1, e, f, h2, g, h] =>
    have hd' : (isDigitChar a && isDigitChar b && isDigitChar c && isDigitChar d4 &&
        (h1 == '-') && isDigitChar e && isDigitChar f && (h2 == '-') &&
        isDigitChar g && isDigitChar h) = true := hd
    simp only [Bool.and_eq_true] at hd'
    exact ⟨a, _, rfl, hd'.1.1.1.1.1.1.1.1.1⟩

theorem asgLoop_nil (acc : Str) :
    asgLoop acc [] =
      match tryGidEnd [] with
      | some g => some (acc, g)
      | none => none := rfl

theorem asgLoop_done (acc z : Str) (r : Option Str) (h : tryGidEnd z = some r) :
    asgLoop acc z = some (acc, r) := by
  match z with
  | [] => rw [asgLoop_nil, h]
  | c :: z' => rw [asgLoop_cons, h]

theorem titleLoop_nil (acc : Str) :
    titleLoop acc [] =
      match tryOpts [] with
      | some (d, a, g) => some (acc, d, a, g)
      | none => none := rfl

theorem titleLoop_done (acc z : Str) (d a g : Option Str)
    (h : tryOpts z = some (d, a, g)) : titleLoop acc z = some (acc, d, a, g) := by
  match z with
  | [] => rw [titleLoop_nil, h]
  | c :: z' => rw [titleLoop_cons, h]

theorem gidHere_accept (g z : Str) (h1 : g ≠ []) (h2 : g.all isWordChar = true) :
    gidHere (s2l "<!-- asana:" ++ (g ++ (s2l " -->" ++ z))) = some (g, z) := by
  have e1 : s2l "<!-- asana:" ++ (g ++ (s2l " -->" ++ z)) =
      s2l "<!--" ++ (s2l " asana:" ++ (g ++ (s2l " -->" ++ z))) := by
    simp [s2l, List.append_assoc]
  have e2 : dropWs (s2l " asana:" ++ (g ++ (s2l " -->" ++ z))) =
      s2l "asana:" ++ (g ++ (s2l " -->" ++ z)) := by
    show dropWs (' ' :: ('a' :: (s2l "sana:" ++ (g ++ (s2l " -->" ++ z))))) = _
    exact dropWs_space_cons _ _ (by decide)
  have e3 : takeWord (g ++ (s2l " -->" ++ z)) = (g, s2l " -->" ++ z) := by
    apply takeWord_append g _ h2
    intro c r' he
    have he' : ' ' :: (s2l "-->" ++ z) = c :: r' := he
    injection he' with hc _
    rw [← hc]
    decide
  have e4 : dropWs (s2l " -->" ++ z) = s2l "-->" ++ z := by
    show dropWs (' ' :: ('-' :: (s2l "->" ++ z))) = _
    exact dropWs_space_cons _ _ (by decide)
  rw [e1]
  simp only [gidHere, litFit_self, e2, e3, e4, ne_eq, h1, ite_false]

theorem gidHere_accept_nil (g : Str) (h1 : g ≠ []) (h2 : g.all isWordChar = true) :
    gidHere (s2l "<!-- asana:" ++ (g ++ s2l " -->")) = some (g, []) := by
  have := gidHere_accept g [] h1 h2
  simpa using this

theorem tryGidEnd_accept (g : Str) (h1 : g ≠ []) (h2 : g.all isWordChar = true) :
    tryGidEnd (s2l " <!-- asana:" ++ (g ++ s2l " -->")) = some (some g) := by
  have e1 : dropWs (s2l " <!-- asana:" ++ (g ++ s2l " -->")) =
      s2l "<!-- asana:" ++ (g ++ s2l " -->") := by
    show dropWs (' ' :: ('<' :: (s2l "!-- asana:" ++ (g ++ s2l " -->")))) = _
    exact dropWs_space_cons _ _ (by decide)
  unfold tryGidEnd
  rw [e1, gidHere_accept_nil g h1 h2]
  rfl

theorem tryAsgGidEnd_skipgid (g : Str) (h1 : g ≠ []) (h2 : g.all isWordChar = true) :
    tryAsgGidEnd (s2l " <!-- asana:" ++ (g ++ s2l " -->")) = some (none, some g) := by
  have hlit : litFit (s2l "👤") (dropWs (s2l " <!-- asana:" ++ (g ++ s2l " -->"))) =
      none := by
    have e1 : dropWs (s2l " <!-- asana:" ++ (g ++ s2l " -->")) =
        '<' :: (s2l "!-- asana:" ++ (g ++ s2l " -->")) := by
      show dropWs (' ' :: ('<' :: (s2l "!-- asana:" ++ (g ++ s2l " -->")))) = _
      exact dropWs_space_cons _ _ (by decide)
    rw [e1]
    show litFit ['👤'] _ = none
    simp [litFit]
  simp only [tryAsgGidEnd, hlit, tryGidEnd_accept g h1 h2]

theorem tryAsgGidEnd_asg (an z : Str) (r : Option Str) (han : GoodName an)
    (hz : headSpaceOpt z) (hzg : tryGidEnd z = some r) :
    tryAsgGidEnd (s2l " 👤 " ++ (an ++ z)) = some (some an, r) := by
  obtain ⟨hne, htrim, hcal, hppl, hopen, hdot⟩ := han
  obtain ⟨a0, anr, he⟩ := List.exists_cons_of_ne_nil hne
  have ha0 : isWsChar a0 = false := first_not_ws_of_trim an htrim a0 anr he
  have hdotr : anr.all isDotChar = true := by
    rw [he, List.all_cons, Bool.and_eq_true] at hdot
    exact hdot.2
  have e4 : asgLoop [a0] (anr ++ z) = some (an, r) := by
    have hrej : ∀ s, s ≠ [] → s <:+ anr → tryGidEnd (s ++ z) = none := by
      intro s hs hsuf
      have hsuf' : s <:+ an := by
        rw [he]; exact hsuf.trans (List.suffix_cons a0 anr)
      exact tryGidEnd_reject s z (noOpenSub_suffix an s hopen hsuf')
        (suffix_hasNonWs an s htrim hne hsuf' hs) hz
    rw [asgLoop_through anr z hrej hdotr [a0], he]
    exact asgLoop_done (a0 :: anr) z r hzg
  subst he
  have e1 : dropWs (s2l " 👤 " ++ ((a0 :: anr) ++ z)) =
      '👤' :: (' ' :: ((a0 :: anr) ++ z)) := by
    show dropWs (' ' :: ('👤' :: (' ' :: ((a0 :: anr) ++ z)))) = _
    exact dropWs_space_cons _ _ (by decide)
  have e2 : litFit (s2l "👤") ('👤' :: (' ' :: ((a0 :: anr) ++ z))) =
      some (' ' :: ((a0 :: anr) ++ z)) := by
    show litFit ['👤'] _ = _
    simp [litFit]
  have e3 : asgSpLoop (' ' :: ((a0 :: anr) ++ z)) = some (a0 :: anr, r) := by
    rw [asgSpLoop_cons, if_pos (by decide : isWsChar ' ' = true)]
    have e3a : asgSpLoop ((a0 :: anr) ++ z) = some (a0 :: anr, r) := by
      rw [List.cons_append, asgSpLoop_cons,
        if_neg (by simp [ha0] : ¬isWsChar a0 = true),
        if_pos (nws_isDot a0 ha0)]
      exact e4
    rw [e3a]
  simp only [tryAsgGidEnd, e1, e2, e3]

theorem tryOpts_nodue (z : Str) (a g : Option Str)
    (hlit : litFit (s2l "📅") (dropWs z) = none)
    (h2 : tryAsgGidEnd z = some (a, g)) : tryOpts z = some (none, a, g) := by
  simp only [tryOpts, hlit, h2]

theorem tryOpts_due (d z : Str) (a g : Option Str) (hd : dateShape d = true)
    (h2 : tryAsgGidEnd z = some (a, g)) :
    tryOpts (s2l " 📅 " ++ (d ++ z)) = some (some d, a, g) := by
  obtain ⟨dc, dr, hde, hdc⟩ := dateShape_headDigit d hd
  have e1 : dropWs (s2l " 📅 " ++ (d ++ z)) = '📅' :: (' ' :: (d ++ z)) := by
    show dropWs (' ' :: ('📅' :: (' ' :: (d ++ z)))) = _
    exact dropWs_space_cons _ _ (by decide)
  have e2 : litFit (s2l "📅") ('📅' :: (' ' :: (d ++ z))) = some (' ' :: (d ++ z)) := by
    show litFit ['📅'] _ = _
    simp [litFit]
  have e3 : dropWs (' ' :: (d ++ z)) = d ++ z := by
    rw [hde]
    show dropWs (' ' :: (dc :: (dr ++ z))) = _
    exact dropWs_space_cons _ _ (digit_not_ws dc hdc)
  simp only [tryOpts, e1, e2, e3, parseDate_shape d z hd, h2]

/-! ### The format/parse round trip -/

theorem formatTaskLine_shape (t : AsanaTask) (sd sa : Bool) :
    formatTaskLine t sd sa =
      s2l "- [" ++ ((if t.completed then 'x' else ' ') ::
        (s2l "] " ++ (t.name ++ tailSeg (shownDue t sd) (shownAsg t sa) t.gid))) := by
  rcases t with ⟨gid, name, completed, due, asg, mem⟩
  unfold formatTaskLine shownDue shownAsg tailSeg
  cases completed <;> cases sd <;> cases sa <;>
    rcases due with _ | dd <;> rcases asg with _ | aa <;>
      simp only [] <;> split_ifs <;> (try simp_all [List.append_assoc]) <;> rfl

theorem tailSeg_headSpace (d a : Option Str) (g : Str) :
    headSpaceOpt (tailSeg d a g) := by
  rcases d with _ | d <;> rcases a with _ | a <;> exact Or.inr ⟨_, rfl⟩

theorem tryOpts_tailSeg (d a : Option Str) (g : Str) (hg : GoodGid g)
    (hd : ∀ x, d = some x → dateShape x = true)
    (ha : ∀ x, a = some x → GoodName x) :
    tryOpts (tailSeg d a g) = some (d, a, some g) := by
  obtain ⟨hg1, hg2⟩ := hg
  rcases d with _ | d <;> rcases a with _ | a
  · have e : tailSeg none none g = s2l " <!-- asana:" ++ (g ++ s2l " -->") := by
      simp [tailSeg, List.append_assoc]
    rw [e]
    apply tryOpts_nodue
    · have e1 : dropWs (s2l " <!-- asana:" ++ (g ++ s2l " -->")) =
          '<' :: (s2l "!-- asana:" ++ (g ++ s2l " -->")) := by
        show dropWs (' ' :: ('<' :: (s2l "!-- asana:" ++ (g ++ s2l " -->")))) = _
        exact dropWs_space_cons _ _ (by decide)
      rw [e1]
      show litFit ['📅'] _ = none
      simp [litFit]
    · exact tryAsgGidEnd_skipgid g hg1 hg2
  · have e : tailSeg none (some a) g =
        s2l " 👤 " ++ (a ++ (s2l " <!-- asana:" ++ (g ++ s2l " -->"))) := by
      simp [tailSeg, List.append_assoc]
    rw [e]
    apply tryOpts_nodue
    · have e1 : dropWs (s2l " 👤 " ++ (a ++ (s2l " <!-- asana:" ++ (g ++ s2l " -->")))) =
          '👤' :: (' ' :: (a ++ (s2l " <!-- asana:" ++ (g ++ s2l " -->")))) := by
        show dropWs (' ' :: ('👤' :: (' ' :: (a ++ (s2l " <!-- asana:" ++
          (g ++ s2l " -->")))))) = _
        exact dropWs_space_cons _ _ (by decide)
      rw [e1]
      show litFit ['📅'] _ = none
      simp [litFit]
    · exact tryAsgGidEnd_asg a _ (some g) (ha a rfl) (Or.inr ⟨_, rfl⟩)
        (tryGidEnd_accept g hg1 hg2)
  · have e : tailSeg (some d) none g =
        s2l " 📅 " ++ (d ++ (s2l " <!-- asana:" ++ (g ++ s2l " -->"))) := by
      simp [tailSeg, List.append_assoc]
    rw [e]
    exact tryOpts_due d _ none (some g) (hd d rfl) (tryAsgGidEnd_skipgid g hg1 hg2)
  · have e : tailSeg (some d) (some a) g =
        s2l " 📅 " ++ (d ++ (s2l " 👤 " ++ (a ++ (s2l " <!-- asana:" ++
          (g ++ s2l " -->"))))) := by
      simp [tailSeg, List.append_assoc]
    rw [e]
    exact tryOpts_due d _ (some a) (some g) (hd d rfl)
      (tryAsgGidEnd_asg a _ (some g) (ha a rfl) (Or.inr ⟨_, rfl⟩)
        (tryGidEnd_accept g hg1 hg2))

theorem matchTaskLine_build (cb : Char) (hcb : cb = ' ' ∨ cb = 'x') (nm : Str)
    (hnm : GoodName nm) (z : Str) (hz : headSpaceOpt z) (d a g : Option Str)
    (ho : tryOpts z = some (d, a, g)) :
    matchTaskLine (s2l "- [" ++ (cb :: (s2l "] " ++ (nm ++ z)))) =
      some (cb, nm, d, a, g) := by
  obtain ⟨hne, htrim, hcal, hppl, hopen, hdot⟩ := hnm
  obtain ⟨n0, nr, he⟩ := List.exists_cons_of_ne_nil hne
  subst he
  rw [List.all_cons, Bool.and_eq_true] at hdot
  have e1 : dropWs (s2l "- [" ++ (cb :: (s2l "] " ++ (n0 :: (nr ++ z))))) =
      s2l "- [" ++ (cb :: (s2l "] " ++ (n0 :: (nr ++ z)))) := by
    show dropWs ('-' :: (' ' :: ('[' :: (cb :: (s2l "] " ++ (n0 :: (nr ++ z))))))) = _
    exact dropWs_cons_nws _ _ (by decide)
  have hcbt : (cb == ' ' || cb == 'x' || cb == 'X') = true := by
    rcases hcb with rfl | rfl <;> decide
  have e5 : titleLoop [n0] (nr ++ z) = some (n0 :: nr, d, a, g) := by
    have hrej : ∀ s, s ≠ [] → s <:+ nr → tryOpts (s ++ z) = none := by
      intro s hs hsuf
      have hsuf' : s <:+ (n0 :: nr) := hsuf.trans (List.suffix_cons n0 nr)
      exact tryOpts_reject s z (noOpenSub_suffix _ s hopen hsuf')
        (fun hmem => hcal (hsuf'.subset hmem))
        (fun hmem => hppl (hsuf'.subset hmem))
        (suffix_hasNonWs _ s htrim (by simp) hsuf' hs) hz
    rw [titleLoop_through nr z hrej hdot.2 [n0]]
    exact titleLoop_done (n0 :: nr) z d a g ho
  unfold matchTaskLine
  simp only [List.cons_append, e1, litFit_self, hcbt, if_true, hdot.1, e5]

theorem parseTaskLine_format (t : AsanaTask) (sd sa : Bool) (n : Nat)
    (ht : GoodTask t) :
    parseTaskLine (formatTaskLine t sd sa) n = some
      { line := formatTaskLine t sd sa, lineNumber := n, completed := t.completed,
        name := t.name, asanaGid := some t.gid, dueDate := shownDue t sd,
        assignee := shownAsg t sa } := by
  obtain ⟨hnm, hgid, hdue, hasg⟩ := ht
  have hd : ∀ x, shownDue t sd = some x → dateShape x = true := by
    intro x hx
    unfold shownDue at hx
    cases sd
    · simp at hx
    · cases hdo : t.due_on with
      | none => rw [hdo] at hx; simp at hx
      | some dd =>
        rw [hdo] at hx
        by_cases hdd : dd = [] <;> simp [hdd] at hx
        exact hx ▸ hdue dd hdo
  have ha : ∀ x, shownAsg t sa = some x → GoodName x := by
    intro x hx
    unfold shownAsg at hx
    cases sa
    · simp at hx
    · cases hao : t.assignee with
      | none => rw [hao] at hx; simp at hx
      | some aa =>
        rw [hao] at hx
        by_cases hnn : aa.name = [] <;> simp [hnn] at hx
        exact hx ▸ hasg aa hao hnn
  have hmatch := matchTaskLine_build (if t.completed then 'x' else ' ')
    (by cases t.completed <;> simp) t.name hnm
    (tailSeg (shownDue t sd) (shownAsg t sa) t.gid) (tailSeg_headSpace _ _ _)
    (shownDue t sd) (shownAsg t sa) (some t.gid)
    (tryOpts_tailSeg _ _ _ hgid hd ha)
  have hc : ((if t.completed then 'x' else ' ') == 'x' ||
      (if t.completed then 'x' else ' ') == 'X') = t.completed := by
    cases t.completed <;> decide
  have haf : (match shownAsg t sa with
      | some x => if trimChars x = [] then none else some (trimChars x)
      | none => none) = shownAsg t sa := by
    cases hax : shownAsg t sa with
    | none => rfl
    | some x =>
      have hx := ha x hax
      simp only
      rw [hx.2.1, if_neg hx.1]
  unfold parseTaskLine
  rw [formatTaskLine_shape t sd sa, hmatch]
  simp only [hc, hnm.2.1, haf]

/-! ### Association-list (JS `Map`) lemmas -/

theorem alGet_alSet_same {α : Type} (m : List (Str × α)) (k : Str) (v : α) :
    alGet (alSet m k v) k = some v := by
  induction m with
  | nil => simp [alSet, alGet]
  | cons kv rest ih =>
    by_cases hk : kv.1 = k
    · simp [alSet, hk, alGet]
    · simp [alSet, hk, alGet, ih]

theorem alGet_alSet_other {α : Type} (m : List (Str × α)) (k k' : Str) (v : α)
    (h : k' ≠ k) : alGet (alSet m k v) k' = alGet m k' := by
  induction m with
  | nil =>
    show (if k = k' then some v else alGet [] k') = alGet [] k'
    rw [if_neg (fun hc => h hc.symm)]
  | cons kv rest ih =>
    rcases kv with ⟨k0, v0⟩
    by_cases hk : k0 = k
    · subst hk
      rw [alSet, if_pos rfl]
      show (if k0 = k' then some v else alGet rest k') = _
      rw [if_neg (fun hc => h hc.symm), alGet, if_neg (fun hc => h hc.symm)]
    · rw [alSet, if_neg hk]
      show (if k0 = k' then some v0 else alGet (alSet rest k v) k') = _
      rw [alGet]
      by_cases hk' : k0 = k'
      · rw [if_pos hk', if_pos hk']
      · rw [if_neg hk', if_neg hk', ih]

theorem alSet_entry_mem {α : Type} (m : List (Str × α)) (k : Str) (v : α) (e : Str × α)
    (h : e ∈ alSet m k v) : e ∈ m ∨ e = (k, v) := by
  induction m with
  | nil => simp [alSet] at h; right; exact h
  | cons kv rest ih =>
    by_cases hk : kv.1 = k
    · rw [alSet, if_pos hk] at h
      rcases List.mem_cons.mp h with rfl | h'
      · right; rw [← hk]
      · left; exact List.mem_cons_of_mem _ h'
    · rw [alSet, if_neg hk] at h
      rcases List.mem_cons.mp h with rfl | h'
      · left; exact List.mem_cons_self _ _
      · rcases ih h' with h'' | h''
        · left; exact List.mem_cons_of_mem _ h''
        · right; exact h''

theorem buildTaskMap_entry (ts : List ParsedTask) (g : Str) (p : ParsedTask)
    (h : (g, p) ∈ buildTaskMap ts) : p ∈ ts ∧ p.asanaGid = some g := by
  unfold buildTaskMap at h
  suffices hgen : ∀ (m : List (Str × ParsedTask)),
      (g, p) ∈ ts.foldl (fun m p => match p.asanaGid with
        | some g => alSet m g p | none => m) m →
      ((g, p) ∈ m ∨ (p ∈ ts ∧ p.asanaGid = some g)) by
    rcases hgen [] h with h' | h'
    · simp at h'
    · exact h'
  clear h
  induction ts with
  | nil => intro m h; left; exact h
  | cons q rest ih =>
    intro m h
    simp only [List.foldl_cons] at h
    rcases ih _ h with h' | h'
    · cases hq : q.asanaGid with
      | none => rw [hq] at h'; left; exact h'
      | some gq =>
        rw [hq] at h'
        rcases alSet_entry_mem m gq q _ h' with h'' | h''
        · left; exact h''
        · right
          injection h'' with h1 h2
          subst h1
          refine ⟨by rw [h2]; exact List.mem_cons_self _ _, by rw [h2, hq]⟩
    · right
      exact ⟨List.mem_cons_of_mem _ h'.1, h'.2⟩

theorem buildAsanaMap_entry (R : List AsanaTask) (g : Str) (t : AsanaTask)
    (h : alGet (buildAsanaMap R) g = some t) : t ∈ R ∧ t.gid = g := by
  unfold buildAsanaMap at h
  suffices hgen : ∀ (m : List (Str × AsanaTask)),
      alGet (R.foldl (fun m t => alSet m t.gid t) m) g = some t →
      (alGet m g = some t ∨ (t ∈ R ∧ t.gid = g)) by
    rcases hgen [] h with h' | h'
    · simp [alGet] at h'
    · exact h'
  clear h
  induction R with
  | nil => intro m h; left; exact h
  | cons q rest ih =>
    intro m h
    simp only [List.foldl_cons] at h
    rcases ih _ h with h' | h'
    · by_cases hg : g = q.gid
      · subst hg
        rw [alGet_alSet_same] at h'
        injection h' with h'
        right
        exact ⟨by rw [← h']; exact List.mem_cons_self _ _, by rw [← h']⟩
      · rw [alGet_alSet_other _ _ _ _ (fun hc => hg hc)] at h'
        left; exact h'
    · right
      exact ⟨List.mem_cons_of_mem _ h'.1, h'.2⟩

theorem alGet_foldl_notmem (R : List AsanaTask) (m : List (Str × AsanaTask)) (g : Str)
    (h : g ∉ R.map AsanaTask.gid) :
    alGet (R.foldl (fun m t => alSet m t.gid t) m) g = alGet m g := by
  induction R generalizing m with
  | nil => rfl
  | cons q rest ih =>
    simp only [List.map_cons, List.mem_cons, not_or] at h
    simp only [List.foldl_cons]
    rw [ih _ (h.2), alGet_alSet_other m q.gid g q h.1]

theorem buildAsanaMap_notmem (R : List AsanaTask) (g : Str)
    (h : g ∉ R.map AsanaTask.gid) : alGet (buildAsanaMap R) g = none := by
  unfold buildAsanaMap
  rw [alGet_foldl_notmem R [] g h]
  rfl

theorem buildAsanaMap_nodup_mem (R : List AsanaTask) (t : AsanaTask)
    (hnd : (R.map AsanaTask.gid).Nodup) (hmem : t ∈ R) :
    alGet (buildAsanaMap R) t.gid = some t := by
  unfold buildAsanaMap
  suffices hgen : ∀ (m : List (Str × AsanaTask)),
      alGet (R.foldl (fun m t => alSet m t.gid t) m) t.gid = some t by
    exact hgen []
  induction R with
  | nil => cases hmem
  | cons q rest ih =>
    intro m
    simp only [List.map_cons, List.nodup_cons] at hnd
    rcases List.mem_cons.mp hmem with rfl | hmem'
    · simp only [List.foldl_cons]
      rw [alGet_foldl_notmem rest _ t.gid (by
        intro hc
        exact hnd.1 hc)]
      exact alGet_alSet_same m t.gid t
    · simp only [List.foldl_cons]
      exact ih hnd.2 hmem' _

/-! ### Lemmas about the modelled remote updates -/

theorem applyUpdates_eq_map (R : List AsanaTask) (us : List (Str × Bool)) :
    applyUpdates R us = R.map (fun t => applyTask t us) := by
  unfold applyUpdates applyTask
  induction us generalizing R with
  | nil => simp
  | cons u rest ih =>
    simp only [List.foldl_cons]
    rw [ih]
    rw [List.map_map]
    rfl

theorem applyTask_gid (t : AsanaTask) (us : List (Str × Bool)) :
    (applyTask t us).gid = t.gid := by
  unfold applyTask
  induction us generalizing t with
  | nil => rfl
  | cons u rest ih =>
    simp only [List.foldl_cons]
    rw [ih]
    by_cases h : t.gid = u.1 <;> simp [h]

theorem applyUpdates_gids (R : List AsanaTask) (us : List (Str × Bool)) :
    (applyUpdates R us).map AsanaTask.gid = R.map AsanaTask.gid := by
  rw [applyUpdates_eq_map, List.map_map]
  apply List.map_congr_left
  intro t _
  exact applyTask_gid t us

/-! ### Lemmas about the Phase-3 push loop -/

theorem pushUpdates_entry (etm : List (Str × ParsedTask))
    (am : List (Str × AsanaTask)) (u : Str × Bool)
    (h : u ∈ pushUpdates etm am) :
    ∃ p, (u.1, p) ∈ etm ∧ u.2 = p.completed := by
  induction etm with
  | nil => cases h
  | cons e rest ih =>
    rcases e with ⟨g, p⟩
    unfold pushUpdates at h
    cases ha : alGet am g with
    | none =>
      rw [ha] at h
      replace h : u ∈ pushUpdates rest am := h
      obtain ⟨q, hq, hq2⟩ := ih h
      exact ⟨q, List.mem_cons_of_mem _ hq, hq2⟩
    | some a =>
      rw [ha] at h
      replace h : u ∈ (if p.completed ≠ a.completed then
          (g, p.completed) :: pushUpdates rest am else pushUpdates rest am) := h
      by_cases hc : p.completed ≠ a.completed
      · rw [if_pos hc] at h
        rcases List.mem_cons.mp h with rfl | h'
        · exact ⟨p, List.mem_cons_self _ _, rfl⟩
        · obtain ⟨q, hq, hq2⟩ := ih h'
          exact ⟨q, List.mem_cons_of_mem _ hq, hq2⟩
      · rw [if_neg hc] at h
        obtain ⟨q, hq, hq2⟩ := ih h
        exact ⟨q, List.mem_cons_of_mem _ hq, hq2⟩

theorem pushUpdates_nil_of_agree (etm : List (Str × ParsedTask))
    (am : List (Str × AsanaTask))
    (h : ∀ g p, (g, p) ∈ etm → ∀ a, alGet am g = some a → p.completed = a.completed) :
    pushUpdates etm am = [] := by
  induction etm with
  | nil => rfl
  | cons e rest ih =>
    rcases e with ⟨g, p⟩
    unfold pushUpdates
    cases ha : alGet am g with
    | none => exact ih (fun g' p' hm => h g' p' (List.mem_cons_of_mem _ hm))
    | some a =>
      show (if p.completed ≠ a.completed then
          (g, p.completed) :: pushUpdates rest am else pushUpdates rest am) = []
      rw [if_neg (by
        simp only [ne_eq, not_not]
        exact h g p (List.mem_cons_self _ _) a ha)]
      exact ih (fun g' p' hm => h g' p' (List.mem_cons_of_mem _ hm))

/-! ### Lines that can never be mistaken for engine-managed lines -/

theorem litFit_some_decompose (lit s r : Str) (h : litFit lit s = some r) :
    s = lit ++ r := by
  induction lit generalizing s with
  | nil =>
    rw [Option.some.inj h]
    rfl
  | cons a la ih =>
    match s with
    | [] => cases h
    | b :: lb =>
      unfold litFit at h
      by_cases hab : a = b
      · rw [if_pos hab] at h
        rw [List.cons_append, ← hab, ih lb h]
      · rw [if_neg hab] at h
        cases h

theorem litFit_cons_ne (a b : Char) (la lb : Str) (h : a ≠ b) :
    litFit (a :: la) (b :: lb) = none := by
  unfold litFit
  rw [if_neg h]

theorem matchTaskLine_head_char (L : Str) (c : Char) (r : Str) (hL : L = c :: r)
    (hc1 : isWsChar c = false) (hc2 : c ≠ '-') : matchTaskLine L = none := by
  subst hL
  unfold matchTaskLine
  rw [dropWs_cons_nws _ _ hc1]
  have hfit : litFit (s2l "- [") (c :: r) = none := by
    show litFit ('-' :: (' ' :: ('[' :: []))) (c :: r) = none
    exact litFit_cons_ne _ _ _ _ (fun hcon => hc2 hcon.symm)
  rw [hfit]

theorem parse_not_special (L : Str) (h : matchTaskLine L ≠ none) :
    L ≠ fmDelim ∧ startsWithLit lastSyncKey L = false ∧
      startsWithLit (s2l "## ") L = false := by
  refine ⟨?_, ?_, ?_⟩
  · intro hL
    exact h (hL ▸ (by decide : matchTaskLine fmDelim = none))
  · cases hfit : litFit lastSyncKey L with
    | none => unfold startsWithLit; rw [hfit]; rfl
    | some rest =>
      exfalso
      apply h
      apply matchTaskLine_head_char L 'a' (s2l "sana_last_sync:" ++ rest)
      · exact litFit_some_decompose _ _ _ hfit
      · decide
      · decide
  · cases hfit : litFit (s2l "## ") L with
    | none => unfold startsWithLit; rw [hfit]; rfl
    | some rest =>
      exfalso
      apply h
      apply matchTaskLine_head_char L '#' (s2l "# " ++ rest)
      · exact litFit_some_decompose _ _ _ hfit
      · decide
      · decide

theorem parseTaskLine_isSome_iff (L : Str) (n : Nat) :
    (parseTaskLine L n).isSome = (matchTaskLine L).isSome := by
  unfold parseTaskLine
  cases matchTaskLine L with
  | none => rfl
  | some v =>
    rcases v with ⟨c, ttl, d, a, g⟩
    rfl

/-! ### Task extraction of `parseNoteContent` -/

theorem noteTasksAux_cons_eq (b1 b2 b3 : Bool) (i : Nat) (l : Str) (rest : List Str) :
    noteTasksAux b1 b2 b3 i (l :: rest) =
      if i = 0 ∧ l = fmDelim then noteTasksAux true b2 b3 (i + 1) rest
      else if b1 then
        (if l = fmDelim then noteTasksAux false true b3 (i + 1) rest
         else noteTasksAux true b2 b3 (i + 1) rest)
      else if b2 ∧ ¬b3 ∧ startsWithLit (s2l "# ") l then
        noteTasksAux b1 b2 true (i + 1) rest
      else if b2 ∧ ¬b3 ∧ trimChars l = [] then noteTasksAux b1 b2 b3 (i + 1) rest
      else if startsWithLit (s2l "## ") l then noteTasksAux b1 b2 b3 (i + 1) rest
      else
        match parseTaskLine l i with
        | some p => p :: noteTasksAux b1 b2 b3 (i + 1) rest
        | none => noteTasksAux b1 b2 b3 (i + 1) rest := rfl

theorem noteTasksAux_mem (lines : List Str) (b1 b2 b3 : Bool) (i : Nat)
    (p : ParsedTask) (h : p ∈ noteTasksAux b1 b2 b3 i lines) :
    ∃ l ∈ lines, ∃ j, parseTaskLine l j = some p := by
  induction lines generalizing b1 b2 b3 i with
  | nil => exact absurd h (List.not_mem_nil p)
  | cons l rest ih =>
    rw [noteTasksAux_cons_eq] at h
    split_ifs at h with h1 h2 h3 h4 h5 h6
    case _ | _ | _ | _ | _ | _ =>
      obtain ⟨l', hl', j, hj⟩ := ih _ _ _ _ h
      exact ⟨l', List.mem_cons_of_mem _ hl', j, hj⟩
    case _ =>
      cases hp : parseTaskLine l i with
      | none =>
        rw [hp] at h
        obtain ⟨l', hl', j, hj⟩ := ih _ _ _ _ h
        exact ⟨l', List.mem_cons_of_mem _ hl', j, hj⟩
      | some q =>
        rw [hp] at h
        rcases List.mem_cons.mp h with rfl | h'
        · exact ⟨l, List.mem_cons_self _ _, i, hp⟩
        · obtain ⟨l', hl', j, hj⟩ := ih _ _ _ _ h'
          exact ⟨l', List.mem_cons_of_mem _ hl', j, hj⟩

theorem noteTasksAux_fm (inner : List Str) (body : List Str) (b2 b3 : Bool) (i : Nat)
    (hnd : fmDelim ∉ inner) (hi : i ≠ 0) :
    noteTasksAux true b2 b3 i (inner ++ fmDelim :: body) =
      noteTasksAux false true b3 (i + inner.length + 1) body := by
  induction inner generalizing i with
  | nil =>
    rw [List.nil_append, noteTasksAux_cons_eq, if_neg (by simp [hi]), if_pos rfl,
      if_pos rfl]
    simp
  | cons l inner' ih =>
    simp only [List.mem_cons, not_or] at hnd
    rw [List.cons_append, noteTasksAux_cons_eq, if_neg (by simp [hi]), if_pos rfl,
      if_neg (fun hc => hnd.1 hc.symm), ih (i + 1) hnd.2 (by omega)]
    have harith : i + 1 + inner'.length + 1 = i + (l :: inner').length + 1 := by
      simp [List.length_cons]
      omega
    rw [harith]

theorem noteTasks_split (inner body : List Str) (hnd : fmDelim ∉ inner) :
    noteTasks (fmDelim :: (inner ++ fmDelim :: body)) =
      noteTasksAux false true false (inner.length + 2) body := by
  unfold noteTasks
  rw [noteTasksAux_cons_eq, if_pos ⟨rfl, rfl⟩, noteTasksAux_fm inner body false false 1
    hnd (by omega)]
  congr 1
  omega

/-! ### The Phase-5 rewrite walk -/

theorem fmLoop_split (ts : Str) (b : Bool) (inner X : List Str)
    (hnd : fmDelim ∉ inner) :
    fmLoop ts b (inner ++ fmDelim :: X) =
      ((inner.map (fmRep ts)) ++
        (if b ∨ inner.any (startsWithLit lastSyncKey) then [] else [tsLine ts]) ++
        [fmDelim], X) := by
  induction inner generalizing b with
  | nil =>
    rw [List.nil_append, fmLoop, if_pos rfl]
    cases b <;> simp
  | cons l inner' ih =>
    simp only [List.mem_cons, not_or] at hnd
    rw [List.cons_append, fmLoop, if_neg (fun hc => hnd.1 hc.symm)]
    by_cases hs : startsWithLit lastSyncKey l = true
    · rw [if_pos hs, ih true hnd.2]
      simp [fmRep, hs]
    · rw [if_neg hs, ih b hnd.2]
      simp only [List.map_cons, fmRep, if_neg hs, List.any_cons]
      cases b <;> simp [Bool.eq_false_iff.mpr hs]

theorem fmLoop_noclose (ts : Str) (b : Bool) (ls : List Str) (hnd : fmDelim ∉ ls) :
    fmLoop ts b ls = (ls.map (fmRep ts), []) := by
  induction ls generalizing b with
  | nil => rfl
  | cons l ls' ih =>
    simp only [List.mem_cons, not_or] at hnd
    rw [fmLoop, if_neg (fun hc => hnd.1 hc.symm)]
    by_cases hs : startsWithLit lastSyncKey l = true
    · rw [if_pos hs, ih true hnd.2]
      simp [fmRep, hs]
    · rw [if_neg hs, ih b hnd.2]
      simp [fmRep, hs]

theorem fmLoop_snd (ts : Str) (b : Bool) (ls : List Str) :
    (fmLoop ts b ls).2 = fmSkip ls := by
  induction ls generalizing b with
  | nil => rfl
  | cons l ls' ih =>
    rw [fmLoop, fmSkip]
    by_cases hd : l = fmDelim
    · rw [if_pos hd, if_pos hd]
    · rw [if_neg hd, if_neg hd]
      by_cases hs : startsWithLit lastSyncKey l = true
      · rw [if_pos hs]
        exact ih true
      · rw [if_neg hs]
        exact ih b

theorem bodyLoop_nil (am : List (Str × AsanaTask)) (st : SyncSettings) :
    bodyLoop am st [] = ([], [], 0) := rfl

theorem bodyLoop_cons (am : List (Str × AsanaTask)) (st : SyncSettings) (l : Str)
    (rest : List Str) :
    bodyLoop am st (l :: rest) =
      ((bodyOut am st l) ++ (bodyLoop am st rest).1,
       (lineSeen l).filter (fun g => g ∈ (lineSeen l)) ++ (bodyLoop am st rest).2.1,
       (if lineCounted am st l then 1 else 0) + (bodyLoop am st rest).2.2) := by
  show (let p := bodyLoop am st rest
    if startsWithLit (s2l "## ") l then (l :: p.1, p.2.1, p.2.2)
    else
      match lineGid l with
      | some g =>
        match alGet am g with
        | some a =>
          if ¬st.showCompletedTasks ∧ a.completed then (p.1, g :: p.2.1, p.2.2)
          else (formatTaskLine a st.showDueDates st.showAssignees :: p.1,
                g :: p.2.1, p.2.2 + 1)
        | none => (l :: p.1, g :: p.2.1, p.2.2)
      | none => (l :: p.1, p.2.1, p.2.2)) = _
  unfold bodyOut lineSeen lineCounted
  by_cases hh : startsWithLit (s2l "## ") l = true
  · simp [hh]
  · simp only [hh, if_false, Bool.false_eq_true]
    cases hg : lineGid l with
    | none => simp
    | some g =>
      cases ha : alGet am g with
      | none => simp [ha]
      | some a =>
        by_cases hc : ¬st.showCompletedTasks ∧ a.completed
        · simp [ha, hc]
        · simp [ha]
          simp at hc
          cases hs : st.showCompletedTasks with
          | false =>
            have hcc := hc hs
            simp [hs, hcc]
            omega
          | true =>
            simp [hs]
            omega

theorem bodyLoop_spec (am : List (Str × AsanaTask)) (st : SyncSettings)
    (BL : List Str) :
    bodyLoop am st BL =
      ((BL.map (bodyOut am st)).flatten,
       (BL.map lineSeen).flatten,
       BL.countP (lineCounted am st)) := by
  induction BL with
  | nil => rfl
  | cons l rest ih =>
    rw [bodyLoop_cons, ih]
    simp [List.countP_cons, List.filter_eq_self]
    omega

theorem rewriteLines_eq (am : List (Str × AsanaTask)) (st : SyncSettings) (ts : Str)
    (lines : List Str) :
    rewriteLines am st ts lines =
      (fmOutOf ts lines ++ (bodyLoop am st (bodyOf lines)).1,
       (bodyLoop am st (bodyOf lines)).2.1,
       (bodyLoop am st (bodyOf lines)).2.2) := by
  match lines with
  | [] => rfl
  | l :: rest =>
    simp only [rewriteLines, fmOutOf, bodyOf]
    by_cases hd : l = fmDelim
    · rw [if_pos hd, if_pos hd, if_pos hd, fmLoop_snd]
    · rw [if_neg hd, if_neg hd, if_neg hd]
      simp

/-! ### Update / detector / append-phase infrastructure -/

theorem applyUpdates_nil (R : List AsanaTask) : applyUpdates R [] = R := rfl

theorem detectorUpdates_mem (ls cur : List (Str × Bool)) (u : Str × Bool)
    (h : u ∈ detectorUpdates ls cur) :
    ∃ w, alGet ls u.1 = some w ∧ w ≠ u.2 := by
  induction cur with
  | nil => cases h
  | cons e rest ih =>
    rcases e with ⟨g, c⟩
    unfold detectorUpdates at h
    cases hw : alGet ls g with
    | none =>
      rw [hw] at h
      exact ih h
    | some w =>
      rw [hw] at h
      replace h : u ∈ (if w ≠ c then (g, c) :: detectorUpdates ls rest
        else detectorUpdates ls rest) := h
      by_cases hne : w ≠ c
      · rw [if_pos hne] at h
        rcases List.mem_cons.mp h with rfl | h'
        · exact ⟨w, hw, hne⟩
        · exact ih h'
      · rw [if_neg hne] at h
        exact ih h

theorem insertGroup_sublist (st : SyncSettings) (B : List Str) (sec : Str)
    (tasks : List AsanaTask) : List.Sublist B (insertGroup st B sec tasks) := by
  unfold insertGroup
  cases hf : List.findIdx? (fun l => trimChars l == s2l "## " ++ sec) B with
  | none =>
    simp only [hf]
    by_cases hsec : sec ≠ unsectioned
    · rw [if_pos hsec]
      simp only [List.append_assoc]
      exact List.sublist_append_left _ _
    · rw [if_neg hsec]
      exact List.sublist_append_left _ _
  | some i =>
    simp only [hf]
    by_cases hsec : sec ≠ unsectioned
    · rw [if_pos hsec]
      conv_lhs => rw [← List.take_append_drop (i + 1 + insertionOffset
        (List.drop (i + 1) B)) B]
      rw [List.append_assoc]
      exact List.Sublist.append_left (List.sublist_append_right _ _) _
    · rw [if_neg hsec]
      exact List.sublist_append_left _ _

theorem appendNew_sublist (st : SyncSettings) (B : List Str)
    (groups : List (Str × List AsanaTask)) : List.Sublist B (appendNew st B groups) := by
  unfold appendNew
  induction groups generalizing B with
  | nil => exact List.Sublist.refl B
  | cons gp rest ih =>
    simp only [List.foldl_cons]
    exact (insertGroup_sublist st B gp.1 gp.2).trans (ih _)

theorem bodyOut_keep_none (am : List (Str × AsanaTask)) (st : SyncSettings)
    (l : Str) (h : lineGid l = none) : bodyOut am st l = [l] := by
  unfold bodyOut
  by_cases hh : startsWithLit (s2l "## ") l = true
  · rw [if_pos hh]
  · simp only [if_neg hh, h]

theorem bodyOut_keep_unknown (am : List (Str × AsanaTask)) (st : SyncSettings)
    (l : Str) (g : Str) (hg : lineGid l = some g) (ha : alGet am g = none) :
    bodyOut am st l = [l] := by
  unfold bodyOut
  by_cases hh : startsWithLit (s2l "## ") l = true
  · rw [if_pos hh]
  · simp only [if_neg hh, hg, ha]

theorem mem_bodyLoop_of_keep (am : List (Str × AsanaTask)) (st : SyncSettings)
    (BL : List Str) (l : Str) (hl : l ∈ BL) (hk : bodyOut am st l = [l]) :
    l ∈ (bodyLoop am st BL).1 := by
  rw [bodyLoop_spec]
  exact List.mem_flatten.mpr ⟨[l], hk ▸ List.mem_map_of_mem _ hl,
    List.mem_singleton.mpr rfl⟩

theorem syncProject_some_content (L : List Str) (R : List AsanaTask) (pn pg : Str)
    (imt : Bool) (st : SyncSettings) (ts : Str) :
    (syncProject (some L) R pn pg imt st ts).content =
      appendNew st
        (rewriteLines
          (buildAsanaMap (applyUpdates R
            (pushUpdates (buildTaskMap (noteTasks L)) (buildAsanaMap R))))
          st ts L).1
        (buildGroups pg
          ((applyUpdates R
            (pushUpdates (buildTaskMap (noteTasks L)) (buildAsanaMap R))).filter
            (fun t => decide (t.gid ∉ (rewriteLines
              (buildAsanaMap (applyUpdates R
                (pushUpdates (buildTaskMap (noteTasks L)) (buildAsanaMap R))))
              st ts L).2.1 ∧ ¬(¬st.showCompletedTasks ∧ t.completed))))) := rfl

theorem syncProject_some_updates (L : List Str) (R : List AsanaTask) (pn pg : Str)
    (imt : Bool) (st : SyncSettings) (ts : Str) :
    (syncProject (some L) R pn pg imt st ts).updates =
      pushUpdates (buildTaskMap (noteTasks L)) (buildAsanaMap R) := rfl

theorem keep_mem_content (L : List Str) (R : List AsanaTask) (pn pg : Str)
    (imt : Bool) (st : SyncSettings) (ts : Str) (l : Str)
    (hl : l ∈ bodyOf L)
    (hk : bodyOut (buildAsanaMap (applyUpdates R
      (pushUpdates (buildTaskMap (noteTasks L)) (buildAsanaMap R)))) st l = [l]) :
    l ∈ (syncProject (some L) R pn pg imt st ts).content := by
  rw [syncProject_some_content]
  apply (appendNew_sublist st _ _).subset
  rw [rewriteLines_eq]
  exact List.mem_append_right _ (mem_bodyLoop_of_keep _ st (bodyOf L) l hl hk)

/-! ### Claim C5 -/

/-- C5: when the target document does not exist, `syncProject` creates it
from `generateNoteContent` and returns `updated = 0`,
`completionChanges = 0` and no pushed updates --- but `added` is the TOTAL
number of fetched remote tasks (`asanaTasks.length`), not the count after
the hide-completed filter. -/
theorem c5_bootstrap (R : List AsanaTask) (pn pg : Str) (imt : Bool)
    (st : SyncSettings) (ts : Str) :
    (syncProject none R pn pg imt st ts).created = true ∧
    (syncProject none R pn pg imt st ts).added = R.length ∧
    (syncProject none R pn pg imt st ts).updated = 0 ∧
    (syncProject none R pn pg imt st ts).completionChanges = 0 ∧
    (syncProject none R pn pg imt st ts).updates = [] ∧
    (syncProject none R pn pg imt st ts).content =
      generateNoteContent pn pg imt R st ts :=
  ⟨rfl, rfl, rfl, rfl, rfl, rfl⟩

/-- C5 counterexample: with one completed fetched task and the
hide-completed filter active, the bootstrap reports `added = 1` although
the filtered count used to build the note is `0`. -/
theorem c5_counterexample :
    (syncProject none
      [{gid := s2l "7", name := s2l "Done task", completed := true,
        due_on := none, assignee := none, memberships := []}]
      (s2l "P") (s2l "p1") false
      {showDueDates := true, showAssignees := true, showCompletedTasks := false}
      (s2l "2024-06-01T00:00:00.000Z")).added = 1 ∧
    (([{gid := s2l "7", name := s2l "Done task", completed := true,
        due_on := none, assignee := none, memberships := []}] :
       List AsanaTask).filter (fun t => !t.completed)).length = 0 :=
  ⟨rfl, rfl⟩

/-! ### Claim C10 -/

/-- C10: the change detector never pushes on first observation: with no
recorded snapshot the scan pushes nothing, and an identifier absent from
the recorded snapshot is never pushed; in both cases the snapshot recorded
afterwards is exactly the observed completion mapping. -/
theorem c10_first_observation (lines : List Str) (ls : List (Str × Bool))
    (g : Str) (b : Bool) (hg : alGet ls g = none) :
    (processCheckboxChanges none lines).1 = [] ∧
    (processCheckboxChanges none lines).2 = buildCurrentState lines ∧
    (g, b) ∉ (processCheckboxChanges (some ls) lines).1 ∧
    (processCheckboxChanges (some ls) lines).2 = buildCurrentState lines := by
  refine ⟨rfl, rfl, ?_, rfl⟩
  intro hmem
  replace hmem : (g, b) ∈ detectorUpdates ls (buildCurrentState lines) := hmem
  obtain ⟨w, hw, _⟩ := detectorUpdates_mem ls _ _ hmem
  rw [hg] at hw
  cases hw

/-- Witness for C10 at a concrete document and snapshot. -/
theorem c10_witness :
    alGet ([] : List (Str × Bool)) (s2l "5") = none ∧
    ((processCheckboxChanges none [s2l "- [ ] A <!-- asana:5 -->"]).1 = [] ∧
     (processCheckboxChanges none [s2l "- [ ] A <!-- asana:5 -->"]).2 =
       buildCurrentState [s2l "- [ ] A <!-- asana:5 -->"] ∧
     (s2l "5", true) ∉ (processCheckboxChanges (some []) [s2l "- [ ] A <!-- asana:5 -->"]).1 ∧
     (processCheckboxChanges (some []) [s2l "- [ ] A <!-- asana:5 -->"]).2 =
       buildCurrentState [s2l "- [ ] A <!-- asana:5 -->"]) :=
  ⟨rfl, c10_first_observation [s2l "- [ ] A <!-- asana:5 -->"] [] (s2l "5") true rfl⟩

/-! ### Claim C2 -/

/-- C2 (amended): parsing the line produced by `formatTaskLine` recovers
the title, completion flag and identifier of any well-formed task; the due
date and the assignee are recovered exactly when the corresponding display
option shows them (`shownDue` / `shownAsg`) --- a field whose display
option is off is absent from the parsed result, so the codec round-trip
loses it. -/
theorem c2_roundtrip (t : AsanaTask) (sd sa : Bool) (n : Nat) (ht : GoodTask t) :
    ∃ pt, parseTaskLine (formatTaskLine t sd sa) n = some pt ∧
      pt.name = t.name ∧ pt.completed = t.completed ∧ pt.asanaGid = some t.gid ∧
      pt.dueDate = shownDue t sd ∧ pt.assignee = shownAsg t sa :=
  ⟨_, parseTaskLine_format t sd sa n ht, rfl, rfl, rfl, rfl, rfl⟩

/-- Witness for C2 at a concrete task with both display options on. -/
theorem c2_witness :
    GoodTask {gid := s2l "42", name := s2l "Write report", completed := false,
              due_on := some (s2l "2024-03-04"),
              assignee := some {gid := s2l "8", name := s2l "Ann"},
              memberships := []} ∧
    ∃ pt, parseTaskLine (formatTaskLine
        {gid := s2l "42", name := s2l "Write report", completed := false,
         due_on := some (s2l "2024-03-04"),
         assignee := some {gid := s2l "8", name := s2l "Ann"}, memberships := []}
        true true) 5 = some pt ∧
      pt.name = s2l "Write report" ∧ pt.completed = false ∧
      pt.asanaGid = some (s2l "42") ∧
      pt.dueDate = shownDue
        {gid := s2l "42", name := s2l "Write report", completed := false,
         due_on := some (s2l "2024-03-04"),
         assignee := some {gid := s2l "8", name := s2l "Ann"}, memberships := []}
        true ∧
      pt.assignee = shownAsg
        {gid := s2l "42", name := s2l "Write report", completed := false,
         due_on := some (s2l "2024-03-04"),
         assignee := some {gid := s2l "8", name := s2l "Ann"}, memberships := []}
        true :=
  ⟨by decide, c2_roundtrip
    {gid := s2l "42", name := s2l "Write report", completed := false,
     due_on := some (s2l "2024-03-04"),
     assignee := some {gid := s2l "8", name := s2l "Ann"}, memberships := []}
    true true 5 (by decide)⟩

/-- C2 counterexample: with the display options off, the formatted line
omits the due-date and assignee markers, so parsing it yields `none` for
both fields although the task has them --- the round trip is not the
identity on those fields. -/
theorem c2_counterexample :
    (parseTaskLine (formatTaskLine
        {gid := s2l "42", name := s2l "Write report", completed := false,
         due_on := some (s2l "2024-03-04"),
         assignee := some {gid := s2l "8", name := s2l "Ann"}, memberships := []}
        false false) 0).map (fun pt => (pt.dueDate, pt.assignee)) =
      some (none, none) ∧
    ({gid := s2l "42", name := s2l "Write report", completed := false,
      due_on := some (s2l "2024-03-04"),
      assignee := some {gid := s2l "8", name := s2l "Ann"},
      memberships := []} : AsanaTask).due_on = some (s2l "2024-03-04") :=
  ⟨rfl, rfl⟩

/-! ### Claim C6 -/

/-- C6 (amended): a line the regex rejects is not a task, and when its raw
text also contains no `asana:` comment the reconciliation pass preserves
it verbatim in the document.  (A checkbox line with out-of-order markers,
however, can still match the regex, with the out-of-order markers absorbed
into the lazy text captures --- see the counterexample.) -/
theorem c6_opaque_line (L : List Str) (R : List AsanaTask) (pn pg : Str)
    (imt : Bool) (st : SyncSettings) (ts : Str) (l : Str) (n : Nat)
    (hl : l ∈ bodyOf L) (_hp : parseTaskLine l n = none) (hg : lineGid l = none) :
    l ∈ (syncProject (some L) R pn pg imt st ts).content :=
  keep_mem_content L R pn pg imt st ts l hl (bodyOut_keep_none _ st l hg)

/-- Witness for C6 at a concrete opaque line. -/
theorem c6_witness :
    (s2l "plain text" ∈ bodyOf [s2l "plain text"]) ∧
    parseTaskLine (s2l "plain text") 0 = none ∧
    lineGid (s2l "plain text") = none ∧
    s2l "plain text" ∈ (syncProject (some [s2l "plain text"]) [] (s2l "P")
      (s2l "p1") false
      {showDueDates := true, showAssignees := true, showCompletedTasks := false}
      (s2l "2024-06-01T00:00:00.000Z")).content :=
  ⟨by decide, rfl, rfl, c6_opaque_line [s2l "plain text"] [] (s2l "P") (s2l "p1")
    false {showDueDates := true, showAssignees := true, showCompletedTasks := false}
    (s2l "2024-06-01T00:00:00.000Z") (s2l "plain text") 0 (by decide) rfl rfl⟩

/-- C6 counterexample: a checkbox line whose identifier comment precedes
the due-date marker (out of the fixed order) still matches the regex ---
`parseTaskLine` returns a task, with the comment absorbed into the title
capture and no identifier extracted, while the unanchored gid search still
finds the comment. -/
theorem c6_counterexample :
    (parseTaskLine (s2l "- [ ] Fix bug <!-- asana:77 --> 📅 2024-05-06") 3).map
        (fun pt => (pt.asanaGid, pt.dueDate, pt.name)) =
      some (none, some (s2l "2024-05-06"), s2l "Fix bug <!-- asana:77 -->") ∧
    lineGid (s2l "- [ ] Fix bug <!-- asana:77 --> 📅 2024-05-06") =
      some (s2l "77") :=
  ⟨rfl, rfl⟩

/-! ### Claim C9 -/

/-- C9 (amended): every pushed update's identifier is the parsed identifier
of some task extracted from the document (so a task parsed without an
identifier is never pushed), and a document line whose raw text contains no
`asana:` comment is never deleted by the engine.  (A line that parses with
no identifier can still be rewritten or dropped when its raw text contains
a comment the regex did not capture --- see the counterexample.) -/
theorem c9_no_marker_untouched (L : List Str) (R : List AsanaTask) (pn pg : Str)
    (imt : Bool) (st : SyncSettings) (ts : Str) (l g : Str) (b : Bool)
    (hl : l ∈ bodyOf L) (hg : lineGid l = none) :
    ((g, b) ∈ (syncProject (some L) R pn pg imt st ts).updates →
      ∃ p ∈ noteTasks L, p.asanaGid = some g) ∧
    l ∈ (syncProject (some L) R pn pg imt st ts).content := by
  constructor
  · intro hu
    rw [syncProject_some_updates] at hu
    obtain ⟨p, hp, _⟩ := pushUpdates_entry _ _ _ hu
    exact ⟨p, (buildTaskMap_entry _ _ _ hp).1, (buildTaskMap_entry _ _ _ hp).2⟩
  · exact keep_mem_content L R pn pg imt st ts l hl (bodyOut_keep_none _ st l hg)

/-- Witness for C9 at a concrete marker-free task line. -/
theorem c9_witness :
    (s2l "- [ ] A" ∈ bodyOf [s2l "- [ ] A"]) ∧
    lineGid (s2l "- [ ] A") = none ∧
    (((s2l "9", true) ∈ (syncProject (some [s2l "- [ ] A"]) [] (s2l "P") (s2l "p1")
        false {showDueDates := true, showAssignees := true, showCompletedTasks := true}
        (s2l "2024-06-01T00:00:00.000Z")).updates →
      ∃ p ∈ noteTasks [s2l "- [ ] A"], p.asanaGid = some (s2l "9")) ∧
     s2l "- [ ] A" ∈ (syncProject (some [s2l "- [ ] A"]) [] (s2l "P") (s2l "p1")
        false {showDueDates := true, showAssignees := true, showCompletedTasks := true}
        (s2l "2024-06-01T00:00:00.000Z")).content) :=
  ⟨by decide, rfl, c9_no_marker_untouched [s2l "- [ ] A"] [] (s2l "P") (s2l "p1")
    false {showDueDates := true, showAssignees := true, showCompletedTasks := true}
    (s2l "2024-06-01T00:00:00.000Z") (s2l "- [ ] A") (s2l "9") true (by decide) rfl⟩

/-- C9 counterexample: a line that parses as a task with NO identifier
(the out-of-order comment is absorbed into the title) is nevertheless
deleted by the next pass: its raw text still contains the comment, the
unanchored search finds the completed remote task `77`, and the
hide-completed rewrite drops the line. -/
theorem c9_counterexample :
    (parseTaskLine (s2l "- [ ] Fix bug <!-- asana:77 --> 📅 2024-05-06") 2).map
      ParsedTask.asanaGid = some none ∧
    (syncProject (some [fmDelim, fmDelim,
        s2l "- [ ] Fix bug <!-- asana:77 --> 📅 2024-05-06"])
      [{gid := s2l "77", name := s2l "Fix bug", completed := true, due_on := none,
        assignee := none, memberships := []}]
      (s2l "P") (s2l "p1") false
      {showDueDates := true, showAssignees := true, showCompletedTasks := false}
      (s2l "2024-06-01T00:00:00.000Z")).updates = [] ∧
    (syncProject (some [fmDelim, fmDelim,
        s2l "- [ ] Fix bug <!-- asana:77 --> 📅 2024-05-06"])
      [{gid := s2l "77", name := s2l "Fix bug", completed := true, due_on := none,
        assignee := none, memberships := []}]
      (s2l "P") (s2l "p1") false
      {showDueDates := true, showAssignees := true, showCompletedTasks := false}
      (s2l "2024-06-01T00:00:00.000Z")).content =
      [fmDelim, tsLine (s2l "2024-06-01T00:00:00.000Z"), fmDelim] ∧
    s2l "- [ ] Fix bug <!-- asana:77 --> 📅 2024-05-06" ∉
      [fmDelim, tsLine (s2l "2024-06-01T00:00:00.000Z"), fmDelim] :=
  ⟨rfl, rfl, rfl, by decide⟩

/-! ### Claim C4 -/

/-- C4 (amended): every line of the BODY region carrying a remote
identifier absent from the refreshed remote task map is kept verbatim in
the rewritten document (conservative deletion).  A frontmatter line is
outside this guarantee: the timestamp rewrite can replace it even when it
carries an unknown identifier --- see the counterexample. -/
theorem c4_conservative (L : List Str) (R : List AsanaTask) (pn pg : Str)
    (imt : Bool) (st : SyncSettings) (ts : Str) (l g : Str)
    (hl : l ∈ bodyOf L) (hg : lineGid l = some g)
    (ha : alGet (buildAsanaMap (applyUpdates R
      (pushUpdates (buildTaskMap (noteTasks L)) (buildAsanaMap R)))) g = none) :
    l ∈ (syncProject (some L) R pn pg imt st ts).content :=
  keep_mem_content L R pn pg imt st ts l hl (bodyOut_keep_unknown _ st l g hg ha)

/-- Witness for C4 at a concrete line with an identifier unknown remotely. -/
theorem c4_witness :
    (s2l "- [ ] A <!-- asana:5 -->" ∈ bodyOf [s2l "- [ ] A <!-- asana:5 -->"]) ∧
    lineGid (s2l "- [ ] A <!-- asana:5 -->") = some (s2l "5") ∧
    alGet (buildAsanaMap (applyUpdates ([] : List AsanaTask)
      (pushUpdates (buildTaskMap (noteTasks [s2l "- [ ] A <!-- asana:5 -->"]))
        (buildAsanaMap [])))) (s2l "5") = none ∧
    s2l "- [ ] A <!-- asana:5 -->" ∈
      (syncProject (some [s2l "- [ ] A <!-- asana:5 -->"]) [] (s2l "P") (s2l "p1")
        false {showDueDates := true, showAssignees := true, showCompletedTasks := true}
        (s2l "2024-06-01T00:00:00.000Z")).content :=
  ⟨by decide, rfl, rfl, c4_conservative [s2l "- [ ] A <!-- asana:5 -->"] []
    (s2l "P") (s2l "p1") false
    {showDueDates := true, showAssignees := true, showCompletedTasks := true}
    (s2l "2024-06-01T00:00:00.000Z") (s2l "- [ ] A <!-- asana:5 -->") (s2l "5")
    (by decide) rfl rfl⟩

/-- C4 counterexample: a FRONTMATTER line carrying an identifier absent
from the refreshed remote map is not kept verbatim: because it starts with
the `asana_last_sync:` key, the timestamp rewrite replaces it. -/
theorem c4_counterexample :
    lineGid (s2l "asana_last_sync: x <!-- asana:9 -->") = some (s2l "9") ∧
    alGet (buildAsanaMap (applyUpdates ([] : List AsanaTask)
      (pushUpdates (buildTaskMap (noteTasks [fmDelim,
        s2l "asana_last_sync: x <!-- asana:9 -->", fmDelim]))
        (buildAsanaMap [])))) (s2l "9") = none ∧
    (syncProject (some [fmDelim, s2l "asana_last_sync: x <!-- asana:9 -->", fmDelim])
      [] (s2l "P") (s2l "p1") false
      {showDueDates := true, showAssignees := true, showCompletedTasks := true}
      (s2l "2024-06-01T00:00:00.000Z")).content =
      [fmDelim, tsLine (s2l "2024-06-01T00:00:00.000Z"), fmDelim] ∧
    s2l "asana_last_sync: x <!-- asana:9 -->" ∉
      [fmDelim, tsLine (s2l "2024-06-01T00:00:00.000Z"), fmDelim] :=
  ⟨rfl, rfl, rfl, by decide⟩

/-! ### Claim C8: the Phase-6 insertion position -/

theorem insertionOffset_le (L : List Str) : insertionOffset L ≤ L.length := by
  induction L with
  | nil => exact Nat.le_refl 0
  | cons l rest ih =>
    unfold insertionOffset
    by_cases hh : startsWithLit (s2l "## ") l = true
    · rw [if_pos hh]
      exact Nat.zero_le _
    · rw [if_neg hh]
      simp only [List.length_cons]
      omega

theorem insertionOffset_before (L : List Str) (m : Nat) (hm : m < L.length)
    (h : m < insertionOffset L) :
    startsWithLit (s2l "## ") (L.get ⟨m, hm⟩) = false := by
  induction L generalizing m with
  | nil => exact absurd hm (Nat.not_lt_zero m)
  | cons l rest ih =>
    unfold insertionOffset at h
    by_cases hh : startsWithLit (s2l "## ") l = true
    · rw [if_pos hh] at h
      exact absurd h (Nat.not_lt_zero m)
    · rw [if_neg hh] at h
      match m with
      | 0 => simpa using hh
      | Nat.succ mp =>
        have hmp : mp < rest.length := by
          simp only [List.length_cons] at hm
          omega
        have hp : mp < insertionOffset rest := by omega
        simpa using ih mp hmp hp

theorem insertionOffset_heading (L : List Str)
    (h : insertionOffset L < L.length) :
    startsWithLit (s2l "## ") (L.get ⟨insertionOffset L, h⟩) = true := by
  induction L with
  | nil => exact absurd h (Nat.not_lt_zero _)
  | cons l rest ih =>
    by_cases hh : startsWithLit (s2l "## ") l = true
    · have he : insertionOffset (l :: rest) = 0 := by
        show (if startsWithLit (s2l "## ") l then 0 else 1 + insertionOffset rest) = 0
        rw [if_pos hh]
      simp only [List.get_eq_getElem, he, List.getElem_cons_zero]
      exact hh
    · have he : insertionOffset (l :: rest) = insertionOffset rest + 1 := by
        show (if startsWithLit (s2l "## ") l then 0 else 1 + insertionOffset rest) = _
        rw [if_neg hh]
        omega
      have h' : insertionOffset rest < rest.length := by
        rw [he] at h
        simp only [List.length_cons] at h
        omega
      have hgoal := ih h'
      simp only [List.get_eq_getElem] at hgoal ⊢
      have hidx : (l :: rest)[insertionOffset (l :: rest)] = rest[insertionOffset rest] := by
        simp only [he, List.getElem_cons_succ]
      rw [hidx]
      exact hgoal

/-- C8: a group of new remote tasks whose section heading occurs in the
rewritten line list (at index `i`, with a named section) is spliced in at
the index `k` that ends the heading's span: strictly after the heading,
with no `## `-prefixed line strictly between the heading and `k`, and with
`k` either the position of the next heading or the end of the document. -/
theorem c8_section_insertion (st : SyncSettings) (B : List Str) (sec : Str)
    (tasks : List AsanaTask) (i : Nat)
    (hf : List.findIdx? (fun l => trimChars l == s2l "## " ++ sec) B = some i)
    (hsec : sec ≠ unsectioned) :
    ∃ k, k = i + 1 + insertionOffset (List.drop (i + 1) B) ∧
      insertGroup st B sec tasks =
        List.take k B ++
          tasks.map (fun t => formatTaskLine t st.showDueDates st.showAssignees) ++
          List.drop k B ∧
      i < k ∧ k ≤ B.length ∧
      (∀ m (hm : m < B.length), i < m → m < k →
        startsWithLit (s2l "## ") (B.get ⟨m, hm⟩) = false) ∧
      (∀ hk : k < B.length, startsWithLit (s2l "## ") (B.get ⟨k, hk⟩) = true) := by
  have hi : i < B.length := (List.findIdx?_eq_some_iff_findIdx_eq.mp hf).1
  have hoff := insertionOffset_le (List.drop (i + 1) B)
  rw [List.length_drop] at hoff
  refine ⟨i + 1 + insertionOffset (List.drop (i + 1) B), rfl, ?_, by omega, by omega,
    ?_, ?_⟩
  · unfold insertGroup
    simp only [hf, if_pos hsec]
  · intro m hm him hmk
    have hj : m - (i + 1) < insertionOffset (List.drop (i + 1) B) := by omega
    have hj2 : m - (i + 1) < (List.drop (i + 1) B).length := by
      rw [List.length_drop]
      omega
    have hb := insertionOffset_before (List.drop (i + 1) B) (m - (i + 1)) hj2 hj
    simp only [List.get_eq_getElem, List.getElem_drop] at hb ⊢
    have harith : i + 1 + (m - (i + 1)) = m := by omega
    simp only [harith] at hb
    exact hb
  · intro hk
    have hoff2 : insertionOffset (List.drop (i + 1) B) < (List.drop (i + 1) B).length := by
      rw [List.length_drop]
      omega
    have := insertionOffset_heading (List.drop (i + 1) B) hoff2
    simp only [List.get_eq_getElem, List.getElem_drop] at this ⊢
    exact this

/-- Witness for C8 at a concrete document with two section headings. -/
theorem c8_witness :
    List.findIdx? (fun l => trimChars l == s2l "## " ++ s2l "Doing")
      [s2l "## Doing", s2l "- [ ] A", [], s2l "## Done"] = some 0 ∧
    s2l "Doing" ≠ unsectioned ∧
    (∃ k, k = 0 + 1 + insertionOffset (List.drop (0 + 1)
        [s2l "## Doing", s2l "- [ ] A", [], s2l "## Done"]) ∧
      insertGroup
        {showDueDates := true, showAssignees := true, showCompletedTasks := true}
        [s2l "## Doing", s2l "- [ ] A", [], s2l "## Done"] (s2l "Doing")
        [{gid := s2l "3", name := s2l "B", completed := false, due_on := none,
          assignee := none, memberships := []}] =
        List.take k [s2l "## Doing", s2l "- [ ] A", [], s2l "## Done"] ++
          [{gid := s2l "3", name := s2l "B", completed := false, due_on := none,
            assignee := none, memberships := []}].map
            (fun t => formatTaskLine t true true) ++
          List.drop k [s2l "## Doing", s2l "- [ ] A", [], s2l "## Done"] ∧
      0 < k ∧ k ≤ [s2l "## Doing", s2l "- [ ] A", [], s2l "## Done"].length ∧
      (∀ m (hm : m < [s2l "## Doing", s2l "- [ ] A", [], s2l "## Done"].length),
        0 < m → m < k →
        startsWithLit (s2l "## ")
          ([s2l "## Doing", s2l "- [ ] A", [], s2l "## Done"].get ⟨m, hm⟩) = false) ∧
      (∀ hk : k < [s2l "## Doing", s2l "- [ ] A", [], s2l "## Done"].length,
        startsWithLit (s2l "## ")
          ([s2l "## Doing", s2l "- [ ] A", [], s2l "## Done"].get ⟨k, hk⟩) = true)) :=
  ⟨by decide, by decide, c8_section_insertion
    {showDueDates := true, showAssignees := true, showCompletedTasks := true}
    [s2l "## Doing", s2l "- [ ] A", [], s2l "## Done"] (s2l "Doing")
    [{gid := s2l "3", name := s2l "B", completed := false, due_on := none,
      assignee := none, memberships := []}] 0 (by decide) (by decide)⟩

/-! ### The unanchored gid search on a formatted line -/

theorem litFit_open_fail2 (s z : Str) (hs : noOpenSub s = true)
    (hz : z = [] ∨ ∃ c zr, z = c :: zr ∧ c ≠ '!' ∧ c ≠ '-')
    (hne : s ≠ []) :
    litFit (s2l "<!--") (s ++ z) = none := by
  by_cases hlen : 4 ≤ s.length
  · rw [litFit_append_long _ _ _ (by simpa [s2l_open4] using hlen)]
    have hsw := startsWithLit_open_false s hs hne
    unfold startsWithLit at hsw
    cases hfit : litFit (s2l "<!--") s
    · rfl
    · rw [hfit] at hsw; simp at hsw
  · rcases hz with rfl | ⟨c, zr, rfl, hc1, hc2⟩
    · rw [List.append_nil]
      exact litFit_short _ _ (by simp [s2l_open4]; omega)
    · match s, hlen, hne with
      | [a], _, _ =>
        simp only [List.cons_append, List.nil_append, s2l_open4, litFit]
        split
        · rw [if_neg (fun h => hc1 h.symm)]
        · rfl
      | [a, b], _, _ =>
        simp only [List.cons_append, List.nil_append, s2l_open4, litFit]
        split
        · split
          · rw [if_neg (fun h => hc2 h.symm)]
          · rfl
        · rfl
      | [a, b, c3], _, _ =>
        simp only [List.cons_append, List.nil_append, s2l_open4, litFit]
        split
        · split
          · split
            · rw [if_neg (fun h => hc2 h.symm)]
            · rfl
          · rfl
        · rfl
      | _ :: _ :: _ :: _ :: _, hlen, _ => exact absurd (by simp) hlen

theorem noOpenSub_append_of_no_lt (a b : Str) (ha : '<' ∉ a)
    (hb : noOpenSub b = true) : noOpenSub (a ++ b) = true := by
  induction a with
  | nil => simpa using hb
  | cons c ar ih =>
    simp only [List.mem_cons, not_or] at ha
    show ((!startsWithLit (s2l "<!--") (c :: (ar ++ b))) && noOpenSub (ar ++ b)) = true
    have h1 : litFit (s2l "<!--") (c :: (ar ++ b)) = none := by
      rw [s2l_open4]
      exact litFit_cons_ne _ _ _ _ ha.1
    have h2 : startsWithLit (s2l "<!--") (c :: (ar ++ b)) = false := by
      unfold startsWithLit
      rw [h1]
      rfl
    rw [h2, ih ha.2]
    rfl

theorem noOpenSub_append_headSafe (a b : Str) (ha : noOpenSub a = true)
    (hb : noOpenSub b = true)
    (hh : b = [] ∨ ∃ c br, b = c :: br ∧ c ≠ '!' ∧ c ≠ '-') :
    noOpenSub (a ++ b) = true := by
  induction a with
  | nil => simpa using hb
  | cons c ar ih =>
    have haz : ((!startsWithLit (s2l "<!--") (c :: ar)) && noOpenSub ar) = true := ha
    rw [Bool.and_eq_true] at haz
    show ((!startsWithLit (s2l "<!--") ((c :: ar) ++ b)) && noOpenSub (ar ++ b)) = true
    have h1 : litFit (s2l "<!--") ((c :: ar) ++ b) = none :=
      litFit_open_fail2 (c :: ar) b ha hh (List.cons_ne_nil c ar)
    have h2 : startsWithLit (s2l "<!--") ((c :: ar) ++ b) = false := by
      unfold startsWithLit
      rw [h1]
      rfl
    rw [List.cons_append] at h2
    show ((!startsWithLit (s2l "<!--") (c :: (ar ++ b))) && noOpenSub (ar ++ b)) = true
    rw [h2, ih haz.2]
    rfl

theorem dateShape_chars (d : Str) (hd : dateShape d = true) :
    ∀ c ∈ d, isDigitChar c = true ∨ c = '-' := by
  match d with
  | [] => exact Bool.noConfusion hd
  | [a] => exact Bool.noConfusion hd
  | [a, b] => exact Bool.noConfusion hd
  | [a, b, c] => exact Bool.noConfusion hd
  | [a, b, c, d4] => exact Bool.noConfusion hd
  | [a, b, c, d4, h1] => exact Bool.noConfusion hd
  | [a, b, c, d4, h1, e] => exact Bool.noConfusion hd
  | [a, b, c, d4, h1, e, f] => exact Bool.noConfusion hd
  | [a, b, c, d4, h1, e, f, h2] => exact Bool.noConfusion hd
  | [a, b, c, d4, h1, e, f, h2, g] => exact Bool.noConfusion hd
  | a :: b :: c :: d4 :: h1 :: e :: f :: h2 :: g :: h :: k :: rest =>
    exact Bool.noConfusion hd
  | [a, b, c, d4, h1, e, f, h2, g, h] =>
    have hd' : (isDigitChar a && isDigitChar b && isDigitChar c && isDigitChar d4 &&
        (h1 == '-') && isDigitChar e && isDigitChar f && (h2 == '-') &&
        isDigitChar g && isDigitChar h) = true := hd
    simp only [Bool.and_eq_true, beq_iff_eq] at hd'
    intro c0 hc0
    simp only [List.mem_cons, List.not_mem_nil, or_false] at hc0
    rcases hc0 with rfl | rfl | rfl | rfl | rfl | rfl | rfl | rfl | rfl | rfl
    · exact Or.inl hd'.1.1.1.1.1.1.1.1.1
    · exact Or.inl hd'.1.1.1.1.1.1.1.1.2
    · exact Or.inl hd'.1.1.1.1.1.1.1.2
    · exact Or.inl hd'.1.1.1.1.1.1.2
    · exact Or.inr hd'.1.1.1.1.1.2
    · exact Or.inl hd'.1.1.1.1.2
    · exact Or.inl hd'.1.1.1.2
    · exact Or.inr hd'.1.1.2
    · exact Or.inl hd'.1.2
    · exact Or.inl hd'.2

theorem dateShape_no_lt (d : Str) (hd : dateShape d = true) : '<' ∉ d := by
  intro hmem
  rcases dateShape_chars d hd '<' hmem with h | h
  · exact absurd h (by decide)
  · exact absurd h (by decide)

theorem lineGid_marker (u g : Str) (hu : noOpenSub u = true) (hg : GoodGid g) :
    lineGid (u ++ (s2l "<!-- asana:" ++ (g ++ s2l " -->"))) = some g := by
  induction u with
  | nil =>
    rw [List.nil_append]
    have hgh := gidHere_accept_nil g hg.1 hg.2
    show (match gidHere (s2l "<!-- asana:" ++ (g ++ s2l " -->")) with
      | some (g0, _) => some g0
      | none => lineGid (s2l "!-- asana:" ++ (g ++ s2l " -->"))) = some g
    rw [hgh]
  | cons c ur ih =>
    have huz : ((!startsWithLit (s2l "<!--") (c :: ur)) && noOpenSub ur) = true := hu
    rw [Bool.and_eq_true] at huz
    have hfit : litFit (s2l "<!--")
        ((c :: ur) ++ (s2l "<!-- asana:" ++ (g ++ s2l " -->"))) = none :=
      litFit_open_fail2 (c :: ur) _ hu
        (Or.inr ⟨'<', s2l "!-- asana:" ++ (g ++ s2l " -->"), rfl, by decide, by decide⟩)
        (List.cons_ne_nil c ur)
    rw [List.cons_append] at hfit
    have hgh : gidHere (c :: (ur ++ (s2l "<!-- asana:" ++ (g ++ s2l " -->")))) = none := by
      unfold gidHere
      rw [hfit]
    rw [List.cons_append]
    show (match gidHere (c :: (ur ++ (s2l "<!-- asana:" ++ (g ++ s2l " -->")))) with
      | some (g0, _) => some g0
      | none => lineGid (ur ++ (s2l "<!-- asana:" ++ (g ++ s2l " -->")))) = some g
    rw [hgh]
    exact ih huz.2

theorem noOpenSub_taskline_pre (cb : Char) (nm X : Str) (hcb : cb = ' ' ∨ cb = 'x')
    (hnm : noOpenSub nm = true) (hX : noOpenSub X = true)
    (hXh : X = [] ∨ ∃ c Xr, X = c :: Xr ∧ c ≠ '!' ∧ c ≠ '-') :
    noOpenSub (s2l "- [" ++ (cb :: (s2l "] " ++ (nm ++ (X ++ [' ']))))) = true := by
  have hXs : noOpenSub (X ++ [' ']) = true :=
    noOpenSub_append_headSafe X [' '] hX (by decide)
      (Or.inr ⟨' ', [], rfl, by decide, by decide⟩)
  have hXsh : X ++ [' '] = [] ∨ ∃ c Xr, X ++ [' '] = c :: Xr ∧ c ≠ '!' ∧ c ≠ '-' := by
    rcases hXh with rfl | ⟨c, Xr, rfl, hc1, hc2⟩
    · exact Or.inr ⟨' ', [], rfl, by decide, by decide⟩
    · exact Or.inr ⟨c, Xr ++ [' '], rfl, hc1, hc2⟩
  have hcore : noOpenSub (nm ++ (X ++ [' '])) = true :=
    noOpenSub_append_headSafe nm (X ++ [' ']) hnm hXs hXsh
  have hfront : '<' ∉ (s2l "- [" ++ (cb :: s2l "] ")) := by
    intro hmem
    simp only [s2l, List.mem_append, List.mem_cons] at hmem
    rcases hcb with rfl | rfl <;> revert hmem <;> decide
  have := noOpenSub_append_of_no_lt (s2l "- [" ++ (cb :: s2l "] "))
    (nm ++ (X ++ [' '])) hfront hcore
  have he : (s2l "- [" ++ (cb :: s2l "] ")) ++ (nm ++ (X ++ [' '])) =
      s2l "- [" ++ (cb :: (s2l "] " ++ (nm ++ (X ++ [' '])))) := by
    simp [List.append_assoc]
  rw [he] at this
  exact this

theorem lineGid_formatted (t : AsanaTask) (sd sa : Bool) (ht : GoodTask t) :
    lineGid (formatTaskLine t sd sa) = some t.gid := by
  obtain ⟨hnm, hgid, hdue, hasg⟩ := ht
  have hd : ∀ x, shownDue t sd = some x → dateShape x = true := by
    intro x hx
    unfold shownDue at hx
    cases sd
    · simp at hx
    · cases hdo : t.due_on with
      | none => rw [hdo] at hx; simp at hx
      | some dd =>
        rw [hdo] at hx
        by_cases hdd : dd = [] <;> simp [hdd] at hx
        exact hx ▸ hdue dd hdo
  have ha : ∀ x, shownAsg t sa = some x → GoodName x := by
    intro x hx
    unfold shownAsg at hx
    cases sa
    · simp at hx
    · cases hao : t.assignee with
      | none => rw [hao] at hx; simp at hx
      | some aa =>
        rw [hao] at hx
        by_cases haa : aa.name = [] <;> simp [haa] at hx
        exact hx ▸ hasg aa hao (hx ▸ haa)
  rw [formatTaskLine_shape]
  set cb := (if t.completed then 'x' else ' ') with hcb
  have hcb2 : cb = ' ' ∨ cb = 'x' := by
    rw [hcb]
    cases t.completed
    · exact Or.inl rfl
    · exact Or.inr rfl
  set X := ((match shownDue t sd with | some x => s2l " 📅 " ++ x | none => []) ++
    (match shownAsg t sa with | some x => s2l " 👤 " ++ x | none => [])) with hX
  have hXno : noOpenSub X = true := by
    rw [hX]
    have h2 : noOpenSub (match shownAsg t sa with
        | some x => s2l " 👤 " ++ x | none => []) = true := by
      cases hsa : shownAsg t sa with
      | none => rfl
      | some aa =>
        have haa := ha aa hsa
        exact noOpenSub_append_of_no_lt (s2l " 👤 ") aa (by decide) haa.2.2.2.2.1
    cases hsd : shownDue t sd with
    | none => simpa using h2
    | some dd =>
      have hdd := hd dd hsd
      rw [List.append_assoc]
      exact noOpenSub_append_of_no_lt (s2l " 📅 ") _ (by decide)
        (noOpenSub_append_of_no_lt dd _ (dateShape_no_lt dd hdd) h2)
  have hXh : X = [] ∨ ∃ c Xr, X = c :: Xr ∧ c ≠ '!' ∧ c ≠ '-' := by
    rw [hX]
    cases hsd : shownDue t sd with
    | some dd =>
      exact Or.inr ⟨' ', _, rfl, by decide, by decide⟩
    | none =>
      cases hsa : shownAsg t sa with
      | none => exact Or.inl rfl
      | some aa => exact Or.inr ⟨' ', _, rfl, by decide, by decide⟩
  have hpre := noOpenSub_taskline_pre cb t.name X hcb2 hnm.2.2.2.2.1 hXno hXh
  have hmk := lineGid_marker (s2l "- [" ++ (cb :: (s2l "] " ++ (t.name ++ (X ++ [' '])))))
    t.gid hpre hgid
  have he : s2l "- [" ++ (cb :: (s2l "] " ++ (t.name ++
      tailSeg (shownDue t sd) (shownAsg t sa) t.gid))) =
      (s2l "- [" ++ (cb :: (s2l "] " ++ (t.name ++ (X ++ [' ']))))) ++
        (s2l "<!-- asana:" ++ (t.gid ++ s2l " -->")) := by
    rw [hX]
    unfold tailSeg
    simp [List.append_assoc, s2l]
  rw [he]
  exact hmk

theorem formatted_not_special (t : AsanaTask) (sd sa : Bool) (ht : GoodTask t) :
    formatTaskLine t sd sa ≠ fmDelim ∧
      startsWithLit lastSyncKey (formatTaskLine t sd sa) = false ∧
      startsWithLit (s2l "## ") (formatTaskLine t sd sa) = false := by
  apply parse_not_special
  intro hc
  have hpf := parseTaskLine_format t sd sa 0 ht
  unfold parseTaskLine at hpf
  rw [hc] at hpf
  cases hpf

/-! ### Claim C3: conflict arbitration on one conflicting task -/

theorem noteTasksAux_nil (b1 b2 b3 : Bool) (i : Nat) :
    noteTasksAux b1 b2 b3 i [] = [] := rfl

theorem startsWithLit_cons_ne (a c : Char) (la r : Str) (h : a ≠ c) :
    startsWithLit (a :: la) (c :: r) = false := by
  unfold startsWithLit
  rw [litFit_cons_ne a c la r h]
  rfl

theorem trimChars_cons_ne_nil (c : Char) (r : Str) (hc : isWsChar c = false) :
    trimChars (c :: r) ≠ [] := by
  unfold trimChars
  intro hcon
  rw [List.reverse_eq_nil_iff] at hcon
  rw [dropWs_cons_nws c r hc] at hcon
  exact dropWs_ne_nil _ ⟨c, by simp, hc⟩ hcon

theorem formatted_head_dash (t : AsanaTask) (sd sa : Bool) :
    formatTaskLine t sd sa =
      '-' :: (' ' :: ('[' :: ((if t.completed then 'x' else ' ') ::
        (']' :: (' ' :: (t.name ++ tailSeg (shownDue t sd) (shownAsg t sa) t.gid)))))) := by
  rw [formatTaskLine_shape]
  rfl

theorem syncProject_some_updated (L : List Str) (R : List AsanaTask) (pn pg : Str)
    (imt : Bool) (st : SyncSettings) (ts : Str) :
    (syncProject (some L) R pn pg imt st ts).updated =
      (rewriteLines
        (buildAsanaMap (applyUpdates R
          (pushUpdates (buildTaskMap (noteTasks L)) (buildAsanaMap R))))
        st ts L).2.2 := rfl

theorem syncProject_some_cchanges (L : List Str) (R : List AsanaTask) (pn pg : Str)
    (imt : Bool) (st : SyncSettings) (ts : Str) :
    (syncProject (some L) R pn pg imt st ts).completionChanges =
      (pushUpdates (buildTaskMap (noteTasks L)) (buildAsanaMap R)).length := rfl

theorem syncProject_some_added (L : List Str) (R : List AsanaTask) (pn pg : Str)
    (imt : Bool) (st : SyncSettings) (ts : Str) :
    (syncProject (some L) R pn pg imt st ts).added =
      ((applyUpdates R
        (pushUpdates (buildTaskMap (noteTasks L)) (buildAsanaMap R))).filter
        (fun t => decide (t.gid ∉ (rewriteLines
          (buildAsanaMap (applyUpdates R
            (pushUpdates (buildTaskMap (noteTasks L)) (buildAsanaMap R))))
          st ts L).2.1 ∧ ¬(¬st.showCompletedTasks ∧ t.completed)))).length := rfl

/-- C3 (amended): for an identifier present in both sides with local
completion `true` and remote completion `false`, `syncProject` pushes
exactly one remote update setting it to `true` and counts one
`completionChange`; the post-pass document shows the task's line with
completion `true` PROVIDED completed tasks are shown --- under the default
hide-completed setting the line is removed from the document instead (see
the counterexample). -/
theorem c3_conflict_push (nm g : Str) (a : AsanaTask) (pn pg : Str) (imt : Bool)
    (st : SyncSettings) (ts : Str)
    (hnm : GoodName nm) (hg : GoodGid g)
    (hga : a.gid = g) (hac : a.completed = false)
    (hshow : st.showCompletedTasks = true) :
    (syncProject (some [fmDelim, fmDelim,
        formatTaskLine {gid := g, name := nm, completed := true, due_on := none,
                        assignee := none, memberships := []} st.showDueDates st.showAssignees])
      [a] pn pg imt st ts).updates = [(g, true)] ∧
    (syncProject (some [fmDelim, fmDelim,
        formatTaskLine {gid := g, name := nm, completed := true, due_on := none,
                        assignee := none, memberships := []} st.showDueDates st.showAssignees])
      [a] pn pg imt st ts).completionChanges = 1 ∧
    (syncProject (some [fmDelim, fmDelim,
        formatTaskLine {gid := g, name := nm, completed := true, due_on := none,
                        assignee := none, memberships := []} st.showDueDates st.showAssignees])
      [a] pn pg imt st ts).updated = 1 ∧
    (syncProject (some [fmDelim, fmDelim,
        formatTaskLine {gid := g, name := nm, completed := true, due_on := none,
                        assignee := none, memberships := []} st.showDueDates st.showAssignees])
      [a] pn pg imt st ts).content =
      [fmDelim, tsLine ts, fmDelim,
       formatTaskLine {a with completed := true} st.showDueDates st.showAssignees] := by
  have ht0 : GoodTask {gid := g, name := nm, completed := true, due_on := none,
                       assignee := none, memberships := []} :=
    ⟨hnm, hg, fun d hd => Option.noConfusion hd, fun x hx => Option.noConfusion hx⟩
  have hparse := parseTaskLine_format
    {gid := g, name := nm, completed := true, due_on := none,
     assignee := none, memberships := []} st.showDueDates st.showAssignees 2 ht0
  have hsp := formatted_not_special
    {gid := g, name := nm, completed := true, due_on := none,
     assignee := none, memberships := []} st.showDueDates st.showAssignees ht0
  have hdash := formatted_head_dash
    {gid := g, name := nm, completed := true, due_on := none,
     assignee := none, memberships := []} st.showDueDates st.showAssignees
  have hhash : startsWithLit (s2l "# ")
      (formatTaskLine {gid := g, name := nm, completed := true, due_on := none,
                       assignee := none, memberships := []} st.showDueDates st.showAssignees) = false := by
    rw [hdash]
    exact startsWithLit_cons_ne '#' '-' _ _ (by decide)
  have hblank : trimChars
      (formatTaskLine {gid := g, name := nm, completed := true, due_on := none,
                       assignee := none, memberships := []} st.showDueDates st.showAssignees) ≠ [] := by
    rw [hdash]
    exact trimChars_cons_ne_nil '-' _ (by decide)
  have hnt : noteTasks [fmDelim, fmDelim,
      formatTaskLine {gid := g, name := nm, completed := true, due_on := none,
                      assignee := none, memberships := []} st.showDueDates st.showAssignees] =
      [{line := formatTaskLine {gid := g, name := nm, completed := true,
                                due_on := none, assignee := none, memberships := []}
          st.showDueDates st.showAssignees,
        lineNumber := 2, completed := true, name := nm, asanaGid := some g,
        dueDate := shownDue {gid := g, name := nm, completed := true, due_on := none,
                             assignee := none, memberships := []} st.showDueDates,
        assignee := shownAsg {gid := g, name := nm, completed := true, due_on := none,
                              assignee := none, memberships := []} st.showAssignees}] := by
    have h0 := noteTasks_split [] [formatTaskLine
      {gid := g, name := nm, completed := true, due_on := none,
       assignee := none, memberships := []} st.showDueDates st.showAssignees]
      (by simp)
    simp only [List.nil_append, List.length_nil] at h0
    rw [h0, noteTasksAux_cons_eq]
    simp [hhash, hblank, hsp.2.2, hparse, noteTasksAux_nil]
  have hba : buildAsanaMap [a] = [(g, a)] := by
    show alSet [] a.gid a = [(g, a)]
    rw [hga]
    rfl
  have hups : pushUpdates
      (buildTaskMap (noteTasks [fmDelim, fmDelim,
        formatTaskLine {gid := g, name := nm, completed := true, due_on := none,
                        assignee := none, memberships := []} st.showDueDates st.showAssignees]))
      (buildAsanaMap [a]) = [(g, true)] := by
    rw [hnt, hba]
    have hget : alGet [(g, a)] g = some a := by
      show (if g = g then some a else alGet [] g) = some a
      rw [if_pos rfl]
    show (match alGet [(g, a)] g with
      | some x => if true ≠ x.completed then (g, true) :: pushUpdates [] [(g, a)]
                  else pushUpdates [] [(g, a)]
      | none => pushUpdates [] [(g, a)]) = [(g, true)]
    rw [hget]
    show (if true ≠ a.completed then (g, true) :: pushUpdates [] [(g, a)]
          else pushUpdates [] [(g, a)]) = [(g, true)]
    rw [hac, if_pos (by decide)]
    rfl
  have href : applyUpdates [a] [(g, true)] = [{a with completed := true}] := by
    show [if a.gid = g then ({a with completed := true} : AsanaTask) else a] =
      [({a with completed := true} : AsanaTask)]
    rw [hga, if_pos rfl]
  have hba2 : buildAsanaMap [{a with completed := true}] =
      [(g, {a with completed := true})] := by
    show alSet [] ({a with completed := true} : AsanaTask).gid
      ({a with completed := true} : AsanaTask) =
      [(g, ({a with completed := true} : AsanaTask))]
    show alSet [] a.gid ({a with completed := true} : AsanaTask) =
      [(g, ({a with completed := true} : AsanaTask))]
    rw [hga]
    rfl
  have hgidl : lineGid (formatTaskLine
      {gid := g, name := nm, completed := true, due_on := none,
       assignee := none, memberships := []} st.showDueDates st.showAssignees) =
      some g :=
    lineGid_formatted _ st.showDueDates st.showAssignees ht0
  have hgeta : alGet [(g, {a with completed := true})] g =
      some {a with completed := true} := by
    show (if g = g then some ({a with completed := true} : AsanaTask) else alGet [] g) =
      some ({a with completed := true} : AsanaTask)
    rw [if_pos rfl]
  have hrw : rewriteLines [(g, {a with completed := true})] st ts
      [fmDelim, fmDelim,
       formatTaskLine {gid := g, name := nm, completed := true, due_on := none,
                       assignee := none, memberships := []} st.showDueDates st.showAssignees] =
      ([fmDelim, tsLine ts, fmDelim,
        formatTaskLine {a with completed := true} st.showDueDates st.showAssignees],
       [g], 1) := by
    rw [rewriteLines_eq]
    have hbody : bodyLoop [(g, {a with completed := true})] st
        [formatTaskLine {gid := g, name := nm, completed := true, due_on := none,
                         assignee := none, memberships := []} st.showDueDates st.showAssignees] =
        ([formatTaskLine {a with completed := true} st.showDueDates st.showAssignees],
         [g], 1) := by
      rw [bodyLoop_spec]
      have hout : bodyOut [(g, {a with completed := true})] st
          (formatTaskLine {gid := g, name := nm, completed := true, due_on := none,
                           assignee := none, memberships := []} st.showDueDates st.showAssignees) =
          [formatTaskLine {a with completed := true} st.showDueDates st.showAssignees] := by
        unfold bodyOut
        simp only [hsp.2.2, Bool.false_eq_true, if_false, hgidl, hgeta, hshow]
        simp
      have hseen : lineSeen (formatTaskLine
          {gid := g, name := nm, completed := true, due_on := none,
           assignee := none, memberships := []} st.showDueDates st.showAssignees) =
          [g] := by
        unfold lineSeen
        simp only [hsp.2.2, Bool.false_eq_true, if_false, hgidl]
      have hcnt : lineCounted [(g, {a with completed := true})] st
          (formatTaskLine {gid := g, name := nm, completed := true, due_on := none,
                           assignee := none, memberships := []} st.showDueDates st.showAssignees) =
          true := by
        unfold lineCounted
        simp only [hsp.2.2, Bool.false_eq_true, if_false, hgidl, hgeta, hshow]
        simp
      simp only [List.map_cons, List.map_nil, hout, hseen, List.flatten,
        List.countP_cons, List.countP_nil, hcnt]
      simp
    show (fmOutOf ts _ ++ (bodyLoop _ st (bodyOf _)).1,
      (bodyLoop _ st (bodyOf _)).2.1, (bodyLoop _ st (bodyOf _)).2.2) = _
    have hbof : bodyOf [fmDelim, fmDelim,
        formatTaskLine {gid := g, name := nm, completed := true, due_on := none,
                        assignee := none, memberships := []} st.showDueDates st.showAssignees] =
        [formatTaskLine {gid := g, name := nm, completed := true, due_on := none,
                         assignee := none, memberships := []} st.showDueDates st.showAssignees] := rfl
    have hfm : fmOutOf ts [fmDelim, fmDelim,
        formatTaskLine {gid := g, name := nm, completed := true, due_on := none,
                        assignee := none, memberships := []} st.showDueDates st.showAssignees] =
        [fmDelim, tsLine ts, fmDelim] := rfl
    rw [hbof, hfm, hbody]
    rfl
  refine ⟨?_, ?_, ?_, ?_⟩
  · rw [syncProject_some_updates, hups]
  · rw [syncProject_some_cchanges, hups]
    rfl
  · rw [syncProject_some_updated, hups, href, hba2, hrw]
  · rw [syncProject_some_content, hups, href, hba2, hrw]
    have hfil : ([{a with completed := true}] : List AsanaTask).filter
        (fun t => decide (t.gid ∉ ([g] : List Str) ∧
          ¬(¬st.showCompletedTasks ∧ t.completed))) = [] := by
      rw [List.filter_cons]
      have hp : (decide (({a with completed := true} : AsanaTask).gid ∉ ([g] : List Str) ∧
          ¬(¬st.showCompletedTasks ∧ ({a with completed := true} : AsanaTask).completed))) =
          false := by
        have hag : ({a with completed := true} : AsanaTask).gid = g := hga
        simp [hag]
        intro hc
        exact absurd hga hc
      rw [hp]
      simp
    rw [hfil]
    rfl

/-- C3 counterexample: under the DEFAULT hide-completed setting the same
conflict (local `true`, remote `false`) still pushes exactly one update and
counts one completionChange, but the post-pass document has NO line for the
identifier at all --- the line is removed rather than shown completed. -/
theorem c3_counterexample :
    (syncProject (some [fmDelim, fmDelim, s2l "- [x] T <!-- asana:5 -->"])
      [{gid := s2l "5", name := s2l "T", completed := false, due_on := none,
        assignee := none, memberships := []}]
      (s2l "P") (s2l "p1") false
      {showDueDates := true, showAssignees := true, showCompletedTasks := false}
      (s2l "2024-06-01T00:00:00.000Z")).updates = [(s2l "5", true)] ∧
    (syncProject (some [fmDelim, fmDelim, s2l "- [x] T <!-- asana:5 -->"])
      [{gid := s2l "5", name := s2l "T", completed := false, due_on := none,
        assignee := none, memberships := []}]
      (s2l "P") (s2l "p1") false
      {showDueDates := true, showAssignees := true, showCompletedTasks := false}
      (s2l "2024-06-01T00:00:00.000Z")).completionChanges = 1 ∧
    (syncProject (some [fmDelim, fmDelim, s2l "- [x] T <!-- asana:5 -->"])
      [{gid := s2l "5", name := s2l "T", completed := false, due_on := none,
        assignee := none, memberships := []}]
      (s2l "P") (s2l "p1") false
      {showDueDates := true, showAssignees := true, showCompletedTasks := false}
      (s2l "2024-06-01T00:00:00.000Z")).content =
      [fmDelim, tsLine (s2l "2024-06-01T00:00:00.000Z"), fmDelim] ∧
    ([fmDelim, tsLine (s2l "2024-06-01T00:00:00.000Z"), fmDelim].all
      (fun l => (lineGid l).isNone)) = true :=
  ⟨rfl, rfl, rfl, rfl⟩

/-- Witness for C3 at a concrete conflicting task with completed tasks
shown. -/
theorem c3_witness :
    GoodName (s2l "T") ∧ GoodGid (s2l "5") ∧
    ({gid := s2l "5", name := s2l "U", completed := false, due_on := none,
      assignee := none, memberships := []} : AsanaTask).gid = s2l "5" ∧
    ({gid := s2l "5", name := s2l "U", completed := false, due_on := none,
      assignee := none, memberships := []} : AsanaTask).completed = false ∧
    ({showDueDates := true, showAssignees := true, showCompletedTasks := true} :
      SyncSettings).showCompletedTasks = true ∧
    ((syncProject (some [fmDelim, fmDelim,
        formatTaskLine {gid := s2l "5", name := s2l "T", completed := true,
                        due_on := none, assignee := none, memberships := []} true true])
      [{gid := s2l "5", name := s2l "U", completed := false, due_on := none,
        assignee := none, memberships := []}]
      (s2l "P") (s2l "p1") false
      {showDueDates := true, showAssignees := true, showCompletedTasks := true}
      (s2l "2024-06-01T00:00:00.000Z")).updates = [(s2l "5", true)] ∧
     (syncProject (some [fmDelim, fmDelim,
        formatTaskLine {gid := s2l "5", name := s2l "T", completed := true,
                        due_on := none, assignee := none, memberships := []} true true])
      [{gid := s2l "5", name := s2l "U", completed := false, due_on := none,
        assignee := none, memberships := []}]
      (s2l "P") (s2l "p1") false
      {showDueDates := true, showAssignees := true, showCompletedTasks := true}
      (s2l "2024-06-01T00:00:00.000Z")).completionChanges = 1 ∧
     (syncProject (some [fmDelim, fmDelim,
        formatTaskLine {gid := s2l "5", name := s2l "T", completed := true,
                        due_on := none, assignee := none, memberships := []} true true])
      [{gid := s2l "5", name := s2l "U", completed := false, due_on := none,
        assignee := none, memberships := []}]
      (s2l "P") (s2l "p1") false
      {showDueDates := true, showAssignees := true, showCompletedTasks := true}
      (s2l "2024-06-01T00:00:00.000Z")).updated = 1 ∧
     (syncProject (some [fmDelim, fmDelim,
        formatTaskLine {gid := s2l "5", name := s2l "T", completed := true,
                        due_on := none, assignee := none, memberships := []} true true])
      [{gid := s2l "5", name := s2l "U", completed := false, due_on := none,
        assignee := none, memberships := []}]
      (s2l "P") (s2l "p1") false
      {showDueDates := true, showAssignees := true, showCompletedTasks := true}
      (s2l "2024-06-01T00:00:00.000Z")).content =
      [fmDelim, tsLine (s2l "2024-06-01T00:00:00.000Z"), fmDelim,
       formatTaskLine {({gid := s2l "5", name := s2l "U", completed := false,
                          due_on := none, assignee := none, memberships := []} :
                         AsanaTask) with completed := true} true true]) :=
  ⟨by decide, by decide, rfl, rfl, rfl, c3_conflict_push (s2l "T") (s2l "5")
    {gid := s2l "5", name := s2l "U", completed := false, due_on := none,
     assignee := none, memberships := []}
    (s2l "P") (s2l "p1") false
    {showDueDates := true, showAssignees := true, showCompletedTasks := true}
    (s2l "2024-06-01T00:00:00.000Z") (by decide) (by decide) rfl rfl rfl⟩

/-! ### Membership in the Phase-6 output -/

theorem fmSkip_append (inner X : List Str) (h : fmDelim ∉ inner) :
    fmSkip (inner ++ fmDelim :: X) = X := by
  induction inner with
  | nil =>
    show (if fmDelim = fmDelim then X else fmSkip X) = X
    rw [if_pos rfl]
  | cons l innerr ih =>
    simp only [List.mem_cons, not_or] at h
    show (if l = fmDelim then innerr ++ fmDelim :: X
      else fmSkip (innerr ++ fmDelim :: X)) = X
    rw [if_neg (fun hc => h.1 hc.symm), ih h.2]

theorem bodyOf_split (inner X : List Str) (h : fmDelim ∉ inner) :
    bodyOf (fmDelim :: (inner ++ fmDelim :: X)) = X := by
  show (if fmDelim = fmDelim then fmSkip (inner ++ fmDelim :: X)
    else fmDelim :: (inner ++ fmDelim :: X)) = X
  rw [if_pos rfl, fmSkip_append inner X h]

theorem groupAdd_fst (gs : List (Str × List AsanaTask)) (k : Str) (t : AsanaTask)
    (gp : Str × List AsanaTask) (h : gp ∈ groupAdd gs k t) :
    gp.1 = k ∨ ∃ l, (gp.1, l) ∈ gs := by
  induction gs with
  | nil =>
    rw [List.mem_singleton.mp h]
    exact Or.inl rfl
  | cons e rest ih =>
    rcases e with ⟨k2, l2⟩
    unfold groupAdd at h
    by_cases hk : k2 = k
    · rw [if_pos hk] at h
      rcases List.mem_cons.mp h with rfl | h2
      · exact Or.inl hk
      · exact Or.inr ⟨gp.2, List.mem_cons_of_mem _ h2⟩
    · rw [if_neg hk] at h
      rcases List.mem_cons.mp h with rfl | h2
      · exact Or.inr ⟨l2, List.mem_cons_self _ _⟩
      · rcases ih h2 with h3 | ⟨l3, h3⟩
        · exact Or.inl h3
        · exact Or.inr ⟨l3, List.mem_cons_of_mem _ h3⟩

theorem groupAdd_snd (gs : List (Str × List AsanaTask)) (k : Str) (t : AsanaTask)
    (gp : Str × List AsanaTask) (x : AsanaTask)
    (h : gp ∈ groupAdd gs k t) (hx : x ∈ gp.2) :
    x = t ∨ ∃ gp0 ∈ gs, x ∈ gp0.2 := by
  induction gs with
  | nil =>
    rw [List.mem_singleton.mp h] at hx
    rcases List.mem_singleton.mp hx with rfl
    exact Or.inl rfl
  | cons e rest ih =>
    rcases e with ⟨k2, l2⟩
    unfold groupAdd at h
    by_cases hk : k2 = k
    · rw [if_pos hk] at h
      rcases List.mem_cons.mp h with rfl | h2
      · simp only [List.mem_append, List.mem_singleton] at hx
        rcases hx with hx2 | rfl
        · exact Or.inr ⟨(k2, l2), List.mem_cons_self _ _, hx2⟩
        · exact Or.inl rfl
      · exact Or.inr ⟨gp, List.mem_cons_of_mem _ h2, hx⟩
    · rw [if_neg hk] at h
      rcases List.mem_cons.mp h with rfl | h2
      · exact Or.inr ⟨(k2, l2), List.mem_cons_self _ _, hx⟩
      · rcases ih h2 with h3 | ⟨gp0, h3, h4⟩
        · exact Or.inl h3
        · exact Or.inr ⟨gp0, List.mem_cons_of_mem _ h3, h4⟩

theorem foldl_groups_fst (pgid : Str) (ts : List AsanaTask)
    (gs : List (Str × List AsanaTask)) (gp : Str × List AsanaTask)
    (h : gp ∈ ts.foldl (fun gs t => groupAdd gs (sectionNameOf t pgid) t) gs) :
    (∃ l, (gp.1, l) ∈ gs) ∨ ∃ t ∈ ts, gp.1 = sectionNameOf t pgid := by
  induction ts generalizing gs with
  | nil => exact Or.inl ⟨gp.2, h⟩
  | cons t tr ih =>
    simp only [List.foldl_cons] at h
    rcases ih _ h with ⟨l, hl⟩ | ⟨t2, ht2, he⟩
    · rcases groupAdd_fst gs (sectionNameOf t pgid) t (gp.1, l) hl with he | ⟨l2, hl2⟩
      · exact Or.inr ⟨t, List.mem_cons_self _ _, he⟩
      · exact Or.inl ⟨l2, hl2⟩
    · exact Or.inr ⟨t2, List.mem_cons_of_mem _ ht2, he⟩

theorem foldl_groups_snd (pgid : Str) (ts : List AsanaTask)
    (gs : List (Str × List AsanaTask)) (gp : Str × List AsanaTask) (x : AsanaTask)
    (h : gp ∈ ts.foldl (fun gs t => groupAdd gs (sectionNameOf t pgid) t) gs)
    (hx : x ∈ gp.2) :
    (∃ gp0 ∈ gs, x ∈ gp0.2) ∨ x ∈ ts := by
  induction ts generalizing gs with
  | nil => exact Or.inl ⟨gp, h, hx⟩
  | cons t tr ih =>
    simp only [List.foldl_cons] at h
    rcases ih _ h with ⟨gp0, h0, hx0⟩ | hmem
    · rcases groupAdd_snd gs (sectionNameOf t pgid) t gp0 x h0 hx0 with rfl | ⟨gp1, h1, hx1⟩
      · exact Or.inr (List.mem_cons_self _ _)
      · exact Or.inl ⟨gp1, h1, hx1⟩
    · exact Or.inr (List.mem_cons_of_mem _ hmem)

theorem buildGroups_fst (pgid : Str) (ts : List AsanaTask)
    (gp : Str × List AsanaTask) (h : gp ∈ buildGroups pgid ts) :
    ∃ t ∈ ts, gp.1 = sectionNameOf t pgid := by
  rcases foldl_groups_fst pgid ts [] gp h with ⟨l, hl⟩ | h2
  · cases hl
  · exact h2

theorem buildGroups_snd (pgid : Str) (ts : List AsanaTask)
    (gp : Str × List AsanaTask) (x : AsanaTask)
    (h : gp ∈ buildGroups pgid ts) (hx : x ∈ gp.2) : x ∈ ts := by
  rcases foldl_groups_snd pgid ts [] gp x h hx with ⟨gp0, h0, _⟩ | h2
  · cases h0
  · exact h2

theorem insertGroup_mem (st : SyncSettings) (B : List Str) (sec : Str)
    (tasks : List AsanaTask) (l : Str) (h : l ∈ insertGroup st B sec tasks) :
    l ∈ B ∨ l = [] ∨ l = s2l "## " ++ sec ∨
      ∃ t ∈ tasks, l = formatTaskLine t st.showDueDates st.showAssignees := by
  simp only [insertGroup] at h
  cases hf : List.findIdx? (fun l => trimChars l == s2l "## " ++ sec) B with
  | some i =>
    simp only [hf] at h
    by_cases hsec : sec ≠ unsectioned
    · rw [if_pos hsec] at h
      simp only [List.mem_append] at h
      rcases h with (h | h) | h
      · exact Or.inl (List.take_subset _ _ h)
      · obtain ⟨t, ht, he⟩ := List.mem_map.mp h
        exact Or.inr (Or.inr (Or.inr ⟨t, ht, he.symm⟩))
      · exact Or.inl (List.drop_subset _ _ h)
    · rw [if_neg hsec] at h
      simp only [List.mem_append] at h
      rcases h with h | h
      · exact Or.inl h
      · obtain ⟨t, ht, he⟩ := List.mem_map.mp h
        exact Or.inr (Or.inr (Or.inr ⟨t, ht, he.symm⟩))
  | none =>
    simp only [hf] at h
    by_cases hsec : sec ≠ unsectioned
    · rw [if_pos hsec] at h
      simp only [List.mem_append, List.mem_singleton] at h
      rcases h with (((h | rfl) | rfl) | rfl) | h
      · exact Or.inl h
      · exact Or.inr (Or.inl rfl)
      · exact Or.inr (Or.inr (Or.inl rfl))
      · exact Or.inr (Or.inl rfl)
      · obtain ⟨t, ht, he⟩ := List.mem_map.mp h
        exact Or.inr (Or.inr (Or.inr ⟨t, ht, he.symm⟩))
    · rw [if_neg hsec] at h
      simp only [List.mem_append] at h
      rcases h with h | h
      · exact Or.inl h
      · obtain ⟨t, ht, he⟩ := List.mem_map.mp h
        exact Or.inr (Or.inr (Or.inr ⟨t, ht, he.symm⟩))

theorem appendNew_mem (st : SyncSettings) (B : List Str)
    (groups : List (Str × List AsanaTask)) (l : Str)
    (h : l ∈ appendNew st B groups) :
    l ∈ B ∨ l = [] ∨ ∃ gp ∈ groups, l = s2l "## " ++ gp.1 ∨
      ∃ t ∈ gp.2, l = formatTaskLine t st.showDueDates st.showAssignees := by
  unfold appendNew at h
  induction groups generalizing B with
  | nil => exact Or.inl h
  | cons gp rest ih =>
    simp only [List.foldl_cons] at h
    rcases ih _ h with h2 | h2 | ⟨gp2, hgp2, h2⟩
    · rcases insertGroup_mem st B gp.1 gp.2 l h2 with h3 | h3 | h3 | h3
      · exact Or.inl h3
      · exact Or.inr (Or.inl h3)
      · exact Or.inr (Or.inr ⟨gp, List.mem_cons_self _ _, Or.inl h3⟩)
      · exact Or.inr (Or.inr ⟨gp, List.mem_cons_self _ _, Or.inr h3⟩)
    · exact Or.inr (Or.inl h2)
    · exact Or.inr (Or.inr ⟨gp2, List.mem_cons_of_mem _ hgp2, h2⟩)

/-! ### Claim C7 -/

theorem fmOutOf_delim (ts : Str) (X : List Str) :
    fmOutOf ts (fmDelim :: X) = fmDelim :: (fmLoop ts false X).1 := by
  show (if fmDelim = fmDelim then fmDelim :: (fmLoop ts false X).1 else []) =
    fmDelim :: (fmLoop ts false X).1
  rw [if_pos rfl]

/-- C7: with the hide-completed filter active and a document in sync with
the remote snapshot (every parsed task's completion agrees with its remote
task), a pass pushes no remote update, and the resulting document contains
no line referring to a completed remote task --- every completed task's
line is removed.  The frontmatter, body headings, timestamp line and
section names are assumed to carry no `asana:` comment. -/
theorem c7_hide_filter (fmBody body : List Str) (R : List AsanaTask)
    (pn pg : Str) (imt : Bool) (st : SyncSettings) (ts : Str)
    (hshow : st.showCompletedTasks = false)
    (hfm : fmDelim ∉ fmBody)
    (hsync : ∀ e ∈ buildTaskMap (noteTasks (fmDelim :: (fmBody ++ fmDelim :: body))),
      ∀ t ∈ R, e.1 = t.gid → e.2.completed = t.completed)
    (hfmg : ∀ l ∈ fmBody, lineGid l = none)
    (hts : lineGid (tsLine ts) = none)
    (hhead : ∀ l ∈ body, startsWithLit (s2l "## ") l = true → lineGid l = none)
    (hsec : ∀ t ∈ R, lineGid (s2l "## " ++ sectionNameOf t pg) = none)
    (hgood : ∀ t ∈ R, GoodTask t)
    (hnd : (R.map AsanaTask.gid).Nodup) :
    (syncProject (some (fmDelim :: (fmBody ++ fmDelim :: body)))
      R pn pg imt st ts).updates = [] ∧
    (∀ l ∈ (syncProject (some (fmDelim :: (fmBody ++ fmDelim :: body)))
        R pn pg imt st ts).content,
      ∀ gg t, lineGid l = some gg → alGet (buildAsanaMap R) gg = some t →
        t.completed = false) := by
  have hups : pushUpdates
      (buildTaskMap (noteTasks (fmDelim :: (fmBody ++ fmDelim :: body))))
      (buildAsanaMap R) = [] := by
    apply pushUpdates_nil_of_agree
    intro g p hmem a hget
    obtain ⟨haR, hagid⟩ := buildAsanaMap_entry R g a hget
    exact hsync (g, p) hmem a haR hagid.symm
  refine ⟨?_, ?_⟩
  · rw [syncProject_some_updates]
    exact hups
  · intro l hl gg t hgid hget
    rw [syncProject_some_content, hups, applyUpdates_nil] at hl
    rcases appendNew_mem st _ _ l hl with hB | rfl | ⟨gp, hgp, hcase⟩
    · -- a line produced by the rewrite walk
      simp only [rewriteLines_eq, bodyOf_split fmBody body hfm] at hB
      rcases List.mem_append.mp hB with hf1 | hf2
      · -- frontmatter output: no line carries a gid
        rw [fmOutOf_delim] at hf1
        simp only [fmLoop_split ts false fmBody body hfm] at hf1
        have hnone : lineGid l = none := by
          rcases List.mem_cons.mp hf1 with rfl | hf3
          · decide
          · rcases List.mem_append.mp hf3 with hf4 | hf5
            · rcases List.mem_append.mp hf4 with hf6 | hf7
              · obtain ⟨l2, hl2, he⟩ := List.mem_map.mp hf6
                unfold fmRep at he
                by_cases hsw : startsWithLit lastSyncKey l2 = true
                · rw [if_pos hsw] at he
                  rw [← he]
                  exact hts
                · rw [if_neg hsw] at he
                  rw [← he]
                  exact hfmg l2 hl2
              · split at hf7
                · cases hf7
                · rcases List.mem_singleton.mp hf7 with rfl
                  exact hts
            · rcases List.mem_singleton.mp hf5 with rfl
              decide
        rw [hnone] at hgid
        cases hgid
      · -- body output
        simp only [bodyLoop_spec] at hf2
        obtain ⟨bl, hbl, hlbl⟩ := List.mem_flatten.mp hf2
        obtain ⟨l2, hl2, rfl⟩ := List.mem_map.mp hbl
        unfold bodyOut at hlbl
        by_cases hhd : startsWithLit (s2l "## ") l2 = true
        · rw [if_pos hhd] at hlbl
          rcases List.mem_singleton.mp hlbl with rfl
          rw [hhead _ hl2 hhd] at hgid
          cases hgid
        · rw [if_neg hhd] at hlbl
          cases hlg : lineGid l2 with
          | none =>
            simp only [hlg] at hlbl
            rcases List.mem_singleton.mp hlbl with rfl
            rw [hlg] at hgid
            cases hgid
          | some g2 =>
            simp only [hlg] at hlbl
            cases halg : alGet (buildAsanaMap R) g2 with
            | none =>
              simp only [halg] at hlbl
              rcases List.mem_singleton.mp hlbl with rfl
              rw [hlg] at hgid
              rw [Option.some.inj hgid] at halg

              rw [halg] at hget
              cases hget
            | some a =>
              simp only [halg] at hlbl
              by_cases hcc : ¬st.showCompletedTasks ∧ a.completed
              · rw [if_pos hcc] at hlbl
                cases hlbl
              · rw [if_neg hcc] at hlbl
                rcases List.mem_singleton.mp hlbl with rfl
                obtain ⟨haR, hagid⟩ := buildAsanaMap_entry R g2 a halg
                have hgq := lineGid_formatted a st.showDueDates st.showAssignees
                  (hgood a haR)
                rw [hgq] at hgid
                rw [← Option.some.inj hgid, hagid] at hget
                rw [halg] at hget
                rw [← Option.some.inj hget]
                rw [hshow] at hcc
                simp at hcc
                exact hcc
    · -- a blank separator line
      rw [show lineGid [] = none from rfl] at hgid
      cases hgid
    · -- a Phase-6 header or appended formatted task line
      rcases hcase with he | ⟨t2, ht2, rfl⟩
      · obtain ⟨t2, ht2, hname⟩ := buildGroups_fst pg _ gp hgp
        have ht2R : t2 ∈ R := (List.mem_filter.mp ht2).1
        rw [he, hname] at hgid
        rw [hsec t2 ht2R] at hgid
        cases hgid
      · have ht2new := buildGroups_snd pg _ gp t2 hgp ht2
        have ht2R : t2 ∈ R := (List.mem_filter.mp ht2new).1
        have hcond := (List.mem_filter.mp ht2new).2
        rw [decide_eq_true_eq] at hcond
        have hgq := lineGid_formatted t2 st.showDueDates st.showAssignees
          (hgood t2 ht2R)
        rw [hgq] at hgid
        rw [← Option.some.inj hgid] at hget
        rw [buildAsanaMap_nodup_mem R t2 hnd ht2R] at hget
        rw [← Option.some.inj hget]
        have hc2 := hcond.2
        rw [hshow] at hc2
        simp at hc2
        exact hc2

/-- Witness for C7 at a concrete in-sync document with one completed
remote task. -/
theorem c7_witness :
    (({showDueDates := true, showAssignees := true, showCompletedTasks := false} :
       SyncSettings).showCompletedTasks = false) ∧
    (fmDelim ∉ ([] : List Str)) ∧
    (∀ e ∈ buildTaskMap (noteTasks (fmDelim :: (([] : List Str) ++ fmDelim ::
        [formatTaskLine {gid := s2l "5", name := s2l "T", completed := true,
                         due_on := none, assignee := none, memberships := []} true true]))),
      ∀ t ∈ [({gid := s2l "5", name := s2l "T", completed := true, due_on := none,
               assignee := none, memberships := []} : AsanaTask)],
        e.1 = t.gid → e.2.completed = t.completed) ∧
    ((syncProject (some (fmDelim :: (([] : List Str) ++ fmDelim ::
        [formatTaskLine {gid := s2l "5", name := s2l "T", completed := true,
                         due_on := none, assignee := none, memberships := []} true true])))
       [{gid := s2l "5", name := s2l "T", completed := true, due_on := none,
         assignee := none, memberships := []}]
       (s2l "P") (s2l "p1") false
       {showDueDates := true, showAssignees := true, showCompletedTasks := false}
       (s2l "2024-06-01T00:00:00.000Z")).updates = [] ∧
     (∀ l ∈ (syncProject (some (fmDelim :: (([] : List Str) ++ fmDelim ::
          [formatTaskLine {gid := s2l "5", name := s2l "T", completed := true,
                           due_on := none, assignee := none, memberships := []} true true])))
         [{gid := s2l "5", name := s2l "T", completed := true, due_on := none,
           assignee := none, memberships := []}]
         (s2l "P") (s2l "p1") false
         {showDueDates := true, showAssignees := true, showCompletedTasks := false}
         (s2l "2024-06-01T00:00:00.000Z")).content,
       ∀ gg t, lineGid l = some gg →
         alGet (buildAsanaMap [{gid := s2l "5", name := s2l "T", completed := true,
                                due_on := none, assignee := none, memberships := []}]) gg = some t →
         t.completed = false)) :=
  ⟨rfl, by decide, by decide,
   c7_hide_filter []
     [formatTaskLine {gid := s2l "5", name := s2l "T", completed := true,
                      due_on := none, assignee := none, memberships := []} true true]
     [{gid := s2l "5", name := s2l "T", completed := true, due_on := none,
       assignee := none, memberships := []}]
     (s2l "P") (s2l "p1") false
     {showDueDates := true, showAssignees := true, showCompletedTasks := false}
     (s2l "2024-06-01T00:00:00.000Z")
     rfl (by decide) (by decide) (by decide) (by decide) (by decide) (by decide)
     (by decide) (by decide)⟩

/-! ### Support for the second-pass stability analysis -/

theorem parse_blank (n : Nat) : parseTaskLine [] n = none := rfl

theorem startsWithLit_self_append (p x : Str) : startsWithLit p (p ++ x) = true := by
  unfold startsWithLit
  rw [litFit_self]
  rfl

theorem heading_parse_none (l : Str) (n : Nat)
    (h : startsWithLit (s2l "## ") l = true) : parseTaskLine l n = none := by
  unfold startsWithLit at h
  cases hfit : litFit (s2l "## ") l with
  | none => rw [hfit] at h; cases h
  | some r =>
    have hdec := litFit_some_decompose _ _ _ hfit
    have hm : matchTaskLine l = none := by
      apply matchTaskLine_head_char l '#' (s2l "# " ++ r)
      · rw [hdec]; rfl
      · decide
      · decide
    unfold parseTaskLine
    rw [hm]

theorem tsLine_eq (ts : Str) :
    tsLine ts = lastSyncKey ++ (s2l " \"" ++ (ts ++ s2l "\"")) := rfl

theorem tsLine_lastSync (ts : Str) :
    startsWithLit lastSyncKey (tsLine ts) = true := by
  rw [tsLine_eq]
  exact startsWithLit_self_append _ _

theorem tsLine_ne_delim (ts : Str) : tsLine ts ≠ fmDelim := by
  intro h
  have h2 : (tsLine ts).head? = fmDelim.head? := by rw [h]
  have h3 : some 'a' = some '-' := h2
  cases h3

theorem dropWs_append_nws (u : Str) (c : Char) (hc : isWsChar c = false) :
    ∃ s, dropWs (u ++ [c]) = s ++ [c] := by
  induction u with
  | nil =>
    refine ⟨[], ?_⟩
    rw [List.nil_append]
    exact dropWs_cons_nws c [] hc
  | cons d u2 ih =>
    by_cases hd : isWsChar d = true
    · rw [List.cons_append, dropWs, if_pos hd]
      exact ih
    · rw [List.cons_append, dropWs, if_neg hd]
      exact ⟨d :: u2, by rw [List.cons_append]⟩

theorem trimChars_head (c : Char) (r : Str) (hc : isWsChar c = false) :
    ∃ r2, trimChars (c :: r) = c :: r2 := by
  unfold trimChars
  rw [dropWs_cons_nws c r hc]
  have hrev : (c :: r).reverse = r.reverse ++ [c] := by simp
  rw [hrev]
  obtain ⟨s, hs⟩ := dropWs_append_nws r.reverse c hc
  rw [hs]
  exact ⟨s.reverse, by simp⟩

theorem trim_head_not_header (c : Char) (r : Str) (hws : isWsChar c = false)
    (hc : c ≠ '#') : startsWithLit (s2l "## ") (trimChars (c :: r)) = false := by
  obtain ⟨r2, hr2⟩ := trimChars_head c r hws
  rw [hr2]
  show startsWithLit ('#' :: s2l "# ") (c :: r2) = false
  exact startsWithLit_cons_ne '#' c _ _ (fun h => hc h.symm)

theorem fmRep_tsLine (ts : Str) : fmRep ts (tsLine ts) = tsLine ts := by
  unfold fmRep
  rw [if_pos (tsLine_lastSync ts)]

theorem fmRep_idem (ts l : Str) : fmRep ts (fmRep ts l) = fmRep ts l := by
  by_cases h : startsWithLit lastSyncKey l = true
  · have h1 : fmRep ts l = tsLine ts := by unfold fmRep; rw [if_pos h]
    rw [h1, fmRep_tsLine]
  · have h1 : fmRep ts l = l := by unfold fmRep; rw [if_neg h]
    rw [h1]
    exact h1

theorem GoodTask_applyTask (t : AsanaTask) (us : List (Str × Bool))
    (h : GoodTask t) : GoodTask (applyTask t us) := by
  unfold applyTask
  induction us generalizing t with
  | nil => exact h
  | cons u rest ih =>
    simp only [List.foldl_cons]
    apply ih
    by_cases hg : t.gid = u.1
    · rw [if_pos hg]
      exact h
    · rw [if_neg hg]
      exact h

theorem mem_applyUpdates (R : List AsanaTask) (us : List (Str × Bool))
    (a : AsanaTask) (h : a ∈ applyUpdates R us) : ∃ t ∈ R, a = applyTask t us := by
  rw [applyUpdates_eq_map] at h
  obtain ⟨t, ht, he⟩ := List.mem_map.mp h
  exact ⟨t, ht, he.symm⟩

theorem applyUpdates_good (R : List AsanaTask) (us : List (Str × Bool))
    (h : ∀ t ∈ R, GoodTask t) : ∀ a ∈ applyUpdates R us, GoodTask a := by
  intro a ha
  obtain ⟨t, ht, rfl⟩ := mem_applyUpdates R us a ha
  exact GoodTask_applyTask t us (h t ht)

theorem applyUpdates_nodup (R : List AsanaTask) (us : List (Str × Bool))
    (h : (R.map AsanaTask.gid).Nodup) :
    ((applyUpdates R us).map AsanaTask.gid).Nodup := by
  rw [applyUpdates_gids]
  exact h

theorem flatten_map_singleton (L : List Str) (f : Str → List Str)
    (h : ∀ l ∈ L, f l = [l]) : (L.map f).flatten = L := by
  induction L with
  | nil => rfl
  | cons l rest ih =>
    simp only [List.map_cons, List.flatten_cons, h l (List.mem_cons_self l rest)]
    rw [ih (fun x hx => h x (List.mem_cons_of_mem _ hx))]
    rfl

theorem insertGroup_factor (st : SyncSettings) (F B : List Str) (sec : Str)
    (tasks : List AsanaTask)
    (hF : ∀ l ∈ F, startsWithLit (s2l "## ") (trimChars l) = false) :
    insertGroup st (F ++ B) sec tasks = F ++ insertGroup st B sec tasks := by
  have hFn : List.findIdx? (fun l => trimChars l == s2l "## " ++ sec) F = none := by
    rw [List.findIdx?_eq_none_iff]
    intro l hl
    by_cases he : trimChars l = s2l "## " ++ sec
    · exfalso
      have hh := hF l hl
      rw [he, startsWithLit_self_append] at hh
      cases hh
    · exact beq_eq_false_iff_ne.mpr he
  simp only [insertGroup, List.findIdx?_append, hFn, Option.or]
  cases hf : List.findIdx? (fun l => trimChars l == s2l "## " ++ sec) B with
  | none =>
    simp only [hf, Option.map]
    by_cases hsec : sec ≠ unsectioned
    · rw [if_pos hsec, if_pos hsec]
      simp [List.append_assoc]
    · rw [if_neg hsec, if_neg hsec]
      simp [List.append_assoc]
  | some i =>
    simp only [hf, Option.map]
    by_cases hsec : sec ≠ unsectioned
    · rw [if_pos hsec, if_pos hsec]
      have h1 : i + F.length + 1 = F.length + (i + 1) := by omega
      rw [h1, List.drop_append]
      have h2 : F.length + (i + 1) + insertionOffset (List.drop (i + 1) B) =
          F.length + (i + 1 + insertionOffset (List.drop (i + 1) B)) := by omega
      rw [h2, List.take_append, List.drop_append]
      simp [List.append_assoc]
    · rw [if_neg hsec, if_neg hsec]
      simp [List.append_assoc]

theorem appendNew_factor (st : SyncSettings) (F B : List Str)
    (groups : List (Str × List AsanaTask))
    (hF : ∀ l ∈ F, startsWithLit (s2l "## ") (trimChars l) = false) :
    appendNew st (F ++ B) groups = F ++ appendNew st B groups := by
  unfold appendNew
  induction groups generalizing B with
  | nil => rfl
  | cons gp rest ih =>
    simp only [List.foldl_cons]
    rw [insertGroup_factor st F B gp.1 gp.2 hF]
    exact ih _

theorem groupAdd_adds (gs : List (Str × List AsanaTask)) (k : Str) (t : AsanaTask) :
    ∃ gp ∈ groupAdd gs k t, t ∈ gp.2 := by
  induction gs with
  | nil => exact ⟨(k, [t]), List.mem_singleton.mpr rfl, List.mem_singleton.mpr rfl⟩
  | cons e rest ih =>
    rcases e with ⟨k2, l2⟩
    unfold groupAdd
    by_cases hk : k2 = k
    · rw [if_pos hk]
      exact ⟨(k2, l2 ++ [t]), List.mem_cons_self _ _, by simp⟩
    · rw [if_neg hk]
      obtain ⟨gp, h1, h2⟩ := ih
      exact ⟨gp, List.mem_cons_of_mem _ h1, h2⟩

theorem groupAdd_preserves (gs : List (Str × List AsanaTask)) (k : Str)
    (t : AsanaTask) (gp : Str × List AsanaTask) (x : AsanaTask)
    (hgp : gp ∈ gs) (hx : x ∈ gp.2) : ∃ gp2 ∈ groupAdd gs k t, x ∈ gp2.2 := by
  induction gs with
  | nil => cases hgp
  | cons e rest ih =>
    rcases e with ⟨k2, l2⟩
    unfold groupAdd
    by_cases hk : k2 = k
    · rw [if_pos hk]
      rcases List.mem_cons.mp hgp with rfl | h2
      · exact ⟨(k2, l2 ++ [t]), List.mem_cons_self _ _, by simp [hx]⟩
      · exact ⟨gp, List.mem_cons_of_mem _ h2, hx⟩
    · rw [if_neg hk]
      rcases List.mem_cons.mp hgp with rfl | h2
      · exact ⟨(k2, l2), List.mem_cons_self _ _, hx⟩
      · obtain ⟨gp2, h3, h4⟩ := ih h2
        exact ⟨gp2, List.mem_cons_of_mem _ h3, h4⟩

theorem foldl_groups_complete (pgid : Str) (ts : List AsanaTask)
    (gs : List (Str × List AsanaTask)) (t : AsanaTask)
    (h : (∃ gp ∈ gs, t ∈ gp.2) ∨ t ∈ ts) :
    ∃ gp ∈ ts.foldl (fun gs t => groupAdd gs (sectionNameOf t pgid) t) gs,
      t ∈ gp.2 := by
  induction ts generalizing gs with
  | nil =>
    rcases h with h | h
    · exact h
    · cases h
  | cons t2 rest ih =>
    simp only [List.foldl_cons]
    rcases h with ⟨gp, h1, h2⟩ | h
    · exact ih _ (Or.inl (groupAdd_preserves gs _ t2 gp t h1 h2))
    · rcases List.mem_cons.mp h with rfl | h2
      · exact ih _ (Or.inl (groupAdd_adds gs (sectionNameOf t pgid) t))
      · exact ih _ (Or.inr h2)

theorem buildGroups_complete (pgid : Str) (ts : List AsanaTask) (t : AsanaTask)
    (ht : t ∈ ts) : ∃ gp ∈ buildGroups pgid ts, t ∈ gp.2 :=
  foldl_groups_complete pgid ts [] t (Or.inr ht)

theorem insertGroup_fmt_mem (st : SyncSettings) (B : List Str) (sec : Str)
    (tasks : List AsanaTask) (t : AsanaTask) (ht : t ∈ tasks) :
    formatTaskLine t st.showDueDates st.showAssignees ∈
      insertGroup st B sec tasks := by
  have hfmt : formatTaskLine t st.showDueDates st.showAssignees ∈
      tasks.map (fun t => formatTaskLine t st.showDueDates st.showAssignees) :=
    List.mem_map_of_mem _ ht
  simp only [insertGroup]
  cases hf : List.findIdx? (fun l => trimChars l == s2l "## " ++ sec) B with
  | none =>
    simp only [hf]
    split_ifs <;> simp [hfmt]
  | some i =>
    simp only [hf]
    split_ifs <;> simp [hfmt]

theorem appendNew_fmt_mem (st : SyncSettings) (B : List Str)
    (groups : List (Str × List AsanaTask)) (gp : Str × List AsanaTask)
    (t : AsanaTask) (hgp : gp ∈ groups) (ht : t ∈ gp.2) :
    formatTaskLine t st.showDueDates st.showAssignees ∈ appendNew st B groups := by
  revert hgp
  induction groups generalizing B with
  | nil =>
    intro hgp
    cases hgp
  | cons gp0 rest ih =>
    intro hgp
    show formatTaskLine t st.showDueDates st.showAssignees ∈
      appendNew st (insertGroup st B gp0.1 gp0.2) rest
    rcases List.mem_cons.mp hgp with rfl | h2
    · exact (appendNew_sublist st _ rest).subset
        (insertGroup_fmt_mem st B _ _ t ht)
    · exact ih _ h2

/-- C7 counterexample: without the in-sync assumption the claim fails: a
completed remote task whose document line is unchecked gets a remote
update pushed (remote completion state changes), and its line remains in
the document after the pass. -/
theorem c7_counterexample :
    (syncProject (some [fmDelim, fmDelim, s2l "- [ ] T <!-- asana:5 -->"])
      [{gid := s2l "5", name := s2l "T", completed := true, due_on := none,
        assignee := none, memberships := []}]
      (s2l "P") (s2l "p1") false
      {showDueDates := true, showAssignees := true, showCompletedTasks := false}
      (s2l "2024-06-01T00:00:00.000Z")).updates = [(s2l "5", false)] ∧
    (syncProject (some [fmDelim, fmDelim, s2l "- [ ] T <!-- asana:5 -->"])
      [{gid := s2l "5", name := s2l "T", completed := true, due_on := none,
        assignee := none, memberships := []}]
      (s2l "P") (s2l "p1") false
      {showDueDates := true, showAssignees := true, showCompletedTasks := false}
      (s2l "2024-06-01T00:00:00.000Z")).content =
      [fmDelim, tsLine (s2l "2024-06-01T00:00:00.000Z"), fmDelim,
       s2l "- [ ] T <!-- asana:5 -->"] :=
  ⟨rfl, rfl⟩

/-! ### Claim C1: preparation -/

theorem parseTaskLine_shift (l : Str) (n m : Nat) :
    parseTaskLine l n = (parseTaskLine l m).map
      (fun p => {p with lineNumber := n}) := by
  unfold parseTaskLine
  cases matchTaskLine l with
  | none => rfl
  | some v =>
    rcases v with ⟨c, ttl, d, a, g⟩
    rfl

theorem tsLine_cons (ts : Str) :
    tsLine ts = 'a' :: (s2l "sana_last_sync: \"" ++ (ts ++ s2l "\"")) := rfl

theorem tsLine_header_safe (ts : Str) :
    startsWithLit (s2l "## ") (trimChars (tsLine ts)) = false := by
  rw [tsLine_cons]
  exact trim_head_not_header 'a' _ (by decide) (by decide)

theorem syncProject_some_wrote_eq (L : List Str) (R : List AsanaTask) (pn pg : Str)
    (imt : Bool) (st : SyncSettings) (ts : Str)
    (h : (syncProject (some L) R pn pg imt st ts).content = L) :
    (syncProject (some L) R pn pg imt st ts).wrote = false := by
  have he : (syncProject (some L) R pn pg imt st ts).wrote =
      decide (joinLines ((syncProject (some L) R pn pg imt st ts).content) ≠
        joinLines L) := rfl
  rw [he, h]
  simp

/-- C1 (amended): two consecutive reconciliation passes with no intervening
remote change leave the body region byte-identical and change the document
only by the frontmatter timestamp rewrite (each pass stamps its own
`asana_last_sync` value): the second pass pushes no update, adds no task and
counts no completion change.  Only under a frozen clock (the same timestamp
string in both passes) is the second pass's content byte-identical with no
write; with a fresh timestamp the file IS rewritten, and the `updated` stat
is not 0 either --- see the counterexample.  Assumptions: the frontmatter
block is closed, its lines do not look like section headings, a task line's
parsed identifier agrees with the unanchored search on its text, and the
remote snapshot has well-formed tasks with distinct identifiers. -/
theorem c1_second_pass (fmBody body : List Str) (R : List AsanaTask) (pn pg : Str)
    (imt : Bool) (st : SyncSettings) (ts1 ts2 : Str)
    (hfm : fmDelim ∉ fmBody)
    (hfmsec : ∀ l ∈ fmBody, startsWithLit (s2l "## ") (trimChars l) = false)
    (hgid0 : ∀ l ∈ body, (match parseTaskLine l 0 with
      | some pt => pt.asanaGid == lineGid l
      | none => true) = true)
    (hgood : ∀ t ∈ R, GoodTask t)
    (hnd : (R.map AsanaTask.gid).Nodup) :
    ∀ o1 o2,
      o1 = syncProject (some (fmDelim :: (fmBody ++ fmDelim :: body)))
        R pn pg imt st ts1 →
      o2 = syncProject (some o1.content) (applyUpdates R o1.updates)
        pn pg imt st ts2 →
      o2.content = fmOutOf ts2 o1.content ++ bodyOf o1.content ∧
      o2.updates = [] ∧ o2.added = 0 ∧ o2.completionChanges = 0 ∧
      (ts2 = ts1 → o2.content = o1.content ∧ o2.wrote = false) := by
  intro o1 o2 ho1 ho2
  subst ho1
  subst ho2
  have hgid : ∀ l ∈ body, ∀ j p, parseTaskLine l j = some p →
      p.asanaGid = lineGid l := by
    intro l hl j p hp
    have hsh := parseTaskLine_shift l 0 j
    rw [hp] at hsh
    have hgl := hgid0 l hl
    rw [hsh] at hgl
    exact beq_iff_eq.mp hgl
  obtain ⟨ups1, hups1⟩ : ∃ x, x = pushUpdates
      (buildTaskMap (noteTasks (fmDelim :: (fmBody ++ fmDelim :: body))))
      (buildAsanaMap R) := ⟨_, rfl⟩
  obtain ⟨refreshed, href⟩ : ∃ x, x = applyUpdates R ups1 := ⟨_, rfl⟩
  obtain ⟨am, ham⟩ : ∃ x, x = buildAsanaMap refreshed := ⟨_, rfl⟩
  obtain ⟨B1, hB1⟩ : ∃ x, x = (bodyLoop am st body).1 := ⟨_, rfl⟩
  obtain ⟨seen1, hseen1⟩ : ∃ x, x = (bodyLoop am st body).2.1 := ⟨_, rfl⟩
  obtain ⟨newT1, hnewT1⟩ : ∃ x, x = refreshed.filter
      (fun t => decide (t.gid ∉ seen1 ∧
        ¬(¬st.showCompletedTasks ∧ t.completed))) := ⟨_, rfl⟩
  obtain ⟨groups1, hgroups1⟩ : ∃ x, x = buildGroups pg newT1 := ⟨_, rfl⟩
  obtain ⟨B2, hB2⟩ : ∃ x, x = appendNew st B1 groups1 := ⟨_, rfl⟩
  have hgood2 : ∀ a ∈ refreshed, GoodTask a := by
    rw [href]
    exact applyUpdates_good R ups1 hgood
  have hnd2 : (refreshed.map AsanaTask.gid).Nodup := by
    rw [href]
    exact applyUpdates_nodup R ups1 hnd
  obtain ⟨IF1, hfl1, hIFc⟩ : ∃ IF1,
      (fmLoop ts1 false (fmBody ++ fmDelim :: body)).1 =
        (fmBody.map (fmRep ts1) ++ IF1) ++ [fmDelim] ∧
      ((IF1 = [] ∧ fmBody.any (startsWithLit lastSyncKey) = true) ∨
        IF1 = [tsLine ts1]) := by
    by_cases hany : fmBody.any (startsWithLit lastSyncKey) = true
    · refine ⟨[], ?_, Or.inl ⟨rfl, hany⟩⟩
      rw [fmLoop_split ts1 false fmBody body hfm]
      rw [if_pos (Or.inr hany)]
    · refine ⟨[tsLine ts1], ?_, Or.inr rfl⟩
      rw [fmLoop_split ts1 false fmBody body hfm]
      rw [if_neg (by simp [hany])]
  obtain ⟨inner1, hinner1⟩ : ∃ x, x = fmBody.map (fmRep ts1) ++ IF1 := ⟨_, rfl⟩
  rw [← hinner1] at hfl1
  have hmap_nd : fmDelim ∉ fmBody.map (fmRep ts1) := by
    intro hmem
    obtain ⟨l, hl, he⟩ := List.mem_map.mp hmem
    unfold fmRep at he
    by_cases hs : startsWithLit lastSyncKey l = true
    · rw [if_pos hs] at he
      exact tsLine_ne_delim ts1 he
    · rw [if_neg hs] at he
      exact hfm (he ▸ hl)
  have hin_nd : fmDelim ∉ inner1 := by
    rw [hinner1]
    intro hmem
    rcases List.mem_append.mp hmem with h2 | h2
    · exact hmap_nd h2
    · rcases hIFc with ⟨rfl, _⟩ | rfl
      · cases h2
      · have he := List.mem_singleton.mp h2
        exact tsLine_ne_delim ts1 he.symm
  have hmap_map : (fmBody.map (fmRep ts1)).map (fmRep ts1) =
      fmBody.map (fmRep ts1) := by
    rw [List.map_map]
    apply List.map_congr_left
    intro l _
    exact fmRep_idem ts1 l
  have hin_map : inner1.map (fmRep ts1) = inner1 := by
    rw [hinner1, List.map_append, hmap_map]
    rcases hIFc with ⟨rfl, _⟩ | rfl
    · rfl
    · rw [show ([tsLine ts1].map (fmRep ts1)) = [tsLine ts1] from by
        simp [fmRep_tsLine]]
  have hin_any : inner1.any (startsWithLit lastSyncKey) = true := by
    rw [hinner1, List.any_append]
    rcases hIFc with ⟨rfl, hany⟩ | rfl
    · obtain ⟨l0, hl0, hsw⟩ := List.any_eq_true.mp hany
      have hm : (fmBody.map (fmRep ts1)).any (startsWithLit lastSyncKey) = true := by
        apply List.any_eq_true.mpr
        refine ⟨fmRep ts1 l0, List.mem_map_of_mem _ hl0, ?_⟩
        unfold fmRep
        rw [if_pos hsw]
        exact tsLine_lastSync ts1
      rw [hm]
      rfl
    · have hm : ([tsLine ts1] : List Str).any (startsWithLit lastSyncKey) = true := by
        simp [tsLine_lastSync]
      rw [hm, Bool.or_true]
  have hin_sec : ∀ l ∈ inner1, startsWithLit (s2l "## ") (trimChars l) = false := by
    rw [hinner1]
    intro l hl
    rcases List.mem_append.mp hl with h2 | h2
    · obtain ⟨l0, hl0, rfl⟩ := List.mem_map.mp h2
      unfold fmRep
      by_cases hs : startsWithLit lastSyncKey l0 = true
      · rw [if_pos hs]
        exact tsLine_header_safe ts1
      · rw [if_neg hs]
        exact hfmsec l0 hl0
    · rcases hIFc with ⟨rfl, _⟩ | rfl
      · cases h2
      · have he := List.mem_singleton.mp h2
        rw [he]
        exact tsLine_header_safe ts1
  have hFsafe : ∀ l ∈ fmDelim :: (inner1 ++ [fmDelim]),
      startsWithLit (s2l "## ") (trimChars l) = false := by
    intro l hl
    rcases List.mem_cons.mp hl with rfl | hl2
    · decide
    · rcases List.mem_append.mp hl2 with h3 | h3
      · exact hin_sec l h3
      · have he := List.mem_singleton.mp h3
        rw [he]
        decide
  have hfmout : fmOutOf ts1 (fmDelim :: (fmBody ++ fmDelim :: body)) =
      fmDelim :: (inner1 ++ [fmDelim]) := by
    rw [fmOutOf_delim, hfl1]
  have hrw_eq : rewriteLines am st ts1 (fmDelim :: (fmBody ++ fmDelim :: body)) =
      ((fmDelim :: (inner1 ++ [fmDelim])) ++ B1, seen1,
       (bodyLoop am st body).2.2) := by
    rw [rewriteLines_eq, bodyOf_split fmBody body hfm, hfmout, ← hB1, ← hseen1]
  have hrw_fst : (rewriteLines am st ts1 (fmDelim :: (fmBody ++ fmDelim :: body))).1 =
      (fmDelim :: (inner1 ++ [fmDelim])) ++ B1 := by
    rw [hrw_eq]
  have hrw_seen : (rewriteLines am st ts1 (fmDelim :: (fmBody ++ fmDelim :: body))).2.1 =
      seen1 := by
    rw [hrw_eq]
  have hcon1 : (syncProject (some (fmDelim :: (fmBody ++ fmDelim :: body)))
      R pn pg imt st ts1).content = (fmDelim :: (inner1 ++ [fmDelim])) ++ B2 := by
    rw [syncProject_some_content, ← hups1, ← href, ← ham, hrw_fst, hrw_seen,
      ← hnewT1, ← hgroups1,
      appendNew_factor st (fmDelim :: (inner1 ++ [fmDelim])) B1 groups1 hFsafe,
      ← hB2]
  have hup1 : (syncProject (some (fmDelim :: (fmBody ++ fmDelim :: body)))
      R pn pg imt st ts1).updates = ups1 := by
    rw [syncProject_some_updates, ← hups1]
  have hBcase : ∀ l ∈ B2,
      (∃ l2 ∈ body, l = l2 ∧ (startsWithLit (s2l "## ") l2 = true ∨
        lineGid l2 = none ∨ ∃ g2, lineGid l2 = some g2 ∧ alGet am g2 = none)) ∨
      (∃ a, alGet am a.gid = some a ∧ GoodTask a ∧
        ¬(¬st.showCompletedTasks ∧ a.completed) ∧
        l = formatTaskLine a st.showDueDates st.showAssignees) ∨
      l = [] ∨ (∃ sec, l = s2l "## " ++ sec) := by
    intro l hl
    rw [hB2] at hl
    rcases appendNew_mem st B1 groups1 l hl with hB1m | rfl | ⟨gp, hgp, hc⟩
    · rw [hB1] at hB1m
      simp only [bodyLoop_spec] at hB1m
      obtain ⟨bl, hbl, hlbl⟩ := List.mem_flatten.mp hB1m
      obtain ⟨l2, hl2, rfl⟩ := List.mem_map.mp hbl
      unfold bodyOut at hlbl
      by_cases hh : startsWithLit (s2l "## ") l2 = true
      · rw [if_pos hh] at hlbl
        rcases List.mem_singleton.mp hlbl with rfl
        exact Or.inl ⟨_, hl2, rfl, Or.inl hh⟩
      · rw [if_neg hh] at hlbl
        cases hlg : lineGid l2 with
        | none =>
          simp only [hlg] at hlbl
          rcases List.mem_singleton.mp hlbl with rfl
          exact Or.inl ⟨_, hl2, rfl, Or.inr (Or.inl hlg)⟩
        | some g2 =>
          simp only [hlg] at hlbl
          cases halg : alGet am g2 with
          | none =>
            simp only [halg] at hlbl
            rcases List.mem_singleton.mp hlbl with rfl
            exact Or.inl ⟨_, hl2, rfl, Or.inr (Or.inr ⟨g2, hlg, halg⟩)⟩
          | some a =>
            simp only [halg] at hlbl
            by_cases hcc : ¬st.showCompletedTasks ∧ a.completed
            · rw [if_pos hcc] at hlbl
              cases hlbl
            · rw [if_neg hcc] at hlbl
              rcases List.mem_singleton.mp hlbl with rfl
              have halg2 : alGet (buildAsanaMap refreshed) g2 = some a := by
                rw [← ham]
                exact halg
              obtain ⟨haR, hagid⟩ := buildAsanaMap_entry refreshed g2 a halg2
              refine Or.inr (Or.inl ⟨a, ?_, hgood2 a haR, hcc, rfl⟩)
              rw [hagid]
              exact halg
    · exact Or.inr (Or.inr (Or.inl rfl))
    · rcases hc with he | ⟨t2, ht2, rfl⟩
      · exact Or.inr (Or.inr (Or.inr ⟨gp.1, he⟩))
      · rw [hgroups1] at hgp
        have ht2n := buildGroups_snd pg newT1 gp t2 hgp ht2
        rw [hnewT1] at ht2n
        obtain ⟨ht2r, hcond⟩ := List.mem_filter.mp ht2n
        rw [decide_eq_true_eq] at hcond
        refine Or.inr (Or.inl ⟨t2, ?_, hgood2 t2 ht2r, hcond.2, rfl⟩)
        rw [ham]
        exact buildAsanaMap_nodup_mem refreshed t2 hnd2 ht2r
  have hchar : ∀ l ∈ B2, bodyOut am st l = [l] := by
    intro l hl
    rcases hBcase l hl with ⟨l2, hl2, rfl, hk⟩ | ⟨a, hget, hgd, hdisp, rfl⟩ | rfl
      | ⟨sec, rfl⟩
    · rcases hk with hh | hh | ⟨g2, hg2, hga⟩
      · unfold bodyOut
        rw [if_pos hh]
      · exact bodyOut_keep_none am st l hh
      · exact bodyOut_keep_unknown am st l g2 hg2 hga
    · have hsp := formatted_not_special a st.showDueDates st.showAssignees hgd
      have hlg := lineGid_formatted a st.showDueDates st.showAssignees hgd
      unfold bodyOut
      simp only [hsp.2.2, Bool.false_eq_true, if_false, hlg, hget]
      rw [if_neg hdisp]
    · rfl
    · unfold bodyOut
      rw [if_pos (startsWithLit_self_append (s2l "## ") sec)]
  have hB2flat : (B2.map (bodyOut am st)).flatten = B2 :=
    flatten_map_singleton B2 _ hchar
  have hcon1' : (fmDelim :: (inner1 ++ [fmDelim])) ++ B2 =
      fmDelim :: (inner1 ++ fmDelim :: B2) := by
    simp [List.append_assoc]
  have hups2 : pushUpdates
      (buildTaskMap (noteTasks ((fmDelim :: (inner1 ++ [fmDelim])) ++ B2)))
      (buildAsanaMap refreshed) = [] := by
    apply pushUpdates_nil_of_agree
    intro g p hmem a2 hget2
    obtain ⟨hp_mem, hp_gid⟩ := buildTaskMap_entry _ g p hmem
    rw [hcon1', noteTasks_split inner1 B2 hin_nd] at hp_mem
    obtain ⟨l, hlB2, j, hparse⟩ := noteTasksAux_mem B2 false true false _ p hp_mem
    rcases hBcase l hlB2 with ⟨l2, hl2, rfl, hk⟩ | ⟨a, hget, hgd, hdisp, rfl⟩ | rfl
      | ⟨sec, rfl⟩
    · rcases hk with hh | hh | ⟨g2, hg2, hga⟩
      · rw [heading_parse_none l j hh] at hparse
        cases hparse
      · have hpg := hgid l hl2 j p hparse
        rw [hh, hp_gid] at hpg
        cases hpg
      · have hpg := hgid l hl2 j p hparse
        rw [hg2, hp_gid] at hpg
        have hgg : g = g2 := Option.some.inj hpg
        rw [hgg, ← ham] at hget2
        rw [hga] at hget2
        cases hget2
    · have hfp := parseTaskLine_format a st.showDueDates st.showAssignees j hgd
      rw [hparse] at hfp
      have hpe := Option.some.inj hfp
      have hpg : p.asanaGid = some a.gid := by rw [hpe]
      rw [hp_gid] at hpg
      have hgg : g = a.gid := Option.some.inj hpg
      have hpc : p.completed = a.completed := by rw [hpe]
      rw [hpc]
      rw [hgg, ← ham] at hget2
      rw [hget] at hget2
      rw [Option.some.inj hget2]
    · rw [parse_blank j] at hparse
      cases hparse
    · rw [heading_parse_none _ j (startsWithLit_self_append (s2l "## ") sec)]
        at hparse
      cases hparse
  have hseenB2 : ∀ t ∈ refreshed, ¬(¬st.showCompletedTasks ∧ t.completed) →
      t.gid ∈ (B2.map lineSeen).flatten := by
    intro t ht hdisp
    have hfin : ∀ l ∈ B2, lineSeen l = [t.gid] →
        t.gid ∈ (B2.map lineSeen).flatten := by
      intro l hl hls
      exact List.mem_flatten.mpr ⟨lineSeen l, List.mem_map_of_mem _ hl,
        by rw [hls]; exact List.mem_singleton.mpr rfl⟩
    have hget : alGet am t.gid = some t := by
      rw [ham]
      exact buildAsanaMap_nodup_mem refreshed t hnd2 ht
    have hgd := hgood2 t ht
    have hseenfmt : lineSeen (formatTaskLine t st.showDueDates st.showAssignees) =
        [t.gid] := by
      unfold lineSeen
      simp only [(formatted_not_special t st.showDueDates st.showAssignees hgd).2.2,
        Bool.false_eq_true, if_false,
        lineGid_formatted t st.showDueDates st.showAssignees hgd]
    by_cases hs1 : t.gid ∈ seen1
    · rw [hseen1] at hs1
      simp only [bodyLoop_spec] at hs1
      obtain ⟨sl, hsl, htg⟩ := List.mem_flatten.mp hs1
      obtain ⟨l2, hl2, rfl⟩ := List.mem_map.mp hsl
      unfold lineSeen at htg
      by_cases hh : startsWithLit (s2l "## ") l2 = true
      · rw [if_pos hh] at htg
        cases htg
      · rw [if_neg hh] at htg
        cases hlg : lineGid l2 with
        | none =>
          simp only [hlg] at htg
          cases htg
        | some g2 =>
          simp only [hlg] at htg
          have he := List.mem_singleton.mp htg
          have hout : bodyOut am st l2 =
              [formatTaskLine t st.showDueDates st.showAssignees] := by
            unfold bodyOut
            simp only [hh, Bool.false_eq_true, if_false, hlg, ← he, hget]
            rw [if_neg hdisp]
          have hinB1 : formatTaskLine t st.showDueDates st.showAssignees ∈ B1 := by
            rw [hB1]
            simp only [bodyLoop_spec]
            exact List.mem_flatten.mpr ⟨_, List.mem_map_of_mem _ hl2,
              by rw [hout]; exact List.mem_singleton.mpr rfl⟩
          have hinB2 : formatTaskLine t st.showDueDates st.showAssignees ∈ B2 := by
            rw [hB2]
            exact (appendNew_sublist st B1 groups1).subset hinB1
          exact hfin _ hinB2 hseenfmt
    · have htn : t ∈ newT1 := by
        rw [hnewT1]
        refine List.mem_filter.mpr ⟨ht, ?_⟩
        rw [decide_eq_true_eq]
        exact ⟨hs1, hdisp⟩
      obtain ⟨gp, hgp, htgp⟩ := buildGroups_complete pg newT1 t htn
      have hinB2 : formatTaskLine t st.showDueDates st.showAssignees ∈ B2 := by
        rw [hB2, hgroups1]
        exact appendNew_fmt_mem st B1 (buildGroups pg newT1) gp t hgp htgp
      exact hfin _ hinB2 hseenfmt
  have hnew2 : refreshed.filter
      (fun t => decide (t.gid ∉ (B2.map lineSeen).flatten ∧
        ¬(¬st.showCompletedTasks ∧ t.completed))) = [] := by
    rw [List.filter_eq_nil_iff]
    intro t ht hc
    rw [decide_eq_true_eq] at hc
    exact hc.1 (hseenB2 t ht hc.2)
  have hfl2 : (fmLoop ts2 false (inner1 ++ fmDelim :: B2)).1 =
      inner1.map (fmRep ts2) ++ [fmDelim] := by
    rw [fmLoop_split ts2 false inner1 B2 hin_nd]
    rw [if_pos (Or.inr hin_any)]
    simp
  have hrw2 : rewriteLines am st ts2 (fmDelim :: (inner1 ++ fmDelim :: B2)) =
      (fmDelim :: (inner1.map (fmRep ts2) ++ fmDelim :: B2),
       (B2.map lineSeen).flatten, B2.countP (lineCounted am st)) := by
    rw [rewriteLines_eq, bodyOf_split inner1 B2 hin_nd, fmOutOf_delim, hfl2]
    simp only [bodyLoop_spec]
    simp [hB2flat, List.append_assoc]
  have hrw2_fst : (rewriteLines am st ts2 (fmDelim :: (inner1 ++ fmDelim :: B2))).1 =
      fmDelim :: (inner1.map (fmRep ts2) ++ fmDelim :: B2) := by
    rw [hrw2]
  have hrw2_seen : (rewriteLines am st ts2
      (fmDelim :: (inner1 ++ fmDelim :: B2))).2.1 =
      (B2.map lineSeen).flatten := by
    rw [hrw2]
  have hcontent2 :
      (syncProject (some ((syncProject (some (fmDelim :: (fmBody ++ fmDelim :: body)))
          R pn pg imt st ts1).content))
        (applyUpdates R ((syncProject (some (fmDelim :: (fmBody ++ fmDelim :: body)))
          R pn pg imt st ts1).updates)) pn pg imt st ts2).content =
      fmOutOf ts2 ((syncProject (some (fmDelim :: (fmBody ++ fmDelim :: body)))
          R pn pg imt st ts1).content) ++
        bodyOf ((syncProject (some (fmDelim :: (fmBody ++ fmDelim :: body)))
          R pn pg imt st ts1).content) := by
    rw [hcon1, hup1, ← href]
    rw [syncProject_some_content, hups2, applyUpdates_nil, ← ham, hcon1']
    rw [hrw2_fst, hrw2_seen, hnew2]
    rw [bodyOf_split inner1 B2 hin_nd, fmOutOf_delim, hfl2]
    show fmDelim :: (inner1.map (fmRep ts2) ++ fmDelim :: B2) = _
    simp [List.append_assoc]
  refine ⟨hcontent2, ?_, ?_, ?_, ?_⟩
  · rw [hcon1, hup1, ← href, syncProject_some_updates]
    exact hups2
  · rw [hcon1, hup1, ← href]
    rw [syncProject_some_added, hups2, applyUpdates_nil, ← ham, hcon1']
    rw [hrw2_seen, hnew2]
    rfl
  · rw [hcon1, hup1, ← href]
    rw [syncProject_some_cchanges, hups2]
    rfl
  · intro hts
    subst hts
    constructor
    · rw [hcontent2, hcon1, hcon1', bodyOf_split inner1 B2 hin_nd, fmOutOf_delim,
        hfl2, hin_map]
      simp [List.append_assoc]
    · apply syncProject_some_wrote_eq
      rw [hcontent2, hcon1, hcon1', bodyOf_split inner1 B2 hin_nd, fmOutOf_delim,
        hfl2, hin_map]
      simp [List.append_assoc]

/-- Counterexample to C1 as frozen: an unchanged one-task document under
everything-shown settings.  The program stamps a fresh timestamp each pass
(`new Date().toISOString()`), so the second pass --- run on the first pass's
content with the remote snapshot unchanged (no pushes were made) --- replaces
the `asana_last_sync` line, producing content that is NOT byte-identical,
DOES write the file (`wrote = true`), and returns `updated = 1`, not 0. -/
theorem c1_counterexample :
    (syncProject (some [fmDelim, fmDelim, s2l "- [ ] T <!-- asana:5 -->"])
      [{gid := s2l "5", name := s2l "T", completed := false, due_on := none,
        assignee := none, memberships := []}]
      (s2l "P") (s2l "p1") false
      {showDueDates := true, showAssignees := true, showCompletedTasks := true}
      (s2l "2024-06-01T00:00:00.000Z")).content =
      [fmDelim, tsLine (s2l "2024-06-01T00:00:00.000Z"), fmDelim,
       s2l "- [ ] T <!-- asana:5 -->"] ∧
    (syncProject (some [fmDelim, fmDelim, s2l "- [ ] T <!-- asana:5 -->"])
      [{gid := s2l "5", name := s2l "T", completed := false, due_on := none,
        assignee := none, memberships := []}]
      (s2l "P") (s2l "p1") false
      {showDueDates := true, showAssignees := true, showCompletedTasks := true}
      (s2l "2024-06-01T00:00:00.000Z")).updates = [] ∧
    applyUpdates
      [{gid := s2l "5", name := s2l "T", completed := false, due_on := none,
        assignee := none, memberships := []}] [] =
      [{gid := s2l "5", name := s2l "T", completed := false, due_on := none,
        assignee := none, memberships := []}] ∧
    (syncProject (some [fmDelim, tsLine (s2l "2024-06-01T00:00:00.000Z"),
        fmDelim, s2l "- [ ] T <!-- asana:5 -->"])
      [{gid := s2l "5", name := s2l "T", completed := false, due_on := none,
        assignee := none, memberships := []}]
      (s2l "P") (s2l "p1") false
      {showDueDates := true, showAssignees := true, showCompletedTasks := true}
      (s2l "2024-06-02T00:00:00.000Z")).content =
      [fmDelim, tsLine (s2l "2024-06-02T00:00:00.000Z"), fmDelim,
       s2l "- [ ] T <!-- asana:5 -->"] ∧
    (syncProject (some [fmDelim, tsLine (s2l "2024-06-01T00:00:00.000Z"),
        fmDelim, s2l "- [ ] T <!-- asana:5 -->"])
      [{gid := s2l "5", name := s2l "T", completed := false, due_on := none,
        assignee := none, memberships := []}]
      (s2l "P") (s2l "p1") false
      {showDueDates := true, showAssignees := true, showCompletedTasks := true}
      (s2l "2024-06-02T00:00:00.000Z")).content ≠
      [fmDelim, tsLine (s2l "2024-06-01T00:00:00.000Z"), fmDelim,
       s2l "- [ ] T <!-- asana:5 -->"] ∧
    (syncProject (some [fmDelim, tsLine (s2l "2024-06-01T00:00:00.000Z"),
        fmDelim, s2l "- [ ] T <!-- asana:5 -->"])
      [{gid := s2l "5", name := s2l "T", completed := false, due_on := none,
        assignee := none, memberships := []}]
      (s2l "P") (s2l "p1") false
      {showDueDates := true, showAssignees := true, showCompletedTasks := true}
      (s2l "2024-06-02T00:00:00.000Z")).wrote = true ∧
    (syncProject (some [fmDelim, tsLine (s2l "2024-06-01T00:00:00.000Z"),
        fmDelim, s2l "- [ ] T <!-- asana:5 -->"])
      [{gid := s2l "5", name := s2l "T", completed := false, due_on := none,
        assignee := none, memberships := []}]
      (s2l "P") (s2l "p1") false
      {showDueDates := true, showAssignees := true, showCompletedTasks := true}
      (s2l "2024-06-02T00:00:00.000Z")).updated = 1 :=
  ⟨rfl, rfl, rfl, rfl, by decide, rfl, rfl⟩

/-- Witness for C1 on a one-task document: all hypotheses hold; the second
pass (here run with the same timestamp, exercising the frozen-clock branch)
changes only the frontmatter rewrite, pushes nothing, adds nothing and
counts no completion change. -/
theorem c1_witness :
    (fmDelim ∉ ([] : List Str)) ∧
    (∀ l ∈ ([] : List Str), startsWithLit (s2l "## ") (trimChars l) = false) ∧
    (∀ l ∈ [s2l "- [ ] T <!-- asana:5 -->"], (match parseTaskLine l 0 with
      | some pt => pt.asanaGid == lineGid l
      | none => true) = true) ∧
    (∀ t ∈ [({gid := s2l "5", name := s2l "T", completed := false,
              due_on := none, assignee := none, memberships := []} : AsanaTask)],
      GoodTask t) ∧
    (([({gid := s2l "5", name := s2l "T", completed := false, due_on := none,
         assignee := none, memberships := []} : AsanaTask)].map
        AsanaTask.gid).Nodup) ∧
    ((syncProject
        (some ((syncProject
        (some (fmDelim :: (([] : List Str) ++
          fmDelim :: [s2l "- [ ] T <!-- asana:5 -->"])))
        [{gid := s2l "5", name := s2l "T", completed := false, due_on := none,
          assignee := none, memberships := []}]
        (s2l "P") (s2l "p1") false
        {showDueDates := true, showAssignees := true, showCompletedTasks := true}
        (s2l "2024-06-01T00:00:00.000Z")).content))
        (applyUpdates
        [{gid := s2l "5", name := s2l "T", completed := false, due_on := none,
          assignee := none, memberships := []}]
        ((syncProject
        (some (fmDelim :: (([] : List Str) ++
          fmDelim :: [s2l "- [ ] T <!-- asana:5 -->"])))
        [{gid := s2l "5", name := s2l "T", completed := false, due_on := none,
          assignee := none, memberships := []}]
        (s2l "P") (s2l "p1") false
        {showDueDates := true, showAssignees := true, showCompletedTasks := true}
        (s2l "2024-06-01T00:00:00.000Z")).updates))
        (s2l "P") (s2l "p1") false
        {showDueDates := true, showAssignees := true, showCompletedTasks := true}
        (s2l "2024-06-01T00:00:00.000Z")).content =
      fmOutOf (s2l "2024-06-01T00:00:00.000Z") (syncProject
        (some (fmDelim :: (([] : List Str) ++
          fmDelim :: [s2l "- [ ] T <!-- asana:5 -->"])))
        [{gid := s2l "5", name := s2l "T", completed := false, due_on := none,
          assignee := none, memberships := []}]
        (s2l "P") (s2l "p1") false
        {showDueDates := true, showAssignees := true, showCompletedTasks := true}
        (s2l "2024-06-01T00:00:00.000Z")).content ++
        bodyOf (syncProject
        (some (fmDelim :: (([] : List Str) ++
          fmDelim :: [s2l "- [ ] T <!-- asana:5 -->"])))
        [{gid := s2l "5", name := s2l "T", completed := false, due_on := none,
          assignee := none, memberships := []}]
        (s2l "P") (s2l "p1") false
        {showDueDates := true, showAssignees := true, showCompletedTasks := true}
        (s2l "2024-06-01T00:00:00.000Z")).content ∧
     (syncProject
        (some ((syncProject
        (some (fmDelim :: (([] : List Str) ++
          fmDelim :: [s2l "- [ ] T <!-- asana:5 -->"])))
        [{gid := s2l "5", name := s2l "T", completed := false, due_on := none,
          assignee := none, memberships := []}]
        (s2l "P") (s2l "p1") false
        {showDueDates := true, showAssignees := true, showCompletedTasks := true}
        (s2l "2024-06-01T00:00:00.000Z")).content))
        (applyUpdates
        [{gid := s2l "5", name := s2l "T", completed := false, due_on := none,
          assignee := none, memberships := []}]
        ((syncProject
        (some (fmDelim :: (([] : List Str) ++
          fmDelim :: [s2l "- [ ] T <!-- asana:5 -->"])))
        [{gid := s2l "5", name := s2l "T", completed := false, due_on := none,
          assignee := none, memberships := []}]
        (s2l "P") (s2l "p1") false
        {showDueDates := true, showAssignees := true, showCompletedTasks := true}
        (s2l "2024-06-01T00:00:00.000Z")).updates))
        (s2l "P") (s2l "p1") false
        {showDueDates := true, showAssignees := true, showCompletedTasks := true}
        (s2l "2024-06-01T00:00:00.000Z")).updates = [] ∧
     (syncProject
        (some ((syncProject
        (some (fmDelim :: (([] : List Str) ++
          fmDelim :: [s2l "- [ ] T <!-- asana:5 -->"])))
        [{gid := s2l "5", name := s2l "T", completed := false, due_on := none,
          assignee := none, memberships := []}]
        (s2l "P") (s2l "p1") false
        {showDueDates := true, showAssignees := true, showCompletedTasks := true}
        (s2l "2024-06-01T00:00:00.000Z")).content))
        (applyUpdates
        [{gid := s2l "5", name := s2l "T", completed := false, due_on := none,
          assignee := none, memberships := []}]
        ((syncProject
        (some (fmDelim :: (([] : List Str) ++
          fmDelim :: [s2l "- [ ] T <!-- asana:5 -->"])))
        [{gid := s2l "5", name := s2l "T", completed := false, due_on := none,
          assignee := none, memberships := []}]
        (s2l "P") (s2l "p1") false
        {showDueDates := true, showAssignees := true, showCompletedTasks := true}
        (s2l "2024-06-01T00:00:00.000Z")).updates))
        (s2l "P") (s2l "p1") false
        {showDueDates := true, showAssignees := true, showCompletedTasks := true}
        (s2l "2024-06-01T00:00:00.000Z")).added = 0 ∧
     (syncProject
        (some ((syncProject
        (some (fmDelim :: (([] : List Str) ++
          fmDelim :: [s2l "- [ ] T <!-- asana:5 -->"])))
        [{gid := s2l "5", name := s2l "T", completed := false, due_on := none,
          assignee := none, memberships := []}]
        (s2l "P") (s2l "p1") false
        {showDueDates := true, showAssignees := true, showCompletedTasks := true}
        (s2l "2024-06-01T00:00:00.000Z")).content))
        (applyUpdates
        [{gid := s2l "5", name := s2l "T", completed := false, due_on := none,
          assignee := none, memberships := []}]
        ((syncProject
        (some (fmDelim :: (([] : List Str) ++
          fmDelim :: [s2l "- [ ] T <!-- asana:5 -->"])))
        [{gid := s2l "5", name := s2l "T", completed := false, due_on := none,
          assignee := none, memberships := []}]
        (s2l "P") (s2l "p1") false
        {showDueDates := true, showAssignees := true, showCompletedTasks := true}
        (s2l "2024-06-01T00:00:00.000Z")).updates))
        (s2l "P") (s2l "p1") false
        {showDueDates := true, showAssignees := true, showCompletedTasks := true}
        (s2l "2024-06-01T00:00:00.000Z")).completionChanges = 0 ∧
     ((s2l "2024-06-01T00:00:00.000Z") = (s2l "2024-06-01T00:00:00.000Z") →
      (syncProject
        (some ((syncProject
        (some (fmDelim :: (([] : List Str) ++
          fmDelim :: [s2l "- [ ] T <!-- asana:5 -->"])))
        [{gid := s2l "5", name := s2l "T", completed := false, due_on := none,
          assignee := none, memberships := []}]
        (s2l "P") (s2l "p1") false
        {showDueDates := true, showAssignees := true, showCompletedTasks := true}
        (s2l "2024-06-01T00:00:00.000Z")).content))
        (applyUpdates
        [{gid := s2l "5", name := s2l "T", completed := false, due_on := none,
          assignee := none, memberships := []}]
        ((syncProject
        (some (fmDelim :: (([] : List Str) ++
          fmDelim :: [s2l "- [ ] T <!-- asana:5 -->"])))
        [{gid := s2l "5", name := s2l "T", completed := false, due_on := none,
          assignee := none, memberships := []}]
        (s2l "P") (s2l "p1") false
        {showDueDates := true, showAssignees := true, showCompletedTasks := true}
        (s2l "2024-06-01T00:00:00.000Z")).updates))
        (s2l "P") (s2l "p1") false
        {showDueDates := true, showAssignees := true, showCompletedTasks := true}
        (s2l "2024-06-01T00:00:00.000Z")).content = (syncProject
        (some (fmDelim :: (([] : List Str) ++
          fmDelim :: [s2l "- [ ] T <!-- asana:5 -->"])))
        [{gid := s2l "5", name := s2l "T", completed := false, due_on := none,
          assignee := none, memberships := []}]
        (s2l "P") (s2l "p1") false
        {showDueDates := true, showAssignees := true, showCompletedTasks := true}
        (s2l "2024-06-01T00:00:00.000Z")).content ∧
      (syncProject
        (some ((syncProject
        (some (fmDelim :: (([] : List Str) ++
          fmDelim :: [s2l "- [ ] T <!-- asana:5 -->"])))
        [{gid := s2l "5", name := s2l "T", completed := false, due_on := none,
          assignee := none, memberships := []}]
        (s2l "P") (s2l "p1") false
        {showDueDates := true, showAssignees := true, showCompletedTasks := true}
        (s2l "2024-06-01T00:00:00.000Z")).content))
        (applyUpdates
        [{gid := s2l "5", name := s2l "T", completed := false, due_on := none,
          assignee := none, memberships := []}]
        ((syncProject
        (some (fmDelim :: (([] : List Str) ++
          fmDelim :: [s2l "- [ ] T <!-- asana:5 -->"])))
        [{gid := s2l "5", name := s2l "T", completed := false, due_on := none,
          assignee := none, memberships := []}]
        (s2l "P") (s2l "p1") false
        {showDueDates := true, showAssignees := true, showCompletedTasks := true}
        (s2l "2024-06-01T00:00:00.000Z")).updates))
        (s2l "P") (s2l "p1") false
        {showDueDates := true, showAssignees := true, showCompletedTasks := true}
        (s2l "2024-06-01T00:00:00.000Z")).wrote = false)) :=
  ⟨by decide, by decide, by decide, by decide, by decide,
   c1_second_pass [] [s2l "- [ ] T <!-- asana:5 -->"]
     [{gid := s2l "5", name := s2l "T", completed := false, due_on := none,
        assignee := none, memberships := []}]
     (s2l "P") (s2l "p1") false
     {showDueDates := true, showAssignees := true, showCompletedTasks := true}
     (s2l "2024-06-01T00:00:00.000Z") (s2l "2024-06-01T00:00:00.000Z")
     (by decide) (by decide) (by decide) (by decide) (by decide)
     _ _ rfl rfl⟩

end AsanaSync
